import Mathlib

/-!
# bz-carousel: layout, registry synchronisation and gesture resolution

A shallow embedding of `src/src/bz-carousel.c`.

Conventions of the embedding
* `int` and `guint` values are `Int` and `Nat`; the only wrap-around the code can
  reach on well-formed input (`selected + 1` on the no-selection sentinel) is
  written with an explicit `% 2 ^ 32`.
* `double` and `float` values are exact rationals; a conversion to `int` truncates
  toward zero (`c_trunc`) and C `round` rounds halves away from zero (`c_round`).
* An out-of-bounds `g_ptr_array_index` has no defined result, and an item the
  model does not have cannot be bound: the embedding returns `none` there.
* Object identity (the `%p` of a record, the address of a model, a widget) is a
  natural number; new objects take the next free one.
* Calls into the animator, signal emissions and toolkit requests are recorded,
  in program order, in the `log` field of the state.
-/

set_option linter.unusedVariables false

namespace Bazaar

/-! ## C and GLib arithmetic -/

/-- Conversion of a `double` to `int`: truncation toward zero. -/
def c_trunc (q : ℚ) : Int := if 0 ≤ q then ⌊q⌋ else -⌊-q⌋

/-- C `round`: nearest integer, halfway cases away from zero. -/
def c_round (q : ℚ) : Int := if 0 ≤ q then ⌊q + 1 / 2⌋ else -⌊-q + 1 / 2⌋

/-- The power `2 ^ e` for an integer exponent. -/
def two_pow (e : Int) : ℚ :=
  if 0 ≤ e then ((2 ^ e.toNat : Nat) : ℚ) else 1 / ((2 ^ (-e).toNat : Nat) : ℚ)

/-- Rounding to the nearest integer, halfway cases to the even one (the IEEE 754
default rounding). -/
def round_half_even (q : ℚ) : Int :=
  let f := ⌊q⌋
  if q - f < 1 / 2 then f
  else if q - f > 1 / 2 then f + 1
  else if f % 2 = 0 then f else f + 1

/-- The exponent of the unit in the last place of the `float` nearest to `a ≥ 0`:
-149 for the subnormal range, and one more for every binade from `2 ^ -125` up to
`2 ^ 127` that `a` reaches, so that 24 significant bits remain. -/
def float_exponent (a : ℚ) : Int :=
  -149 + (((List.range 253).countP (fun j => decide (two_pow ((j : Int) - 125) ≤ a)) : Nat) : Int)

/-- Conversion to `float`, and the rounding of the result of a `float` operation:
IEEE 754 binary32, round to nearest, ties to even. Values beyond the largest
`float`, which the conversion sends to infinity, are outside the model. -/
def c_float (q : ℚ) : ℚ :=
  let a := if q < 0 then -q else q
  let e := float_exponent a
  let r := (round_half_even (a / two_pow e) : ℚ) * two_pow e
  if q < 0 then -r else r

/-- The constant `RAISE_FACTOR` (line 28). -/
def RAISE_FACTOR : ℚ := 0.025

/-- The constant `G_MAXUINT`, also `GTK_INVALID_LIST_POSITION`. -/
def G_MAXUINT : Nat := 4294967295

/-- The constant `G_MAXINT`. -/
def G_MAXINT : Int := 2147483647

/-- GLib `CLAMP (x, low, high)`: `x > high ? high : (x < low ? low : x)`. -/
def CLAMP (x low high : Int) : Int :=
  if x > high then high else if x < low then low else x

/-- GLib `MIN (a, b)`: `a < b ? a : b`. -/
def MIN {α : Type} [LT α] [DecidableRel (fun a b : α => a < b)] (a b : α) : α :=
  if a < b then a else b

/-- GLib `g_ptr_array_remove_range`: a no-op when the range is not inside the array. -/
def g_ptr_array_remove_range {α : Type} (a : List α) (index length : Nat) : List α :=
  if index + length ≤ a.length then a.take index ++ a.drop (index + length) else a

/-- GLib `g_ptr_array_insert`: a no-op when the index is past the end. -/
def g_ptr_array_insert {α : Type} (a : List α) (index : Nat) (x : α) : List α :=
  if index ≤ a.length then a.take index ++ x :: a.drop index else a

/-! ## Graphene rectangles -/

/-- A `graphene_rect_t`: origin and size. -/
structure graphene_rect_t where
  x : ℚ
  y : ℚ
  width : ℚ
  height : ℚ
  deriving DecidableEq, Repr

/-- `GRAPHENE_RECT_INIT` applied to four `int` values. -/
def GRAPHENE_RECT_INIT (x y width height : Int) : graphene_rect_t :=
  { x := x, y := y, width := width, height := height }

/-- `graphene_rect_zero ()`. -/
def graphene_rect_zero : graphene_rect_t :=
  { x := 0, y := 0, width := 0, height := 0 }

/-- `graphene_rect_normalize`: a negative extent is flipped onto the origin. -/
def graphene_rect_normalize (r : graphene_rect_t) : graphene_rect_t :=
  { x := if r.width < 0 then r.x + r.width else r.x
    y := if r.height < 0 then r.y + r.height else r.y
    width := |r.width|
    height := |r.height| }

/-- `graphene_rect_equal`: equality of the normalised rectangles. Graphene compares
the components up to the float epsilon; the targets the code builds are whole
numbers, on which that is plain equality. -/
def graphene_rect_equal (a b : graphene_rect_t) : Bool :=
  decide (graphene_rect_normalize a = graphene_rect_normalize b)

/-- `graphene_rect_contains_point`: edges included, on the normalised rectangle. -/
def graphene_rect_contains_point (r : graphene_rect_t) (px py : ℚ) : Bool :=
  let n := graphene_rect_normalize r
  decide (px ≥ n.x ∧ px ≤ n.x + n.width ∧ py ≥ n.y ∧ py ≤ n.y + n.height)

/-! ## Collaborators: animator, list model, child measurement -/

/-- An animation key `"x%p"`: the property letter and the address of the record. -/
structure AnimKey where
  prop : Char
  child : Nat
  deriving DecidableEq, Repr

/-- The arguments of one `bz_animation_add_spring` call. -/
structure Spring where
  value_from : ℚ
  value_to : ℚ
  damping_ratio : ℚ
  mass : ℚ
  stiffness : ℚ
  deriving DecidableEq, Repr

/-- The property identifiers of `g_object_notify_by_pspec`. -/
inductive PropId where
  | PROP_AUTO_SCROLL
  | PROP_ALLOW_LONG_SWIPES
  | PROP_ALLOW_MOUSE_DRAG
  | PROP_ALLOW_SCROLL_WHEEL
  | PROP_ALLOW_RAISE
  | PROP_RAISED
  | PROP_MODEL
  deriving DecidableEq, Repr

/-- Calls that leave the carousel, in the order the code makes them. -/
inductive Effect where
  | cancel (key : AnimKey)
  | add_spring (key : AnimKey) (spring : Spring)
  | unbind_widget (widget object : Nat)
  | bind_widget (widget object : Nat)
  | set_parent (widget : Nat)
  | insert_after (widget previous : Nat)
  | unref (child widget : Nat)
  | notify (pspec : PropId)
  | queue_allocate
  | allocate (widget : Nat) (width height : Int) (origin_x origin_y : ℚ)
  | claimed
  deriving DecidableEq, Repr

/-- Modelled from the spec: the animator `BzAnimation` (bz-animation.h and its
implementation are not under src/). Section 5: animations are keyed, starting one
for a key replaces the prior one, and cancellation is by key. The state is the
list of active springs with their keys. -/
abbrev BzAnimation := List (AnimKey × Spring)

/-- Modelled from the spec: `bz_animation_cancel` removes the entry of the key. -/
def bz_animation_cancel (a : BzAnimation) (key : AnimKey) : BzAnimation :=
  a.filter (fun e => decide (e.1 ≠ key))

/-- Modelled from the spec: `bz_animation_add_spring` replaces any entry of the key. -/
def bz_animation_add_spring (a : BzAnimation) (key : AnimKey) (s : Spring) : BzAnimation :=
  bz_animation_cancel a key ++ [(key, s)]

/-- What one logged call does to the animator. -/
def animation_step (a : BzAnimation) : Effect → BzAnimation
  | .cancel key => bz_animation_cancel a key
  | .add_spring key s => bz_animation_add_spring a key s
  | _ => a

/-- The `GtkSingleSelection` the carousel is bound to: identity, items, selection
cursor (`G_MAXUINT` when nothing is selected) and whether this carousel has its
`items-changed` and `notify::selected` handlers connected to it. -/
structure GtkSingleSelection where
  addr : Nat
  items : List Nat
  selected : Nat
  connected : Bool
  deriving DecidableEq, Repr

/-- `GtkOrientation`. -/
inductive GtkOrientation where
  | GTK_ORIENTATION_HORIZONTAL
  | GTK_ORIENTATION_VERTICAL
  deriving DecidableEq, Repr

/-- The four out-parameters of a measure call. -/
structure Measure where
  minimum : Int
  natural : Int
  minimum_baseline : Int
  natural_baseline : Int
  deriving DecidableEq, Repr

/-- The toolkit's `gtk_widget_measure` on the children: widget, orientation and
for-size give the four results. -/
abbrev WidgetMeasure := Nat → GtkOrientation → Int → Measure

/-- `GdkInputSource`, with one more case for a value outside the enumeration. -/
inductive GdkInputSource where
  | GDK_SOURCE_MOUSE
  | GDK_SOURCE_PEN
  | GDK_SOURCE_KEYBOARD
  | GDK_SOURCE_TOUCHSCREEN
  | GDK_SOURCE_TOUCHPAD
  | GDK_SOURCE_TRACKPOINT
  | GDK_SOURCE_TABLET_PAD
  | unrecognised
  deriving DecidableEq, Repr

/-! ## Data model -/

/-- The record `CarouselWidgetData` (lines 84-97); `addr` is the address that the
animation keys print with `%p`. -/
structure CarouselWidgetData where
  addr : Nat
  widget : Nat
  rect : graphene_rect_t
  target : graphene_rect_t
  raised : Bool
  deriving DecidableEq, Repr

/-- The instance structure `struct _BzCarousel` (lines 30-55), followed by the
state of the toolkit that the handlers read: the allocated size, what
`gtk_gesture_drag_get_offset` reports, the next free address, and the log. -/
structure BzCarousel where
  motion_x : ℚ
  motion_y : ℚ
  scrolling : Bool
  hscroll_start : Int
  hscroll_current : Int
  dragging : Bool
  animation : BzAnimation
  auto_scroll : Bool
  allow_long_swipes : Bool
  allow_mouse_drag : Bool
  allow_scroll_wheel : Bool
  allow_raise : Bool
  raised : Bool
  model : Option GtkSingleSelection
  mirror : List Nat
  widgets : List CarouselWidgetData
  width : Int
  height : Int
  drag_offset : Option (ℚ × ℚ)
  next_addr : Nat
  log : List Effect
  deriving DecidableEq, Repr

/-- The state after `bz_carousel_init`, before any size negotiation. -/
def bz_carousel_init : BzCarousel :=
  { motion_x := 0, motion_y := 0, scrolling := false, hscroll_start := 0,
    hscroll_current := 0, dragging := false, animation := [], auto_scroll := false,
    allow_long_swipes := false, allow_mouse_drag := false, allow_scroll_wheel := false,
    allow_raise := false, raised := false, model := none, mirror := [], widgets := [],
    width := 0, height := 0, drag_offset := none, next_addr := 0, log := [] }

/-- Performs a run of calls: the animator follows them and the log records them. -/
def perform (self : BzCarousel) (es : List Effect) : BzCarousel :=
  { self with animation := es.foldl animation_step self.animation, log := self.log ++ es }

/-- The four animation keys of a record, in the order the code builds them. -/
def child_keys (addr : Nat) : List AnimKey :=
  [⟨'x', addr⟩, ⟨'y', addr⟩, ⟨'w', addr⟩, ⟨'h', addr⟩]

/-- The four `bz_animation_cancel` calls on a record (lines 676-683, 854-864). -/
def cancel_child (addr : Nat) : List Effect :=
  (child_keys addr).map Effect.cancel

/-! ## Property accessors -/

/-- `bz_carousel_get_raised` (lines 514-519). -/
def bz_carousel_get_raised (self : BzCarousel) : Bool := self.raised

/-- `bz_carousel_set_raised` (lines 598-610). -/
def bz_carousel_set_raised (self : BzCarousel) (raised : Bool) : BzCarousel :=
  if raised = self.raised then self
  else perform { self with raised := raised } [.notify .PROP_RAISED]

/-- `bz_carousel_get_model` (lines 521-526). -/
def bz_carousel_get_model (self : BzCarousel) : Option GtkSingleSelection := self.model

/-- `g_list_model_get_n_items`; a NULL model fails the precondition check and
yields 0. -/
def g_list_model_get_n_items (model : Option GtkSingleSelection) : Nat :=
  match model with
  | none => 0
  | some m => m.items.length

/-- `gtk_single_selection_get_selected`; a NULL model yields the sentinel. -/
def gtk_single_selection_get_selected (model : Option GtkSingleSelection) : Nat :=
  match model with
  | none => G_MAXUINT
  | some m => m.selected

/-! ## Measure (lines 278-317) -/

/-- One iteration of the loop of `bz_carousel_measure`. -/
def measure_step (acc tmp : Measure) : Measure :=
  { minimum := if tmp.minimum > 0 ∧ tmp.minimum < acc.minimum then tmp.minimum else acc.minimum
    natural := if tmp.natural > 0 ∧ tmp.natural > acc.natural then tmp.natural else acc.natural
    minimum_baseline :=
      if tmp.minimum_baseline > 0 ∧ tmp.minimum_baseline < acc.minimum_baseline
      then tmp.minimum_baseline else acc.minimum_baseline
    natural_baseline :=
      if tmp.natural_baseline > 0 ∧ tmp.natural_baseline > acc.natural_baseline
      then tmp.natural_baseline else acc.natural_baseline }

/-- `bz_carousel_measure`: `out` holds the out-parameters as the caller passed them
in, the result is what they hold on return. -/
def bz_carousel_measure (gm : WidgetMeasure) (self : BzCarousel)
    (orientation : GtkOrientation) (for_size : Int) (out : Measure) : Measure :=
  self.widgets.foldl (fun acc child => measure_step acc (gm child.widget orientation for_size)) out

/-! ## The layout engine: `move_to_idx` (lines 737-926) -/

/-- The clamped horizontal extent of a child: `gtk_widget_measure` for the height,
then `CLAMP (hnatural, hminimum, width)` (lines 780-788, 812-820, 833-841). -/
def child_width (gm : WidgetMeasure) (widget : Nat) (for_size width : Int) : Int :=
  let m := gm widget .GTK_ORIENTATION_HORIZONTAL for_size
  CLAMP m.natural m.minimum width

/-- The anchor (lines 756-768): half the width, plus the live scroll delta, plus
the live drag offset, the sum with the `double` being truncated on assignment. -/
def anchor (self : BzCarousel) : Int :=
  let offset := self.width.tdiv 2
  let offset := if self.scrolling then offset + (self.hscroll_start - self.hscroll_current) else offset
  if self.dragging then
    match self.drag_offset with
    | some (drag_x, _) => c_trunc ((offset : ℚ) + drag_x)
    | none => offset
  else offset

/-- The first loop (lines 770-794): items `0 .. idx` move the offset left. -/
def center_offset (gm : WidgetMeasure) (self : BzCarousel) (idx : Nat) (offset : Int) : Option Int :=
  (List.range (idx + 1)).foldlM (fun offset i =>
    match self.widgets[i]? with
    | none => none
    | some child =>
      let w := child_width gm child.widget self.height self.width
      if i = idx then some (offset - w.tdiv 2) else some (offset - w)) offset

/-- The rectangle the second loop computes for one child (lines 812-847). -/
def child_target (gm : WidgetMeasure) (width height offset : Int) (child : CarouselWidgetData) :
    graphene_rect_t :=
  let rect_width := child_width gm child.widget height width
  if child.raised then
    GRAPHENE_RECT_INIT offset 0 rect_width height
  else
    let child_height := c_round ((height : ℚ) * (1.0 - RAISE_FACTOR))
    let w := child_width gm child.widget child_height width
    let child_x := offset + c_round (((rect_width - w : Int) : ℚ) * 0.5)
    let child_y := c_round ((height : ℚ) * (0.5 * RAISE_FACTOR))
    GRAPHENE_RECT_INIT child_x child_y w child_height

/-- The four `bz_animation_add_spring` calls (lines 880-914), `MASS` 1.0 and
`STIFFNESS` 0.16. -/
def spring_child (child : CarouselWidgetData) (target : graphene_rect_t) (damping_ratio : ℚ) :
    List Effect :=
  [ .add_spring ⟨'x', child.addr⟩ ⟨child.rect.x, target.x, damping_ratio, 1.0, 0.16⟩,
    .add_spring ⟨'y', child.addr⟩ ⟨child.rect.y, target.y, damping_ratio, 1.0, 0.16⟩,
    .add_spring ⟨'w', child.addr⟩ ⟨child.rect.width, target.width, damping_ratio, 1.0, 0.16⟩,
    .add_spring ⟨'h', child.addr⟩ ⟨child.rect.height, target.height, damping_ratio, 1.0, 0.16⟩ ]

/-- The transition of one child (lines 847-920): the updated record and the calls
made on the animator. -/
def layout_child (gm : WidgetMeasure) (width height : Int) (damping_ratio : ℚ) (offset : Int)
    (child : CarouselWidgetData) : CarouselWidgetData × List Effect :=
  let target := child_target gm width height offset child
  let avoid_animation := graphene_rect_equal target child.target
  if (damping_ratio < 0 ∧ avoid_animation = false) ∨
      graphene_rect_equal graphene_rect_zero child.rect = true then
    ({ child with rect := target, target := target }, cancel_child child.addr)
  else if avoid_animation = true then
    ({ child with target := target }, [])
  else
    ({ child with target := target }, spring_child child target damping_ratio)

/-- The second loop (lines 796-923): every child in order, the offset advancing
by the nominal width `rect_width`. -/
def layout_loop (gm : WidgetMeasure) (width height : Int) (damping_ratio : ℚ) :
    List CarouselWidgetData → Int → List CarouselWidgetData × List Effect
  | [], _ => ([], [])
  | child :: rest, offset =>
    let r := layout_child gm width height damping_ratio offset child
    let rs := layout_loop gm width height damping_ratio rest
      (offset + child_width gm child.widget height width)
    (r.1 :: rs.1, r.2 ++ rs.2)

/-- `move_to_idx` (lines 737-926). -/
def move_to_idx (gm : WidgetMeasure) (self : BzCarousel) (idx : Nat) (damping_ratio : ℚ) :
    Option BzCarousel :=
  if self.width = 0 ∨ self.height = 0 then
    some (perform self [.queue_allocate])
  else
    match center_offset gm self idx (anchor self) with
    | none => none
    | some offset =>
      let r := layout_loop gm self.width self.height damping_ratio self.widgets offset
      some (perform { self with widgets := r.1 } (r.2 ++ [.queue_allocate]))

/-! ## Selection cursor and viewport -/

/-- `model_selected_changed` (lines 723-735); the selection that emitted the
notification is `self->model`. -/
def model_selected_changed (gm : WidgetMeasure) (self : BzCarousel) : Option BzCarousel :=
  let idx := gtk_single_selection_get_selected self.model
  let moved := if idx ≠ G_MAXUINT then move_to_idx gm self idx 1.0 else some self
  moved.map (fun s => perform s [.queue_allocate])

/-- The toolkit's `gtk_single_selection_set_selected` on `self->model`: nothing
happens when the cursor already has the value; a position without an item becomes
the sentinel; a change is notified to the carousel when its handler is connected. -/
def gtk_single_selection_set_selected (gm : WidgetMeasure) (self : BzCarousel) (position : Nat) :
    Option BzCarousel :=
  match self.model with
  | none => some self
  | some m =>
    if m.selected = position then some self
    else
      let position := if position < m.items.length then position else G_MAXUINT
      if m.selected = position then some self
      else
        let self := { self with model := some { m with selected := position } }
        if m.connected then model_selected_changed gm self else some self

/-- `ensure_viewport` (lines 955-978). The `model` argument is `self->model` at
every call site (`items_changed` receives the model that emitted the signal, or
`self->model` from `bz_carousel_set_model`), so it is read from the state. -/
def ensure_viewport (gm : WidgetMeasure) (self : BzCarousel) (animate : Bool) : Option BzCarousel :=
  let n_items := g_list_model_get_n_items self.model
  let laid :=
    if n_items > 0 then
      let selected := gtk_single_selection_get_selected self.model
      if selected = G_MAXUINT then
        (gtk_single_selection_set_selected gm self 0).bind
          (fun s => move_to_idx gm s 0 (if animate then 1.0 else -1.0))
      else
        move_to_idx gm self selected (if animate then 1.0 else -1.0)
    else some self
  laid.map (fun s => perform s [.queue_allocate])

/-! ## Registry synchronisation: `items_changed` and `bz_carousel_set_model` -/

/-- The removal loop (lines 667-686): for every removed index the four cancels,
then the unbind signal with the child widget and the mirrored object. -/
def removal_calls (self : BzCarousel) (position removed : Nat) : Option (List Effect) :=
  ((List.range removed).mapM (fun i =>
    match self.mirror[position + i]?, self.widgets[position + i]? with
    | some object, some child =>
      some (cancel_child child.addr ++ [Effect.unbind_widget child.widget object])
    | _, _ => none)).map List.flatten

/-- The two `g_ptr_array_remove_range` calls (lines 687-691); the free function of
the item array drops each removed record. -/
def remove_items (self : BzCarousel) (position removed : Nat) : BzCarousel :=
  if removed > 0 then
    perform
      { self with
        mirror := g_ptr_array_remove_range self.mirror position removed
        widgets := g_ptr_array_remove_range self.widgets position removed }
      (if position + removed ≤ self.widgets.length then
        ((self.widgets.drop position).take removed).map (fun c => Effect.unref c.addr c.widget)
      else [])
  else self

/-- One iteration of the insertion loop (lines 693-718) for index `k = position + i`:
a new container from the next free address, parented first or after its
predecessor, the bind signal, a zeroed record, and the two insertions. -/
def add_item (self : BzCarousel) (k : Nat) : Option BzCarousel :=
  match self.model with
  | none => none
  | some m =>
    match m.items[k]? with
    | none => none
    | some object =>
      let child := self.next_addr
      let parented : Option Effect :=
        if k = 0 then some (.set_parent child)
        else (self.widgets[k - 1]?).map (fun prev => Effect.insert_after child prev.widget)
      match parented with
      | none => none
      | some p =>
        let data : CarouselWidgetData :=
          { addr := self.next_addr + 1, widget := child, rect := graphene_rect_zero,
            target := graphene_rect_zero, raised := false }
        some (perform
          { self with
            next_addr := self.next_addr + 2
            mirror := g_ptr_array_insert self.mirror k object
            widgets := g_ptr_array_insert self.widgets k data }
          [p, .bind_widget child object])

/-- `items_changed` (lines 660-721). The `model` argument is `self->model` at every
call site and is read from the state; it already holds the new items. -/
def items_changed (gm : WidgetMeasure) (self : BzCarousel) (position removed added : Nat) :
    Option BzCarousel :=
  match removal_calls self position removed with
  | none => none
  | some calls =>
    let self := remove_items (perform self calls) position removed
    match (List.range added).foldlM (fun s i => add_item s (position + i)) self with
    | none => none
    | some self => ensure_viewport gm self false

/-- Delivery of the model's `items-changed` signal: the model object has changed
to `m`, then the connected handler runs. -/
def deliver_items_changed (gm : WidgetMeasure) (self : BzCarousel) (m : GtkSingleSelection)
    (position removed added : Nat) : Option BzCarousel :=
  items_changed gm { self with model := some m } position removed added

/-- `bz_carousel_set_model` (lines 612-658); `model == self->model` compares the
addresses of the objects. -/
def bz_carousel_set_model (gm : WidgetMeasure) (self : BzCarousel)
    (model : Option GtkSingleSelection) : Option BzCarousel :=
  if model.map (fun m => m.addr) = self.model.map (fun m => m.addr) then some self
  else
    let cleared :=
      match self.model with
      | some old =>
        items_changed gm { self with model := some { old with connected := false } }
          0 old.items.length 0
      | none => some self
    match cleared with
    | none => none
    | some self =>
      let self := { self with model := none }
      let filled :=
        match model with
        | some m =>
          (items_changed gm { self with model := some { m with connected := false } }
            0 0 m.items.length).map
            (fun (s : BzCarousel) =>
              { s with model := s.model.map (fun (m : GtkSingleSelection) => { m with connected := true }) })
        | none => some self
      filled.map (fun s => perform s [.notify .PROP_MODEL])

/-- `bz_carousel_size_allocate` (lines 319-346); the toolkit has stored the new
size before it calls the function. `gtk_widget_allocate` takes `int` sizes, so the
`float` width and height of the rect are truncated; the origin goes into the
transform as it is. -/
def bz_carousel_size_allocate (gm : WidgetMeasure) (self : BzCarousel) (width height : Int) :
    Option BzCarousel :=
  (ensure_viewport gm { self with width := width, height := height } false).map
    (fun s => perform s (s.widgets.map (fun c =>
      Effect.allocate c.widget (c_trunc c.rect.width) (c_trunc c.rect.height)
        c.rect.x c.rect.y)))

/-! ## Hover -/

/-- `GRAPHENE_POINT_INIT (x, y)`: a `graphene_point_t` holds two `float`s, so the
`double` coordinates are converted. -/
def GRAPHENE_POINT_INIT (x y : ℚ) : ℚ × ℚ := (c_float x, c_float y)

/-- The loop of `update_motion` (lines 1026-1038) for the point `(x, y)`: the
updated records and `ensure`. -/
def raise_loop (x y : ℚ) : List CarouselWidgetData → List CarouselWidgetData × Bool
  | [] => ([], false)
  | child :: rest =>
    let contained := graphene_rect_contains_point child.target x y
    let rs := raise_loop x y rest
    if contained ≠ child.raised then ({ child with raised := contained } :: rs.1, true)
    else (child :: rs.1, rs.2)

/-- `update_motion` (lines 1013-1044); the containment test is made on the `float`
point of line 1021. -/
def update_motion (gm : WidgetMeasure) (self : BzCarousel) (x y : ℚ) : Option BzCarousel :=
  let point := GRAPHENE_POINT_INIT x y
  if self.scrolling then some self
  else
    let r := raise_loop point.1 point.2 self.widgets
    let self := { self with widgets := r.1 }
    if self.dragging then some self
    else if r.2 then ensure_viewport gm self true
    else some self

/-- `motion_enter` (lines 980-989). -/
def motion_enter (gm : WidgetMeasure) (self : BzCarousel) (x y : ℚ) : Option BzCarousel :=
  update_motion gm { self with motion_x := x, motion_y := y } x y

/-- `motion_event` (lines 991-1000). -/
def motion_event (gm : WidgetMeasure) (self : BzCarousel) (x y : ℚ) : Option BzCarousel :=
  update_motion gm { self with motion_x := x, motion_y := y } x y

/-- `motion_leave` (lines 1002-1011). -/
def motion_leave (gm : WidgetMeasure) (self : BzCarousel) : Option BzCarousel :=
  if self.dragging then some self
  else update_motion gm { self with motion_x := -1.0, motion_y := -1.0 } (-1.0) (-1.0)

/-! ## Gesture resolution -/

/-- The centring score of one rectangle (lines 1209-1219); `width` is the `double`
copy of the viewport width, each distance is truncated on assignment to `int`.
The right edge `rect.origin.x + rect.size.width` is a sum of two `float`s, so it is
rounded to `float` before it meets the `double` `width / 2.0`. -/
def distance_from_center (width : ℚ) (rect : graphene_rect_t) : Int :=
  let right_edge := c_float (rect.x + rect.width)
  let left_distance :=
    if rect.x > width / 2.0 then c_trunc (rect.x - width / 2.0)
    else c_trunc (width / 2.0 - rect.x)
  let right_distance :=
    if right_edge > width / 2.0 then c_trunc (right_edge - width / 2.0)
    else c_trunc (width / 2.0 - right_edge)
  MIN left_distance right_distance

/-- The loop of `finish_horizontal_gesture` (lines 1200-1225) from index `i` on,
carrying `new_selected` and `min_distance`. -/
def nearest_loop (width : ℚ) : List CarouselWidgetData → Nat → Nat × Int → Nat × Int
  | [], _, acc => acc
  | child :: rest, i, acc =>
    let d := distance_from_center width child.rect
    nearest_loop width rest (i + 1) (if d < acc.2 then (i, d) else acc)

/-- The nearest-to-centre candidate: `new_selected` after the loop. -/
def nearest (self : BzCarousel) : Nat :=
  (nearest_loop (self.width : ℚ) self.widgets 0 (G_MAXUINT, G_MAXINT)).1

/-- The snap threshold (lines 1227-1236) applied to the candidate. -/
def snap (self : BzCarousel) (selected new_selected : Nat) (offset_x : Int) : Nat :=
  if new_selected = selected then
    if offset_x > 15 ∧ selected > 0 then new_selected - 1
    else if offset_x < -15 ∧ selected < self.widgets.length - 1 then new_selected + 1
    else new_selected
  else new_selected

/-- `finish_horizontal_gesture` (lines 1183-1243). -/
def finish_horizontal_gesture (gm : WidgetMeasure) (self : BzCarousel) (offset_x offset_y : Int) :
    Option BzCarousel :=
  if self.model = none ∨ self.widgets.length = 0 then some self
  else
    let selected := gtk_single_selection_get_selected self.model
    let new_selected := snap self selected (nearest self) offset_x
    if new_selected = G_MAXUINT ∨ new_selected = selected then ensure_viewport gm self true
    else gtk_single_selection_set_selected gm self new_selected

/-- `scroll_begin` (lines 1046-1053). -/
def scroll_begin (self : BzCarousel) : BzCarousel :=
  { self with
    scrolling := true
    hscroll_start := c_trunc self.motion_x
    hscroll_current := c_trunc self.motion_x }

/-- `scroll_end` (lines 1055-1068). -/
def scroll_end (gm : WidgetMeasure) (self : BzCarousel) : Option BzCarousel :=
  let self := { self with scrolling := false }
  (finish_horizontal_gesture gm self (self.hscroll_start - self.hscroll_current) 0).bind
    (fun s =>
      let s := { s with hscroll_start := -1, hscroll_current := -1 }
      update_motion gm s s.motion_x s.motion_y)

/-- `scroll` (lines 1070-1143): the returned flag and the new state. The guard of
line 1109 is evaluated in `float`: `width / 2` is the integer half converted to
`float`, `rect.size.width / 2` a `float` quotient, and their difference a `float`. -/
def scroll (gm : WidgetMeasure) (self : BzCarousel) (dx dy : ℚ) (source : GdkInputSource) :
    Option (Bool × BzCarousel) :=
  if self.model = none then some (false, { self with scrolling := false })
  else
    let n_items := g_list_model_get_n_items self.model
    if n_items = 0 then some (false, { self with scrolling := false })
    else
      match source with
      | .GDK_SOURCE_TOUCHPAD | .GDK_SOURCE_TRACKPOINT =>
        let refused :=
          match self.widgets with
          | first :: _ =>
            decide (dx < 0 ∧
              first.rect.x ≥ c_float (c_float ((self.width.tdiv 2 : Int) : ℚ)
                - c_float (first.rect.width / 2)))
          | [] => false
        if refused then some (false, self)
        else
          let self := { self with hscroll_current := c_trunc ((self.hscroll_current : ℚ) + dx) }
          (ensure_viewport gm self false).map (fun s => (true, s))
      | _ =>
        let selected := gtk_single_selection_get_selected self.model
        let new_selected :=
          if dx > 0 then MIN ((selected + 1) % 2 ^ 32) (n_items - 1)
          else if selected = 0 then 0
          else selected - 1
        (gtk_single_selection_set_selected gm self new_selected).map (fun s => (true, s))

/-- `drag_begin` (lines 1145-1156); the gesture reports a zero offset from now on. -/
def drag_begin (gm : WidgetMeasure) (self : BzCarousel) : Option BzCarousel :=
  let self := { self with dragging := true, drag_offset := some (0, 0) }
  if self.model = none then some self
  else ensure_viewport gm self true

/-- `drag_update` (lines 1174-1181); the gesture reports the offset of the event. -/
def drag_update (gm : WidgetMeasure) (self : BzCarousel) (offset_x offset_y : ℚ) :
    Option BzCarousel :=
  ensure_viewport gm { self with drag_offset := some (offset_x, offset_y) } false

/-- `drag_end` (lines 1158-1172); the `double` offsets are truncated to the `int`
parameters of `finish_horizontal_gesture`. -/
def drag_end (gm : WidgetMeasure) (self : BzCarousel) (offset_x offset_y : ℚ) :
    Option BzCarousel :=
  let self := { self with dragging := false }
  (finish_horizontal_gesture gm self (c_trunc offset_x) (c_trunc offset_y)).map
    (fun s =>
      if offset_x < -3 ∨ offset_x > 3 ∨ offset_y < -3 ∨ offset_y > 3 then perform s [.claimed]
      else s)

/-! ## Template callbacks (bz-template-callbacks.c) -/

/-- A `GListModel` as far as the callbacks read it: its items. -/
abbrev GListModel := List Nat

/-- `is_longer` (bz-template-callbacks.c, lines 98-105). The item count is a
`guint` and `value` an `int`, so the comparison converts `value` to `guint`. -/
def is_longer (model : Option GListModel) (value : Int) : Bool :=
  match model with
  | none => false
  | some m => decide (m.length % 2 ^ 32 > (value % 2 ^ 32).toNat)

/-! ## Notions used to state the properties -/

/-- Sum of the nominal widths (measured for the full height) of the first `n`
children. -/
def nominal_sum (gm : WidgetMeasure) (width height : Int) (l : List CarouselWidgetData)
    (n : Nat) : Int :=
  ((l.take n).map (fun c => child_width gm c.widget height width)).sum

/-- The selection cursor of a model is an index of an item or the sentinel. -/
def selection_valid : Option GtkSingleSelection → Bool
  | none => true
  | some m => decide (m.selected < m.items.length ∨ m.selected = G_MAXUINT)

/-- The registry mirrors the model: both sequences have one entry per item of the
model and the cursor is valid. -/
def synced (s : BzCarousel) : Prop :=
  s.mirror.length = s.widgets.length ∧
    g_list_model_get_n_items s.model = s.widgets.length ∧
    selection_valid s.model = true

instance (s : BzCarousel) : Decidable (synced s) := by
  unfold synced; infer_instance

/-- The part of the state that a re-layout never writes: everything but the
rectangles and targets of the records, the selection cursor, the animator and the
log. -/
def frame (s : BzCarousel) : BzCarousel :=
  { s with
    animation := []
    log := []
    model := s.model.map (fun (m : GtkSingleSelection) => { m with selected := 0 })
    widgets := s.widgets.map (fun (c : CarouselWidgetData) =>
      { c with rect := graphene_rect_zero, target := graphene_rect_zero }) }

/-- A child that measures 100 wide, minimum and natural, for every height. -/
def wide100 : WidgetMeasure := fun _ _ _ => ⟨100, 100, -1, -1⟩

/-- Two items of natural width 100 at rest in a 300 by 200 viewport, item 0
selected, nothing hovered. -/
def two_items_at_rest : BzCarousel :=
  { bz_carousel_init with
    width := 300
    height := 200
    model := some ⟨1, [10, 11], 0, true⟩
    mirror := [10, 11]
    widgets :=
      [ ⟨1, 0, ⟨100, 3, 100, 195⟩, ⟨100, 3, 100, 195⟩, false⟩,
        ⟨3, 2, ⟨200, 3, 100, 195⟩, ⟨200, 3, 100, 195⟩, false⟩ ]
    next_addr := 4 }

/-- The offset at which the second loop of `move_to_idx` starts when `idx` is an
index of the item sequence: the anchor, less the nominal widths before `idx`, less
half the nominal width of `idx`. -/
def layout_start (gm : WidgetMeasure) (self : BzCarousel) (idx : Nat) : Int :=
  anchor self - nominal_sum gm self.width self.height self.widgets idx
    - (((self.widgets[idx]?).map
        (fun c => child_width gm c.widget self.height self.width)).getD 0).tdiv 2

/-- The state `move_to_idx` produces on a non-zero viewport for an index of the
item sequence. -/
def relayout (gm : WidgetMeasure) (self : BzCarousel) (idx : Nat) (damping_ratio : ℚ) :
    BzCarousel :=
  perform
    { self with
      widgets := (layout_loop gm self.width self.height damping_ratio self.widgets
        (layout_start gm self idx)).1 }
    ((layout_loop gm self.width self.height damping_ratio self.widgets
        (layout_start gm self idx)).2 ++ [.queue_allocate])

/-- One `items-changed` notification: the model as it is after the change, and the
three arguments of the signal. -/
structure Notification where
  model : GtkSingleSelection
  position : Nat
  removed : Nat
  added : Nat
  deriving DecidableEq, Repr

/-- Delivery of a sequence of notifications, in order. -/
def deliver_all (gm : WidgetMeasure) (self : BzCarousel) : List Notification → Option BzCarousel
  | [] => some self
  | e :: rest =>
    (deliver_items_changed gm self e.model e.position e.removed e.added).bind
      (fun s => deliver_all gm s rest)

/-- The notifications are consistent with a model that has `n` items before the
first of them: each range lies inside the items there are, each new item count is
the old one less the removed plus the added items, and each cursor is valid. -/
def consistent (n : Nat) : List Notification → Bool
  | [] => true
  | e :: rest =>
    decide (e.position + e.removed ≤ n) &&
      decide (e.model.items.length = n - e.removed + e.added) &&
      selection_valid (some e.model) &&
      consistent (n - e.removed + e.added) rest

/-- The item count after a sequence of notifications, from a count of `n`. -/
def final_count (n : Nat) : List Notification → Nat
  | [] => n
  | e :: rest => final_count (n - e.removed + e.added) rest

/-- The keys that the `bz_animation_cancel` calls of a run of calls name. -/
def cancelled_keys : List Effect → List AnimKey
  | [] => []
  | .cancel key :: rest => key :: cancelled_keys rest
  | _ :: rest => cancelled_keys rest

/-- The keys an unanimated pass of the second loop of `move_to_idx` cancels: the
four keys of every record whose newly computed rectangle differs from its previous
target, or whose rect is all-zero. -/
def snapped_keys (gm : WidgetMeasure) (width height : Int) :
    List CarouselWidgetData → Int → List AnimKey
  | [], _ => []
  | child :: rest, offset =>
    let later := snapped_keys gm width height rest
      (offset + child_width gm child.widget height width)
    if graphene_rect_equal (child_target gm width height offset child) child.target = false ∨
        graphene_rect_equal graphene_rect_zero child.rect = true then
      child_keys child.addr ++ later
    else later

/-- Two items of natural width 100 displaced 20 units to the right of their
resting targets, with the springs on their x coordinates in flight. -/
def two_items_settling : BzCarousel :=
  { two_items_at_rest with
    widgets :=
      [ ⟨1, 0, ⟨120, 3, 100, 195⟩, ⟨100, 3, 100, 195⟩, false⟩,
        ⟨3, 2, ⟨220, 3, 100, 195⟩, ⟨200, 3, 100, 195⟩, false⟩ ]
    animation :=
      [ (⟨'x', 1⟩, ⟨120, 100, 1.0, 1.0, 0.16⟩), (⟨'x', 3⟩, ⟨220, 200, 1.0, 1.0, 0.16⟩) ] }

/-- The keys `items_changed` cancels when it removes the one record at index `i`
and the model is left as `m`: the four keys of that record, then, when the model
still has items and the viewport is not zero, the keys the concluding unanimated
re-layout cancels among the records that stay. -/
def removal_cancelled (gm : WidgetMeasure) (s : BzCarousel) (m : GtkSingleSelection) (i : Nat) :
    List AnimKey :=
  (match s.widgets[i]? with
    | some c => child_keys c.addr
    | none => []) ++
  (if s.width = 0 ∨ s.height = 0 ∨ m.items.length = 0 then []
    else snapped_keys gm s.width s.height (g_ptr_array_remove_range s.widgets i 1)
      (layout_start gm { s with widgets := g_ptr_array_remove_range s.widgets i 1 } m.selected))

/-- The scenario of the drag commit: from two items at rest, drag-begin, then a
drag-update with offset (20, 0). -/
def two_items_dragged : Option BzCarousel :=
  (drag_begin wide100 two_items_at_rest).bind (fun s => drag_update wide100 s 20 0)

/-- A child that measures minimum 50 and natural 100 in both orientations, with
no baseline. -/
def min50_nat100 : WidgetMeasure := fun _ _ _ => ⟨50, 100, -1, -1⟩

/-- Two items at rest with the pointer over item 0, as `motion_enter` at (150, 100)
leaves them: the item is raised, its springs to the full height are in flight. -/
def two_items_hovered : BzCarousel :=
  { two_items_at_rest with
    motion_x := 150
    motion_y := 100
    animation :=
      [ (⟨'x', 1⟩, ⟨100, 100, 1.0, 1.0, 0.16⟩), (⟨'y', 1⟩, ⟨3, 0, 1.0, 1.0, 0.16⟩),
        (⟨'w', 1⟩, ⟨100, 100, 1.0, 1.0, 0.16⟩), (⟨'h', 1⟩, ⟨195, 200, 1.0, 1.0, 0.16⟩) ]
    widgets :=
      [ ⟨1, 0, ⟨100, 3, 100, 195⟩, ⟨100, 0, 100, 200⟩, true⟩,
        ⟨3, 2, ⟨200, 3, 100, 195⟩, ⟨200, 3, 100, 195⟩, false⟩ ]
    log :=
      [ .add_spring ⟨'x', 1⟩ ⟨100, 100, 1.0, 1.0, 0.16⟩,
        .add_spring ⟨'y', 1⟩ ⟨3, 0, 1.0, 1.0, 0.16⟩,
        .add_spring ⟨'w', 1⟩ ⟨100, 100, 1.0, 1.0, 0.16⟩,
        .add_spring ⟨'h', 1⟩ ⟨195, 200, 1.0, 1.0, 0.16⟩,
        .queue_allocate, .queue_allocate ] }

/-- The states the hover handlers and the scroll-end handler reach from `s0`. -/
inductive hover_reachable (gm : WidgetMeasure) (s0 : BzCarousel) : BzCarousel → Prop where
  | start : hover_reachable gm s0 s0
  | enter (s s1 : BzCarousel) (x y : ℚ) :
      hover_reachable gm s0 s → motion_enter gm s x y = some s1 → hover_reachable gm s0 s1
  | motion (s s1 : BzCarousel) (x y : ℚ) :
      hover_reachable gm s0 s → motion_event gm s x y = some s1 → hover_reachable gm s0 s1
  | leave (s s1 : BzCarousel) :
      hover_reachable gm s0 s → motion_leave gm s = some s1 → hover_reachable gm s0 s1
  | scroll_end (s s1 : BzCarousel) :
      hover_reachable gm s0 s → scroll_end gm s = some s1 → hover_reachable gm s0 s1

/-- A carousel that has been given a size of 300 by 200 and no model yet. -/
def sized_empty : BzCarousel :=
  { bz_carousel_init with width := 300, height := 200 }

/-- Two items of natural width 100 as a drag of 20 units leaves them: rects and
targets both 20 units right of the resting position, no spring in flight. -/
def two_items_displaced : BzCarousel :=
  { two_items_at_rest with
    widgets :=
      [ ⟨1, 0, ⟨120, 3, 100, 195⟩, ⟨120, 3, 100, 195⟩, false⟩,
        ⟨3, 2, ⟨220, 3, 100, 195⟩, ⟨220, 3, 100, 195⟩, false⟩ ] }

/-- The offset the second loop of `move_to_idx` has reached when it comes to item
`j`: the start, advanced by the nominal widths of the items before `j`. -/
def item_offset (gm : WidgetMeasure) (self : BzCarousel) (idx j : Nat) : Int :=
  layout_start gm self idx + nominal_sum gm self.width self.height self.widgets j

/-- The rectangle the second loop computes for the record `c` at position `j`. -/
def item_target (gm : WidgetMeasure) (self : BzCarousel) (idx j : Nat)
    (c : CarouselWidgetData) : graphene_rect_t :=
  child_target gm self.width self.height (item_offset gm self idx j) c

/-- The calls the second loop makes on the animator for item `j`. -/
def item_calls (gm : WidgetMeasure) (self : BzCarousel) (idx : Nat) (d : ℚ) (j : Nat) :
    List Effect :=
  match self.widgets[j]? with
  | some c => (layout_child gm self.width self.height d (item_offset gm self idx j) c).2
  | none => []

/-- The keys of the springs that a run of calls starts, in order. -/
def spring_keys (es : List Effect) : List AnimKey :=
  es.filterMap (fun e =>
    match e with
    | .add_spring key _ => some key
    | _ => none)

/-- The unbind notifications of a run of calls, in order: widget and object. -/
def unbinds (es : List Effect) : List (Nat × Nat) :=
  es.filterMap (fun e =>
    match e with
    | .unbind_widget widget object => some (widget, object)
    | _ => none)

/-- The bind notifications of a run of calls, in order: widget and object. -/
def binds (es : List Effect) : List (Nat × Nat) :=
  es.filterMap (fun e =>
    match e with
    | .bind_widget widget object => some (widget, object)
    | _ => none)

/-- The records a run of calls releases, in order: record and widget. -/
def unrefs (es : List Effect) : List (Nat × Nat) :=
  es.filterMap (fun e =>
    match e with
    | .unref child widget => some (child, widget)
    | _ => none)

/-- A run of calls that binds, unbinds and releases nothing. -/
def quiet (es : List Effect) : Prop :=
  unbinds es = [] ∧ binds es = [] ∧ unrefs es = []

/-- The addresses of the records in the registry. -/
def addrs (s : BzCarousel) : List Nat := s.widgets.map (fun c => c.addr)

/-- The state `s1` comes from `s` by a run of calls that keeps every record of the
registry in its place, starts springs only on keys of those records, and binds,
unbinds and releases nothing. -/
def evolves (s s1 : BzCarousel) : Prop :=
  addrs s1 = addrs s ∧ s1.next_addr = s.next_addr ∧ s1.mirror = s.mirror ∧
    ∃ es, s1.log = s.log ++ es ∧ s1.animation = es.foldl animation_step s.animation ∧
      (∀ k ∈ spring_keys es, ∃ a ∈ addrs s, k ∈ child_keys a) ∧ quiet es

/-- The calls of the removal loop for the records `ws` and their mirrored objects
`os`: for each record its four cancels, then its unbind notification. -/
def removal_log (ws : List CarouselWidgetData) (os : List Nat) : List Effect :=
  ((ws.zip os).map (fun p =>
    cancel_child p.1.addr ++ [Effect.unbind_widget p.1.widget p.2])).flatten

/-- The release of the records `ws` by the free function of the item array. -/
def release_log (ws : List CarouselWidgetData) : List Effect :=
  ws.map (fun c => Effect.unref c.addr c.widget)

/-- No dangling animation handle: every active animation has one of the four keys
of a record of the registry, no key is active twice, and the records of the
registry have distinct addresses below the next free one. -/
def anim_inv (s : BzCarousel) : Prop :=
  (∀ e ∈ s.animation, ∃ c ∈ s.widgets, e.1 ∈ child_keys c.addr) ∧
    (s.animation.map Prod.fst).Nodup ∧ (addrs s).Nodup ∧ ∀ a ∈ addrs s, a < s.next_addr

/-- The states the carousel reaches from `bz_carousel_init` through the model's
notifications, `bz_carousel_set_model`, size allocation, `move_to_idx`, a change
of the selection, and the pointer, scroll and drag handlers, whenever the call
returns. -/
inductive reachable (gm : WidgetMeasure) : BzCarousel → Prop where
  | init : reachable gm bz_carousel_init
  | items_changed (s s1 : BzCarousel) (m : GtkSingleSelection) (p r a : Nat) :
      reachable gm s → deliver_items_changed gm s m p r a = some s1 → reachable gm s1
  | set_model (s s1 : BzCarousel) (model : Option GtkSingleSelection) :
      reachable gm s → bz_carousel_set_model gm s model = some s1 → reachable gm s1
  | size_allocate (s s1 : BzCarousel) (width height : Int) :
      reachable gm s → bz_carousel_size_allocate gm s width height = some s1 → reachable gm s1
  | move_to_idx (s s1 : BzCarousel) (idx : Nat) (d : ℚ) :
      reachable gm s → move_to_idx gm s idx d = some s1 → reachable gm s1
  | set_selected (s s1 : BzCarousel) (position : Nat) :
      reachable gm s → gtk_single_selection_set_selected gm s position = some s1 →
      reachable gm s1
  | motion_enter (s s1 : BzCarousel) (x y : ℚ) :
      reachable gm s → motion_enter gm s x y = some s1 → reachable gm s1
  | motion_event (s s1 : BzCarousel) (x y : ℚ) :
      reachable gm s → motion_event gm s x y = some s1 → reachable gm s1
  | motion_leave (s s1 : BzCarousel) :
      reachable gm s → motion_leave gm s = some s1 → reachable gm s1
  | scroll_begin (s : BzCarousel) : reachable gm s → reachable gm (scroll_begin s)
  | scroll (s s1 : BzCarousel) (dx dy : ℚ) (source : GdkInputSource) (handled : Bool) :
      reachable gm s → scroll gm s dx dy source = some (handled, s1) → reachable gm s1
  | scroll_end (s s1 : BzCarousel) :
      reachable gm s → scroll_end gm s = some s1 → reachable gm s1
  | drag_begin (s s1 : BzCarousel) :
      reachable gm s → drag_begin gm s = some s1 → reachable gm s1
  | drag_update (s s1 : BzCarousel) (x y : ℚ) :
      reachable gm s → drag_update gm s x y = some s1 → reachable gm s1
  | drag_end (s s1 : BzCarousel) (x y : ℚ) :
      reachable gm s → drag_end gm s x y = some s1 → reachable gm s1

/-- A carousel after its first size allocation, 300 by 200. -/
def after_allocation : BzCarousel :=
  (bz_carousel_size_allocate wide100 bz_carousel_init 300 200).getD bz_carousel_init

/-- The carousel after the model then announces two items, the first selected. -/
def after_two_items : BzCarousel :=
  (deliver_items_changed wide100 after_allocation ⟨1, [10, 11], 0, true⟩ 0 0 2).getD
    after_allocation

/-- The carousel after the selection then moves to the second item. -/
def after_selecting_second : BzCarousel :=
  (gtk_single_selection_set_selected wide100 after_two_items 1).getD after_two_items

/-- A child that measures 100 wide for the height 200 and 90 wide for every other
height. -/
def shrinks90 : WidgetMeasure :=
  fun _ _ f => if f = 200 then ⟨100, 100, -1, -1⟩ else ⟨90, 90, -1, -1⟩

/-- Two such items in a 300 by 200 viewport, the second selected, as a drag of
15.5 units to the right has laid them out: slots at 15 and 115, the unraised items
inset by 5. -/
def second_item_dragged : BzCarousel :=
  { bz_carousel_init with
    width := 300
    height := 200
    model := some ⟨1, [10, 11], 1, true⟩
    mirror := [10, 11]
    widgets :=
      [ ⟨1, 0, ⟨20, 3, 90, 195⟩, ⟨20, 3, 90, 195⟩, false⟩,
        ⟨3, 2, ⟨120, 3, 90, 195⟩, ⟨120, 3, 90, 195⟩, false⟩ ]
    dragging := true
    drag_offset := some (31 / 2, 0)
    next_addr := 4 }

/-- Two items of width 100 at rest in a 300 by 200 viewport with the second item
selected: the rects are the targets `move_to_idx` computes for index 1. -/
def second_selected_at_rest : BzCarousel :=
  { two_items_at_rest with
    model := some ⟨1, [10, 11], 1, true⟩
    widgets :=
      [ ⟨1, 0, ⟨0, 3, 100, 195⟩, ⟨0, 3, 100, 195⟩, false⟩,
        ⟨3, 2, ⟨100, 3, 100, 195⟩, ⟨100, 3, 100, 195⟩, false⟩ ] }

/-- A run of scroll events from one source, in order, each with the horizontal
delta given. -/
def scroll_all (gm : WidgetMeasure) (source : GdkInputSource) :
    BzCarousel → List ℚ → Option BzCarousel
  | self, [] => some self
  | self, dx :: rest =>
    (scroll gm self dx 0 source).bind (fun r => scroll_all gm source r.2 rest)

/-- The start guard of a continuous-source scroll event (line 1109): the event
moves left and the first item's left edge is at or right of its centred position,
the position being computed in `float`. -/
def start_guard (self : BzCarousel) (dx : ℚ) : Bool :=
  match self.widgets with
  | first :: _ =>
    decide (dx < 0 ∧
      first.rect.x ≥ c_float (c_float ((self.width.tdiv 2 : Int) : ℚ)
        - c_float (first.rect.width / 2)))
  | [] => false

/-- Two items that measure 100 wide for the full height and 90 for the shrunk one,
in a 300 by 200 viewport, the first selected and raised under the pointer. -/
def first_item_raised : BzCarousel :=
  { two_items_at_rest with
    motion_x := 150
    motion_y := 100
    widgets :=
      [ ⟨1, 0, ⟨100, 0, 100, 200⟩, ⟨100, 0, 100, 200⟩, true⟩,
        ⟨3, 2, ⟨205, 3, 90, 195⟩, ⟨205, 3, 90, 195⟩, false⟩ ] }

theorem tdiv_two_nonneg (a : Int) (h : 0 ≤ a) : 2 * a.tdiv 2 ≤ a ∧ a ≤ 2 * a.tdiv 2 + 1 := by
  rw [Int.tdiv_eq_ediv h (by norm_num)]; omega

theorem tdiv_two_neg (a : Int) (h : a < 0) : 2 * a.tdiv 2 - 1 ≤ a ∧ a ≤ 2 * a.tdiv 2 := by
  have e : a = -(-a) := by omega
  rw [e, Int.neg_tdiv, Int.tdiv_eq_ediv (by omega) (by norm_num)]; omega

theorem tdiv_two_bounds (a : Int) : 2 * a.tdiv 2 - 1 ≤ a ∧ a ≤ 2 * a.tdiv 2 + 1 := by
  rcases lt_or_le a 0 with h | h
  · have := tdiv_two_neg a h; omega
  · have := tdiv_two_nonneg a h; omega

/-- Rounding half of an integer: twice the result is within one of the integer. -/
theorem c_round_half_bounds (d : Int) :
    d - 1 ≤ 2 * c_round ((d : ℚ) * 0.5) ∧ 2 * c_round ((d : ℚ) * 0.5) ≤ d + 1 := by
  unfold c_round
  split_ifs with h
  · have h1 := Int.floor_le ((d : ℚ) * 0.5 + 1 / 2)
    have h2 := Int.lt_floor_add_one ((d : ℚ) * 0.5 + 1 / 2)
    set r := ⌊(d : ℚ) * 0.5 + 1 / 2⌋
    have h3 : ((2 * r : Int) : ℚ) ≤ ((d + 1 : Int) : ℚ) := by push_cast; norm_num at h1 ⊢; linarith
    have h4 : ((d + 1 : Int) : ℚ) < ((2 * r + 2 : Int) : ℚ) := by push_cast; norm_num at h2 ⊢; linarith
    have h5 : 2 * r ≤ d + 1 := by exact_mod_cast h3
    have h6 : d + 1 < 2 * r + 2 := by exact_mod_cast h4
    omega
  · have h1 := Int.floor_le (-((d : ℚ) * 0.5) + 1 / 2)
    have h2 := Int.lt_floor_add_one (-((d : ℚ) * 0.5) + 1 / 2)
    set r := ⌊-((d : ℚ) * 0.5) + 1 / 2⌋
    have h3 : ((2 * r : Int) : ℚ) ≤ ((-d + 1 : Int) : ℚ) := by push_cast; norm_num at h1 ⊢; linarith
    have h4 : ((-d + 1 : Int) : ℚ) < ((2 * r + 2 : Int) : ℚ) := by push_cast; norm_num at h2 ⊢; linarith
    have h5 : 2 * r ≤ -d + 1 := by exact_mod_cast h3
    have h6 : -d + 1 < 2 * r + 2 := by exact_mod_cast h4
    omega


theorem nominal_sum_succ (gm : WidgetMeasure) (width height : Int) (l : List CarouselWidgetData)
    (n : Nat) (h : n < l.length) :
    nominal_sum gm width height l (n + 1)
      = nominal_sum gm width height l n + child_width gm (l[n]).widget height width := by
  unfold nominal_sum
  rw [List.map_take, List.map_take, List.sum_take_succ _ _ (by simpa using h)]
  simp

theorem center_offset_prefix (gm : WidgetMeasure) (self : BzCarousel) (idx : Nat) (offset : Int)
    (n : Nat) (hn : n ≤ idx) (hl : n ≤ self.widgets.length) :
    (List.range n).foldlM (fun offset i =>
      match self.widgets[i]? with
      | none => none
      | some child =>
        let w := child_width gm child.widget self.height self.width
        if i = idx then some (offset - w.tdiv 2) else some (offset - w)) offset
      = some (offset - nominal_sum gm self.width self.height self.widgets n) := by
  induction n with
  | zero => simp [nominal_sum]
  | succ k ih =>
    have hk : k < self.widgets.length := by omega
    rw [List.range_succ, List.foldlM_append, ih (by omega) (by omega)]
    have hne : k ≠ idx := by omega
    simp [List.getElem?_eq_getElem hk, hne, nominal_sum_succ gm _ _ _ k hk]
    omega

theorem center_offset_eq (gm : WidgetMeasure) (self : BzCarousel) (idx : Nat) (offset : Int)
    (h : idx < self.widgets.length) :
    center_offset gm self idx offset
      = some (offset - nominal_sum gm self.width self.height self.widgets idx
          - (child_width gm (self.widgets[idx]).widget self.height self.width).tdiv 2) := by
  unfold center_offset
  rw [List.range_succ, List.foldlM_append, center_offset_prefix gm self idx offset idx le_rfl (by omega)]
  simp [List.getElem?_eq_getElem h]

theorem center_offset_past (gm : WidgetMeasure) (self : BzCarousel) (idx : Nat) (offset : Int)
    (n : Nat) (hn : self.widgets.length < n) :
    (List.range n).foldlM (fun offset i =>
      match self.widgets[i]? with
      | none => none
      | some child =>
        let w := child_width gm child.widget self.height self.width
        if i = idx then some (offset - w.tdiv 2) else some (offset - w)) offset
      = none := by
  induction n with
  | zero => omega
  | succ k ih =>
    rw [List.range_succ, List.foldlM_append]
    rcases Nat.lt_or_ge self.widgets.length k with h | h
    · rw [ih h]; rfl
    · have hk : self.widgets[k]? = none := List.getElem?_eq_none (by omega)
      cases hf : (List.range k).foldlM (fun offset i =>
          match self.widgets[i]? with
          | none => none
          | some child =>
            let w := child_width gm child.widget self.height self.width
            if i = idx then some (offset - w.tdiv 2) else some (offset - w)) offset with
      | none => rfl
      | some o => simp [hk]

theorem center_offset_none (gm : WidgetMeasure) (self : BzCarousel) (idx : Nat) (offset : Int)
    (h : self.widgets.length ≤ idx) :
    center_offset gm self idx offset = none :=
  center_offset_past gm self idx offset (idx + 1) (by omega)

theorem layout_child_target (gm : WidgetMeasure) (width height : Int) (d : ℚ) (offset : Int)
    (child : CarouselWidgetData) :
    (layout_child gm width height d offset child).1.target
      = child_target gm width height offset child := by
  unfold layout_child
  simp only []
  split_ifs <;> rfl

theorem layout_loop_length (gm : WidgetMeasure) (width height : Int) (d : ℚ)
    (l : List CarouselWidgetData) (offset : Int) :
    (layout_loop gm width height d l offset).1.length = l.length := by
  induction l generalizing offset with
  | nil => rfl
  | cons c rest ih => simp [layout_loop, ih]

theorem layout_loop_getElem (gm : WidgetMeasure) (width height : Int) (d : ℚ)
    (l : List CarouselWidgetData) (offset : Int) (i : Nat) (h : i < l.length) :
    (layout_loop gm width height d l offset).1[i]?
      = some (layout_child gm width height d (offset + nominal_sum gm width height l i) l[i]).1 := by
  induction l generalizing offset i with
  | nil => simp at h
  | cons c rest ih =>
    cases i with
    | zero => simp [layout_loop, nominal_sum]
    | succ j =>
      have hj : j < rest.length := by simpa using h
      simp only [layout_loop, List.getElem?_cons_succ, List.getElem_cons_succ]
      rw [ih _ j hj]
      simp [nominal_sum, add_assoc]

/-- Offsets of the centre of a target from the anchor, when the child starts half
its nominal width left of the anchor. -/
theorem child_target_centre_bounds (gm : WidgetMeasure) (width height a : Int)
    (child : CarouselWidgetData) :
    ∀ w t, w = child_width gm child.widget height width →
      t = child_target gm width height (a - w.tdiv 2) child →
      (-1 : ℚ) ≤ t.x + t.width / 2 - (a : ℚ) ∧ t.x + t.width / 2 - (a : ℚ) ≤ 1 ∧
        (0 ≤ w → -(1 / 2) ≤ t.x + t.width / 2 - (a : ℚ)) := by
  intro w t hw ht0
  subst hw ht0
  have hb := tdiv_two_bounds (child_width gm child.widget height width)
  have hn := tdiv_two_nonneg (child_width gm child.widget height width)
  have hc := c_round_half_bounds (child_width gm child.widget height width
    - child_width gm child.widget (c_round ((height : ℚ) * (1.0 - RAISE_FACTOR))) width)
  cases hr : child.raised
  · simp only [child_target, hr, Bool.false_eq_true, if_false, GRAPHENE_RECT_INIT]
    generalize c_round (((child_width gm child.widget height width
      - child_width gm child.widget (c_round ((height : ℚ) * (1.0 - RAISE_FACTOR))) width : Int) : ℚ)
        * 0.5) = r at hc ⊢
    generalize child_width gm child.widget (c_round ((height : ℚ) * (1.0 - RAISE_FACTOR))) width
      = w2 at hc ⊢
    generalize child_width gm child.widget height width = w at hb hn hc ⊢
    generalize w.tdiv 2 = q at hb hn ⊢
    have hb1 : ((2 * q - 1 : Int) : ℚ) ≤ (w : ℚ) := by exact_mod_cast hb.1
    have hb2 : (w : ℚ) ≤ ((2 * q + 1 : Int) : ℚ) := by exact_mod_cast hb.2
    have hc1 : ((w - w2 - 1 : Int) : ℚ) ≤ ((2 * r : Int) : ℚ) := by exact_mod_cast hc.1
    have hc2 : ((2 * r : Int) : ℚ) ≤ ((w - w2 + 1 : Int) : ℚ) := by exact_mod_cast hc.2
    push_cast at hb1 hb2 hc1 hc2 ⊢
    refine ⟨by linarith, by linarith, fun h => ?_⟩
    have h1 : ((2 * q : Int) : ℚ) ≤ (w : ℚ) := by exact_mod_cast (hn h).1
    push_cast at h1
    linarith
  · simp only [child_target, hr, if_true, GRAPHENE_RECT_INIT]
    generalize child_width gm child.widget height width = w at hb hn ⊢
    generalize w.tdiv 2 = q at hb hn ⊢
    have hb1 : ((2 * q - 1 : Int) : ℚ) ≤ (w : ℚ) := by exact_mod_cast hb.1
    have hb2 : (w : ℚ) ≤ ((2 * q + 1 : Int) : ℚ) := by exact_mod_cast hb.2
    push_cast at hb1 hb2 ⊢
    refine ⟨by linarith, by linarith, fun h => ?_⟩
    have h1 : ((2 * q : Int) : ℚ) ≤ (w : ℚ) := by exact_mod_cast (hn h).1
    push_cast at h1
    linarith

theorem layout_child_widget (gm : WidgetMeasure) (width height : Int) (d : ℚ) (offset : Int)
    (child : CarouselWidgetData) :
    (layout_child gm width height d offset child).1.widget = child.widget := by
  unfold layout_child
  simp only []
  split_ifs <;> rfl

/-- C1. For a valid index `s` and a viewport of positive width and height,
`move_to_idx` returns, and the target of item `s` is centred on the anchor the code
computes (half the width by integer division, plus the live scroll delta, plus the
live drag offset, truncated): the centre is within one unit of it, raised or not.
With no gesture active the anchor is the integer mid-line, and the centre is
within one unit of the exact mid-line when the nominal width is not negative. -/
theorem selected_target_centred (gm : WidgetMeasure) (self : BzCarousel) (s : Nat) (d : ℚ)
    (hs : s < self.widgets.length) (hW : 0 < self.width) (hH : 0 < self.height) :
    ∃ self1 child, move_to_idx gm self s d = some self1 ∧ self1.widgets[s]? = some child ∧
      |child.target.x + child.target.width / 2 - (anchor self : ℚ)| ≤ 1 ∧
      (self.scrolling = false → self.dragging = false →
        anchor self = self.width.tdiv 2 ∧
        (0 ≤ child_width gm child.widget self.height self.width →
          |child.target.x + child.target.width / 2 - (self.width : ℚ) / 2| ≤ 1)) := by
  obtain ⟨o, ho, hoe⟩ : ∃ o, center_offset gm self s (anchor self) = some o ∧
      o + nominal_sum gm self.width self.height self.widgets s
        = anchor self - (child_width gm (self.widgets[s]).widget self.height self.width).tdiv 2 :=
    ⟨_, center_offset_eq gm self s _ hs, by ring⟩
  have hmove : move_to_idx gm self s d = some (perform
      { self with widgets := (layout_loop gm self.width self.height d self.widgets o).1 }
      ((layout_loop gm self.width self.height d self.widgets o).2 ++ [.queue_allocate])) := by
    unfold move_to_idx
    rw [if_neg (by omega), ho]
  have hb := child_target_centre_bounds gm self.width self.height (anchor self) self.widgets[s]
    _ _ rfl rfl
  rw [← hoe] at hb
  refine ⟨_, (layout_child gm self.width self.height d
      (o + nominal_sum gm self.width self.height self.widgets s) self.widgets[s]).1,
    hmove, ?_, ?_, ?_⟩
  · simp only [perform]
    exact layout_loop_getElem gm self.width self.height d self.widgets _ s hs
  · rw [layout_child_target, abs_le]
    exact ⟨hb.1, hb.2.1⟩
  · intro hsc hdr
    have ha : anchor self = self.width.tdiv 2 := by simp [anchor, hsc, hdr]
    refine ⟨ha, fun hw => ?_⟩
    rw [layout_child_target]
    rw [layout_child_widget] at hw
    have hw2 := tdiv_two_nonneg self.width (le_of_lt hW)
    have h1 : ((2 * self.width.tdiv 2 : Int) : ℚ) ≤ (self.width : ℚ) := by exact_mod_cast hw2.1
    have h2 : (self.width : ℚ) ≤ ((2 * self.width.tdiv 2 + 1 : Int) : ℚ) := by exact_mod_cast hw2.2
    push_cast at h1 h2
    have h3 := hb.2.2 hw
    have h4 := hb.2.1
    rw [ha] at h3 h4
    rw [abs_le]
    constructor <;> linarith

/-- C1, at a concrete input: item 1 of two items in a 300 by 200 viewport. -/
theorem selected_target_centred_witness :
    ∃ self1 child, move_to_idx wide100 two_items_at_rest 1 1.0 = some self1 ∧
      self1.widgets[1]? = some child ∧
      |child.target.x + child.target.width / 2 - (anchor two_items_at_rest : ℚ)| ≤ 1 ∧
      (two_items_at_rest.scrolling = false → two_items_at_rest.dragging = false →
        anchor two_items_at_rest = two_items_at_rest.width.tdiv 2 ∧
        (0 ≤ child_width wide100 child.widget two_items_at_rest.height two_items_at_rest.width →
          |child.target.x + child.target.width / 2 - (two_items_at_rest.width : ℚ) / 2| ≤ 1)) :=
  selected_target_centred wide100 two_items_at_rest 1 1.0 (by decide) (by decide) (by decide)

/-! ## What a re-layout reads and writes -/

theorem center_offset_start (gm : WidgetMeasure) (self : BzCarousel) (idx : Nat)
    (h : idx < self.widgets.length) :
    center_offset gm self idx (anchor self) = some (layout_start gm self idx) := by
  rw [center_offset_eq gm self idx _ h]
  simp [layout_start, List.getElem?_eq_getElem h]

theorem move_to_idx_zero (gm : WidgetMeasure) (self : BzCarousel) (idx : Nat) (d : ℚ)
    (h : self.width = 0 ∨ self.height = 0) :
    move_to_idx gm self idx d = some (perform self [.queue_allocate]) := by
  unfold move_to_idx; rw [if_pos h]

theorem move_to_idx_relayout (gm : WidgetMeasure) (self : BzCarousel) (idx : Nat) (d : ℚ)
    (h : ¬ (self.width = 0 ∨ self.height = 0)) (hi : idx < self.widgets.length) :
    move_to_idx gm self idx d = some (relayout gm self idx d) := by
  unfold move_to_idx; rw [if_neg h, center_offset_start gm self idx hi]; rfl

theorem move_to_idx_out_of_range (gm : WidgetMeasure) (self : BzCarousel) (idx : Nat) (d : ℚ)
    (h : ¬ (self.width = 0 ∨ self.height = 0)) (hi : self.widgets.length ≤ idx) :
    move_to_idx gm self idx d = none := by
  unfold move_to_idx; rw [if_neg h, center_offset_none gm self idx _ hi]

theorem layout_child_strip (gm : WidgetMeasure) (width height : Int) (d : ℚ) (offset : Int)
    (child : CarouselWidgetData) :
    ({ (layout_child gm width height d offset child).1 with
        rect := graphene_rect_zero, target := graphene_rect_zero } : CarouselWidgetData)
      = { child with rect := graphene_rect_zero, target := graphene_rect_zero } := by
  unfold layout_child
  simp only []
  split_ifs <;> rfl

theorem layout_loop_strip (gm : WidgetMeasure) (width height : Int) (d : ℚ)
    (l : List CarouselWidgetData) (offset : Int) :
    (layout_loop gm width height d l offset).1.map (fun (c : CarouselWidgetData) =>
        { c with rect := graphene_rect_zero, target := graphene_rect_zero })
      = l.map (fun (c : CarouselWidgetData) =>
        { c with rect := graphene_rect_zero, target := graphene_rect_zero }) := by
  induction l generalizing offset with
  | nil => rfl
  | cons c rest ih =>
    simp only [layout_loop, List.map_cons, ih]
    rw [layout_child_strip]

theorem frame_perform (s : BzCarousel) (es : List Effect) : frame (perform s es) = frame s := rfl

theorem frame_relayout (gm : WidgetMeasure) (self : BzCarousel) (idx : Nat) (d : ℚ) :
    frame (relayout gm self idx d) = frame self := by
  simp only [relayout, frame_perform]
  simp only [frame, layout_loop_strip]

theorem move_to_idx_frame (gm : WidgetMeasure) (self s1 : BzCarousel) (idx : Nat) (d : ℚ)
    (h : move_to_idx gm self idx d = some s1) : frame s1 = frame self ∧ s1.model = self.model := by
  by_cases hz : self.width = 0 ∨ self.height = 0
  · rw [move_to_idx_zero gm self idx d hz] at h
    cases h; exact ⟨rfl, rfl⟩
  · rcases Nat.lt_or_ge idx self.widgets.length with hi | hi
    · rw [move_to_idx_relayout gm self idx d hz hi] at h
      cases h; exact ⟨frame_relayout gm self idx d, rfl⟩
    · rw [move_to_idx_out_of_range gm self idx d hz hi] at h
      cases h

theorem move_to_idx_total (gm : WidgetMeasure) (self : BzCarousel) (idx : Nat) (d : ℚ)
    (hi : idx < self.widgets.length) : ∃ s1, move_to_idx gm self idx d = some s1 := by
  by_cases hz : self.width = 0 ∨ self.height = 0
  · exact ⟨_, move_to_idx_zero gm self idx d hz⟩
  · exact ⟨_, move_to_idx_relayout gm self idx d hz hi⟩

theorem frame_widgets_length {a b : BzCarousel} (h : frame a = frame b) :
    a.widgets.length = b.widgets.length := by
  have := congrArg (fun s => s.widgets.length) h
  simpa [frame] using this

theorem frame_mirror {a b : BzCarousel} (h : frame a = frame b) : a.mirror = b.mirror := by
  have := congrArg BzCarousel.mirror h
  exact this

theorem frame_size {a b : BzCarousel} (h : frame a = frame b) :
    a.width = b.width ∧ a.height = b.height := by
  have h1 := congrArg BzCarousel.width h
  have h2 := congrArg BzCarousel.height h
  exact ⟨h1, h2⟩

theorem frame_raised {a b : BzCarousel} (h : frame a = frame b) : a.raised = b.raised := by
  have := congrArg BzCarousel.raised h
  exact this

theorem frame_n_items {a b : BzCarousel} (h : frame a = frame b) :
    g_list_model_get_n_items a.model = g_list_model_get_n_items b.model := by
  have := congrArg (fun s => g_list_model_get_n_items s.model) h
  cases ha : a.model <;> cases hb : b.model <;>
    simp [frame, g_list_model_get_n_items, ha, hb] at this ⊢ <;> exact this

theorem frame_model_none {a b : BzCarousel} (h : frame a = frame b) :
    a.model = none ↔ b.model = none := by
  have := congrArg (fun s => s.model.isSome) h
  cases ha : a.model <;> cases hb : b.model <;> simp [frame, ha, hb] at this ⊢

theorem model_selected_changed_frame (gm : WidgetMeasure) (self s1 : BzCarousel)
    (h : model_selected_changed gm self = some s1) :
    frame s1 = frame self ∧ s1.model = self.model := by
  unfold model_selected_changed at h
  simp only [] at h
  split_ifs at h with hx
  · cases hm : move_to_idx gm self (gtk_single_selection_get_selected self.model) 1.0 with
    | none => simp [hm] at h
    | some s2 =>
      rw [hm] at h
      simp only [Option.map_some', Option.some.injEq] at h
      subst h
      exact move_to_idx_frame gm self s2 _ _ hm
  · simp only [Option.map_some', Option.some.injEq] at h
    subst h; exact ⟨rfl, rfl⟩

theorem model_selected_changed_total (gm : WidgetMeasure) (self : BzCarousel)
    (h : gtk_single_selection_get_selected self.model < self.widgets.length ∨
      gtk_single_selection_get_selected self.model = G_MAXUINT) :
    ∃ s1, model_selected_changed gm self = some s1 := by
  unfold model_selected_changed
  simp only []
  split_ifs with hx
  · have hi : gtk_single_selection_get_selected self.model < self.widgets.length := by
      rcases h with h | h
      · exact h
      · exact absurd h hx
    obtain ⟨s2, hs2⟩ := move_to_idx_total gm self _ 1.0 hi
    exact ⟨_, by rw [hs2]; rfl⟩
  · exact ⟨_, rfl⟩

/-- Setting the cursor to an index of an item: the call returns, the cursor holds
the index, and nothing outside the re-layout's reach changes. -/
theorem set_selected_spec (gm : WidgetMeasure) (self : BzCarousel) (m : GtkSingleSelection)
    (position : Nat) (hm : self.model = some m) (hp : position < m.items.length)
    (hw : m.connected = true → position < self.widgets.length) :
    ∃ s1, gtk_single_selection_set_selected gm self position = some s1 ∧
      frame s1 = frame self ∧ s1.model = some { m with selected := position } := by
  unfold gtk_single_selection_set_selected
  rw [hm]
  simp only [if_pos hp]
  by_cases he : m.selected = position
  · rw [if_pos he]
    refine ⟨self, rfl, rfl, ?_⟩
    rw [hm, ← he]
  · simp only [if_neg he]
    by_cases hc : m.connected = true
    · rw [if_pos hc]
      obtain ⟨s2, hs2⟩ := model_selected_changed_total gm
        { self with model := some { m with selected := position } }
        (Or.inl (by simpa [gtk_single_selection_get_selected] using hw hc))
      have hf := model_selected_changed_frame gm _ s2 hs2
      refine ⟨s2, hs2, ?_, hf.2⟩
      rw [hf.1]
      simp [frame, hm]
    · rw [if_neg hc]
      refine ⟨_, rfl, ?_, rfl⟩
      simp [frame, hm]


theorem set_selected_some (gm : WidgetMeasure) (self s1 : BzCarousel) (m : GtkSingleSelection)
    (position : Nat) (hm : self.model = some m) (hp : position < m.items.length)
    (h : gtk_single_selection_set_selected gm self position = some s1) :
    frame s1 = frame self ∧ s1.model = some { m with selected := position } := by
  unfold gtk_single_selection_set_selected at h
  rw [hm] at h
  simp only [if_pos hp] at h
  by_cases he : m.selected = position
  · rw [if_pos he] at h
    cases h
    refine ⟨rfl, ?_⟩
    rw [hm, ← he]
  · simp only [if_neg he] at h
    by_cases hc : m.connected = true
    · rw [if_pos hc] at h
      have hf := model_selected_changed_frame gm _ s1 h
      refine ⟨?_, hf.2⟩
      rw [hf.1]
      simp [frame, hm]
    · rw [if_neg hc] at h
      cases h
      refine ⟨?_, rfl⟩
      simp [frame, hm]

/-- The index `ensure_viewport` lays out for: the cursor, or 0 in place of the
sentinel. -/
theorem ensure_viewport_cases (gm : WidgetMeasure) (self s1 : BzCarousel) (animate : Bool)
    (h : ensure_viewport gm self animate = some s1) :
    (g_list_model_get_n_items self.model = 0 ∧ s1 = perform self [.queue_allocate]) ∨
    (∃ m s0 sm, self.model = some m ∧ 0 < m.items.length ∧ frame s0 = frame self ∧
      s0.model = some { m with selected := if m.selected = G_MAXUINT then 0 else m.selected } ∧
      move_to_idx gm s0 (if m.selected = G_MAXUINT then 0 else m.selected)
        (if animate then 1.0 else -1.0) = some sm ∧
      s1 = perform sm [.queue_allocate]) := by
  unfold ensure_viewport at h
  simp only [] at h
  cases hm : self.model with
  | none =>
    left
    simp only [hm, g_list_model_get_n_items, gt_iff_lt, lt_self_iff_false, if_false,
      Option.map_some', Option.some.injEq] at h
    exact ⟨rfl, h.symm⟩
  | some m =>
    simp only [hm, g_list_model_get_n_items, gtk_single_selection_get_selected] at h
    by_cases hn : m.items.length > 0
    · right
      rw [if_pos hn] at h
      by_cases hs : m.selected = G_MAXUINT
      · rw [if_pos hs] at h
        cases h0 : gtk_single_selection_set_selected gm self 0 with
        | none => simp [h0] at h
        | some s0 =>
          rw [h0] at h
          simp only [Option.some_bind] at h
          cases hmv : move_to_idx gm s0 0 (if animate = true then 1.0 else -1.0) with
          | none => simp [hmv] at h
          | some sm =>
            rw [hmv] at h
            simp only [Option.map_some', Option.some.injEq] at h
            have hf := set_selected_some gm self s0 m 0 hm hn h0
            exact ⟨m, s0, sm, rfl, hn, hf.1, by simpa [hs] using hf.2, by simpa [hs] using hmv,
              h.symm⟩
      · rw [if_neg hs] at h
        cases hmv : move_to_idx gm self m.selected (if animate = true then 1.0 else -1.0) with
        | none => simp [hmv] at h
        | some sm =>
          rw [hmv] at h
          simp only [Option.map_some', Option.some.injEq] at h
          refine ⟨m, self, sm, rfl, hn, rfl, ?_, by simpa [hs] using hmv, h.symm⟩
          simp [hs, hm]
    · left
      rw [if_neg hn] at h
      simp only [Option.map_some', Option.some.injEq] at h
      exact ⟨by simp only [g_list_model_get_n_items]; omega, h.symm⟩

theorem ensure_viewport_frame (gm : WidgetMeasure) (self s1 : BzCarousel) (animate : Bool)
    (h : ensure_viewport gm self animate = some s1) :
    frame s1 = frame self ∧
      s1.model = self.model.map (fun (m : GtkSingleSelection) =>
        { m with selected :=
          if m.selected = G_MAXUINT ∧ 0 < m.items.length then 0 else m.selected }) := by
  rcases ensure_viewport_cases gm self s1 animate h with ⟨hn, rfl⟩ | ⟨m, s0, sm, hm, hn, hf, hmod, hmv, rfl⟩
  · refine ⟨rfl, ?_⟩
    cases hm : self.model with
    | none => simp [perform, hm]
    | some m =>
      have : m.items.length = 0 := by simpa [hm, g_list_model_get_n_items] using hn
      simp [perform, hm, this]
  · have hfm := move_to_idx_frame gm s0 sm _ _ hmv
    refine ⟨by rw [frame_perform, hfm.1, hf], ?_⟩
    show sm.model = _
    rw [hfm.2, hmod, hm]
    by_cases hs : m.selected = G_MAXUINT <;> simp [hs, hn]

/-- On a state whose registry mirrors its model, `ensure_viewport` returns. -/
theorem ensure_viewport_total (gm : WidgetMeasure) (self : BzCarousel) (animate : Bool)
    (h : synced self) : ∃ s1, ensure_viewport gm self animate = some s1 := by
  obtain ⟨-, hn, hv⟩ := h
  unfold ensure_viewport
  simp only []
  cases hm : self.model with
  | none => exact ⟨_, rfl⟩
  | some m =>
    simp only [hm, g_list_model_get_n_items, gtk_single_selection_get_selected] at hn ⊢
    simp only [hm, selection_valid, decide_eq_true_eq] at hv
    by_cases hpos : m.items.length > 0
    · rw [if_pos hpos]
      by_cases hs : m.selected = G_MAXUINT
      · rw [if_pos hs]
        obtain ⟨s0, h0, hf0, -⟩ := set_selected_spec gm self m 0 hm hpos (fun _ => by omega)
        rw [h0]
        obtain ⟨sm, hsm⟩ := move_to_idx_total gm s0 0 (if animate = true then 1.0 else -1.0)
          (by rw [frame_widgets_length hf0]; omega)
        exact ⟨_, by simp only [Option.some_bind, hsm]; rfl⟩
      · rw [if_neg hs]
        obtain ⟨sm, hsm⟩ := move_to_idx_total gm self m.selected
          (if animate = true then 1.0 else -1.0) (by
            rcases hv with hv | hv
            · omega
            · exact absurd hv hs)
        exact ⟨_, by rw [hsm]; rfl⟩
    · rw [if_neg hpos]; exact ⟨_, rfl⟩

theorem synced_of_frame {a b : BzCarousel} (hf : frame b = frame a) (h : synced a)
    (hv : selection_valid b.model = true) : synced b := by
  obtain ⟨h1, h2, -⟩ := h
  refine ⟨?_, ?_, hv⟩
  · rw [frame_mirror hf, frame_widgets_length hf]; exact h1
  · rw [frame_n_items hf, frame_widgets_length hf]; exact h2

theorem ensure_viewport_synced (gm : WidgetMeasure) (self s1 : BzCarousel) (animate : Bool)
    (hs : synced self) (h : ensure_viewport gm self animate = some s1) : synced s1 := by
  have hf := ensure_viewport_frame gm self s1 animate h
  refine synced_of_frame hf.1 hs ?_
  rw [hf.2]
  obtain ⟨-, -, hv⟩ := hs
  cases hm : self.model with
  | none => rfl
  | some m =>
    simp only [hm, selection_valid, decide_eq_true_eq] at hv
    simp only [Option.map_some', selection_valid, decide_eq_true_eq]
    by_cases hx : m.selected = G_MAXUINT ∧ 0 < m.items.length
    · rw [if_pos hx]; exact Or.inl hx.2
    · rw [if_neg hx]; exact hv

/-! ## The log only grows -/

theorem frame_widgets {a b : BzCarousel} (h : frame a = frame b) :
    a.widgets.map (fun (c : CarouselWidgetData) =>
        { c with rect := graphene_rect_zero, target := graphene_rect_zero })
      = b.widgets.map (fun (c : CarouselWidgetData) =>
        { c with rect := graphene_rect_zero, target := graphene_rect_zero }) := by
  have := congrArg BzCarousel.widgets h
  exact this

theorem move_to_idx_log (gm : WidgetMeasure) (self s1 : BzCarousel) (idx : Nat) (d : ℚ)
    (h : move_to_idx gm self idx d = some s1) : ∃ es, s1.log = self.log ++ es := by
  by_cases hz : self.width = 0 ∨ self.height = 0
  · rw [move_to_idx_zero gm self idx d hz] at h
    cases h; exact ⟨_, rfl⟩
  · rcases Nat.lt_or_ge idx self.widgets.length with hi | hi
    · rw [move_to_idx_relayout gm self idx d hz hi] at h
      cases h; exact ⟨_, rfl⟩
    · rw [move_to_idx_out_of_range gm self idx d hz hi] at h
      cases h

theorem model_selected_changed_log (gm : WidgetMeasure) (self s1 : BzCarousel)
    (h : model_selected_changed gm self = some s1) : ∃ es, s1.log = self.log ++ es := by
  unfold model_selected_changed at h
  simp only [] at h
  split_ifs at h with hx
  · cases hm : move_to_idx gm self (gtk_single_selection_get_selected self.model) 1.0 with
    | none => simp [hm] at h
    | some s2 =>
      rw [hm] at h
      simp only [Option.map_some', Option.some.injEq] at h
      subst h
      obtain ⟨es, hes⟩ := move_to_idx_log gm self s2 _ _ hm
      exact ⟨es ++ [.queue_allocate], by simp only [perform, hes, List.append_assoc]⟩
  · simp only [Option.map_some', Option.some.injEq] at h
    subst h; exact ⟨_, rfl⟩

theorem set_selected_log (gm : WidgetMeasure) (self s1 : BzCarousel) (position : Nat)
    (h : gtk_single_selection_set_selected gm self position = some s1) :
    ∃ es, s1.log = self.log ++ es := by
  unfold gtk_single_selection_set_selected at h
  cases hm : self.model with
  | none => rw [hm] at h; cases h; exact ⟨[], by simp⟩
  | some m =>
    rw [hm] at h
    simp only [] at h
    by_cases h1 : m.selected = position
    · rw [if_pos h1] at h; cases h; exact ⟨[], by simp⟩
    · rw [if_neg h1] at h
      by_cases h2 : m.selected = (if position < m.items.length then position else G_MAXUINT)
      · rw [if_pos h2] at h; cases h; exact ⟨[], by simp⟩
      · rw [if_neg h2] at h
        by_cases h3 : m.connected = true
        · rw [if_pos h3] at h
          have hl := model_selected_changed_log gm _ s1 h
          exact hl
        · rw [if_neg h3] at h
          cases h
          exact ⟨[], by simp⟩

theorem ensure_viewport_log (gm : WidgetMeasure) (self s1 : BzCarousel) (animate : Bool)
    (h : ensure_viewport gm self animate = some s1) : ∃ es, s1.log = self.log ++ es := by
  unfold ensure_viewport at h
  simp only [] at h
  by_cases h1 : g_list_model_get_n_items self.model > 0
  · rw [if_pos h1] at h
    by_cases h2 : gtk_single_selection_get_selected self.model = G_MAXUINT
    · rw [if_pos h2] at h
      cases h0 : gtk_single_selection_set_selected gm self 0 with
      | none => simp [h0] at h
      | some s0 =>
        rw [h0] at h
        simp only [Option.some_bind] at h
        cases hmv : move_to_idx gm s0 0 (if animate = true then 1.0 else -1.0) with
        | none => simp [hmv] at h
        | some sm =>
          rw [hmv] at h
          simp only [Option.map_some', Option.some.injEq] at h
          subst h
          obtain ⟨e1, he1⟩ := set_selected_log gm self s0 0 h0
          obtain ⟨e2, he2⟩ := move_to_idx_log gm s0 sm _ _ hmv
          exact ⟨e1 ++ e2 ++ [.queue_allocate],
            by simp only [perform, he2, he1, List.append_assoc]⟩
    · rw [if_neg h2] at h
      cases hmv : move_to_idx gm self (gtk_single_selection_get_selected self.model)
          (if animate = true then 1.0 else -1.0) with
      | none => simp [hmv] at h
      | some sm =>
        rw [hmv] at h
        simp only [Option.map_some', Option.some.injEq] at h
        subst h
        obtain ⟨e2, he2⟩ := move_to_idx_log gm self sm _ _ hmv
        exact ⟨e2 ++ [.queue_allocate], by simp only [perform, he2, List.append_assoc]⟩
  · rw [if_neg h1] at h
    simp only [Option.map_some', Option.some.injEq] at h
    subst h
    exact ⟨_, rfl⟩

/-! ## Targets depend on the frame only -/

theorem layout_loop_targets (gm : WidgetMeasure) (width height : Int) (d e : ℚ)
    (l : List CarouselWidgetData) (offset : Int) :
    (layout_loop gm width height d l offset).1.map (fun c => c.target)
      = (layout_loop gm width height e
          (l.map (fun (c : CarouselWidgetData) =>
            { c with rect := graphene_rect_zero, target := graphene_rect_zero })) offset).1.map
          (fun c => c.target) := by
  induction l generalizing offset with
  | nil => rfl
  | cons c rest ih =>
    simp only [layout_loop, List.map_cons, layout_child_target, ih]
    rfl

theorem nominal_sum_strip (gm : WidgetMeasure) (width height : Int)
    (l : List CarouselWidgetData) (n : Nat) :
    nominal_sum gm width height
        (l.map (fun (c : CarouselWidgetData) =>
          { c with rect := graphene_rect_zero, target := graphene_rect_zero })) n
      = nominal_sum gm width height l n := by
  simp [nominal_sum, ← List.map_take, Function.comp_def]

theorem layout_start_frame (gm : WidgetMeasure) (s : BzCarousel) (idx : Nat) :
    layout_start gm (frame s) idx = layout_start gm s idx := by
  have ha : anchor (frame s) = anchor s := rfl
  simp only [layout_start, ha]
  have hw : (frame s).widgets = s.widgets.map (fun (c : CarouselWidgetData) =>
      { c with rect := graphene_rect_zero, target := graphene_rect_zero }) := rfl
  have h1 : (frame s).width = s.width := rfl
  have h2 : (frame s).height = s.height := rfl
  rw [hw, h1, h2, nominal_sum_strip]
  simp [List.getElem?_map, Function.comp_def]

theorem relayout_targets (gm : WidgetMeasure) (s : BzCarousel) (idx : Nat) (d : ℚ) :
    (relayout gm s idx d).widgets.map (fun c => c.target)
      = (relayout gm (frame s) idx 0).widgets.map (fun c => c.target) := by
  simp only [relayout, perform]
  rw [layout_start_frame, layout_loop_targets gm s.width s.height d 0]
  rfl

/-- The targets two re-layouts produce agree when the states agree on the frame,
whatever the damping ratios. -/
theorem move_to_idx_same_targets (gm : WidgetMeasure) (a b a1 : BzCarousel) (idx : Nat)
    (d e : ℚ) (hf : frame b = frame a) (ha : move_to_idx gm a idx d = some a1)
    (hz : ¬ (a.width = 0 ∨ a.height = 0)) :
    ∃ b1, move_to_idx gm b idx e = some b1 ∧
      b1.widgets.map (fun c => c.target) = a1.widgets.map (fun c => c.target) := by
  have hsz := frame_size hf
  have hzb : ¬ (b.width = 0 ∨ b.height = 0) := by rw [hsz.1, hsz.2]; exact hz
  rcases Nat.lt_or_ge idx a.widgets.length with hi | hi
  · rw [move_to_idx_relayout gm a idx d hz hi] at ha
    cases ha
    refine ⟨_, move_to_idx_relayout gm b idx e hzb (by rw [frame_widgets_length hf]; exact hi), ?_⟩
    rw [relayout_targets gm b idx e, relayout_targets gm a idx d, hf]
  · rw [move_to_idx_out_of_range gm a idx d hz hi] at ha
    cases ha

/-- C4. The unanimated re-layout is idempotent on the targets: when
`ensure_viewport` with `animate = FALSE` has returned, a second call on the
resulting state returns too and every item has the same target rectangle after
it, zero viewport included; and the first call does return on every state whose
registry mirrors its model. -/
theorem unanimated_relayout_idempotent (gm : WidgetMeasure) (self : BzCarousel) :
    (synced self → ∃ s1, ensure_viewport gm self false = some s1) ∧
    ∀ s1, ensure_viewport gm self false = some s1 →
      ∃ s2, ensure_viewport gm s1 false = some s2 ∧
        s2.widgets.map (fun c => c.target) = s1.widgets.map (fun c => c.target) := by
  refine ⟨ensure_viewport_total gm self false, fun s1 h => ?_⟩
  have hfr := ensure_viewport_frame gm self s1 false h
  rcases ensure_viewport_cases gm self s1 false h with
    ⟨hn, rfl⟩ | ⟨m, s0, sm, hm, hn, hf, hmod, hmv, rfl⟩
  · refine ⟨perform (perform self [.queue_allocate]) [.queue_allocate], ?_, rfl⟩
    unfold ensure_viewport
    have : g_list_model_get_n_items (perform self [.queue_allocate]).model = 0 := hn
    simp only [this, gt_iff_lt, lt_self_iff_false, if_false, Option.map_some']
  · have hfm := move_to_idx_frame gm s0 sm _ _ hmv
    have hmodel : (perform sm [.queue_allocate]).model
        = some { m with selected := if m.selected = G_MAXUINT then 0 else m.selected } := by
      show sm.model = _
      rw [hfm.2, hmod]
    have hidx : (if m.selected = G_MAXUINT then 0 else m.selected) ≠ G_MAXUINT := by
      by_cases hs : m.selected = G_MAXUINT
      · rw [if_pos hs]; decide
      · rw [if_neg hs]; exact hs
    have hstep : ∀ s2, move_to_idx gm (perform sm [.queue_allocate])
        (if m.selected = G_MAXUINT then 0 else m.selected) (-1.0) = some s2 →
        ensure_viewport gm (perform sm [.queue_allocate]) false
          = some (perform s2 [.queue_allocate]) := by
      intro s2 hs2
      unfold ensure_viewport
      simp only [hmodel, g_list_model_get_n_items, gtk_single_selection_get_selected,
        gt_iff_lt, hn, if_true, if_neg hidx, Bool.false_eq_true, if_false, hs2, Option.map_some']
    by_cases hz : s0.width = 0 ∨ s0.height = 0
    · rw [move_to_idx_zero gm s0 _ _ hz] at hmv
      cases hmv
      exact ⟨_, hstep _ (move_to_idx_zero gm _ _ _ hz), rfl⟩
    · obtain ⟨b1, hb1, hb2⟩ := move_to_idx_same_targets gm s0 (perform sm [.queue_allocate]) sm
        _ (if false = true then 1.0 else -1.0) (-1.0) (by rw [frame_perform]; exact hfm.1) hmv hz
      exact ⟨_, hstep b1 hb1, hb2⟩

/-- C4, at a concrete state: two items at rest, laid out twice. -/
theorem unanimated_relayout_idempotent_witness :
    ∃ s2, ensure_viewport wide100
        (perform (relayout wide100 two_items_at_rest 0 (-1.0)) [.queue_allocate]) false = some s2 ∧
      s2.widgets.map (fun c => c.target)
        = (perform (relayout wide100 two_items_at_rest 0 (-1.0)) [.queue_allocate]).widgets.map
            (fun c => c.target) :=
  (unanimated_relayout_idempotent wide100 two_items_at_rest).2 _ (by
    unfold ensure_viewport
    simp only [two_items_at_rest, g_list_model_get_n_items, gtk_single_selection_get_selected]
    rw [move_to_idx_relayout wide100 _ 0 _ (by decide) (by decide)]
    rfl)

/-! ## Registry synchronisation -/

theorem g_ptr_array_insert_middle {α : Type} (A B C : List α) (x : α) (p k : Nat)
    (hA : A.length = p) (hB : B.length = k) :
    g_ptr_array_insert (A ++ (B ++ C)) (p + k) x = A ++ ((B ++ [x]) ++ C) := by
  unfold g_ptr_array_insert
  have hlen : (A ++ B).length = p + k := by simp [hA, hB]
  rw [if_pos (by simp [hA, hB])]
  rw [← List.append_assoc, List.take_left' hlen, List.drop_left' hlen]
  simp

theorem g_ptr_array_remove_range_length {α : Type} (a : List α) (p r : Nat)
    (h : p + r ≤ a.length) : (g_ptr_array_remove_range a p r).length = a.length - r := by
  unfold g_ptr_array_remove_range
  rw [if_pos h]
  simp only [List.length_append, List.length_take, List.length_drop]
  omega

theorem mapM_option_total {α β : Type} (f : α → Option β) (l : List α)
    (h : ∀ x ∈ l, ∃ y, f x = some y) : ∃ ys, l.mapM f = some ys := by
  induction l with
  | nil => exact ⟨[], rfl⟩
  | cons a rest ih =>
    obtain ⟨y, hy⟩ := h a (List.mem_cons_self a rest)
    obtain ⟨ys, hys⟩ := ih (fun x hx => h x (List.mem_cons_of_mem a hx))
    exact ⟨y :: ys, by rw [List.mapM_cons, hy, hys]; rfl⟩

theorem removal_calls_total (self : BzCarousel) (position removed : Nat)
    (hm : self.mirror.length = self.widgets.length)
    (hr : position + removed ≤ self.widgets.length) :
    ∃ calls, removal_calls self position removed = some calls := by
  unfold removal_calls
  obtain ⟨ys, hys⟩ := mapM_option_total (fun i =>
    match self.mirror[position + i]?, self.widgets[position + i]? with
    | some object, some child =>
      some (cancel_child child.addr ++ [Effect.unbind_widget child.widget object])
    | _, _ => none) (List.range removed) (fun i hi => by
      have hi2 : i < removed := List.mem_range.mp hi
      have h1 : position + i < self.mirror.length := by omega
      have h2 : position + i < self.widgets.length := by omega
      simp [List.getElem?_eq_getElem h1, List.getElem?_eq_getElem h2])
  exact ⟨_, by rw [hys]; rfl⟩

/-- One insertion on a registry that already holds `k` new entries after the
first `p`. -/
theorem add_item_step (s : BzCarousel) (m : GtkSingleSelection) (A C : List Nat) (B : List Nat)
    (WA WC N : List CarouselWidgetData) (p k : Nat) (object : Nat)
    (hm : s.model = some m) (ho : m.items[p + k]? = some object)
    (hmir : s.mirror = A ++ (B ++ C)) (hA : A.length = p) (hB : B.length = k)
    (hw : s.widgets = WA ++ (N ++ WC)) (hWA : WA.length = p) (hN : N.length = k) :
    ∃ data es, add_item s (p + k) = some (perform
      { s with
        next_addr := s.next_addr + 2
        mirror := A ++ ((B ++ [object]) ++ C)
        widgets := WA ++ ((N ++ [data]) ++ WC) } es) ∧
      data = ⟨s.next_addr + 1, s.next_addr, graphene_rect_zero, graphene_rect_zero, false⟩ ∧
      Effect.bind_widget s.next_addr object ∈ es := by
  unfold add_item
  rw [hm]
  simp only [ho]
  have hprev : ∃ q, (if p + k = 0 then some (Effect.set_parent s.next_addr)
      else (s.widgets[p + k - 1]?).map
        (fun prev => Effect.insert_after s.next_addr prev.widget)) = some q := by
    by_cases h0 : p + k = 0
    · exact ⟨_, by rw [if_pos h0]⟩
    · rw [if_neg h0]
      have hlt : p + k - 1 < s.widgets.length := by
        rw [hw]; simp only [List.length_append, hWA, hN]; omega
      exact ⟨_, by rw [List.getElem?_eq_getElem hlt]; rfl⟩
  obtain ⟨q, hq⟩ := hprev
  rw [hq]
  simp only [hmir, hw, g_ptr_array_insert_middle A B C object p k hA hB,
    g_ptr_array_insert_middle WA N WC _ p k hWA hN]
  exact ⟨_, _, rfl, rfl, by simp⟩

theorem perform_perform (s : BzCarousel) (es fs : List Effect) :
    perform (perform s es) fs = perform s (es ++ fs) := by
  simp [perform, List.foldl_append]

/-- The insertion loop: `k` items of the model enter both sequences after the
first `p` entries. -/
theorem add_loop_spec (s : BzCarousel) (m : GtkSingleSelection) (p k : Nat)
    (hm : s.model = some m) (hp : p ≤ s.widgets.length)
    (hmir : s.mirror.length = s.widgets.length) (hk : p + k ≤ m.items.length) :
    ∃ N es, N.length = k ∧
      (List.range k).foldlM (fun s i => add_item s (p + i)) s = some (perform
        { s with
          next_addr := s.next_addr + 2 * k
          mirror := s.mirror.take p ++ (((m.items.drop p).take k) ++ s.mirror.drop p)
          widgets := s.widgets.take p ++ (N ++ s.widgets.drop p) } es) ∧
      (∀ c ∈ N, s.next_addr ≤ c.widget ∧ s.next_addr ≤ c.addr ∧
        c.rect = graphene_rect_zero ∧ c.target = graphene_rect_zero ∧ c.raised = false) := by
  induction k with
  | zero =>
    refine ⟨[], [], rfl, ?_, fun c hc => by cases hc⟩
    simp [perform]
  | succ j ih =>
    obtain ⟨N, es, hN, hfold, hfresh⟩ := ih (by omega)
    have hlt : p + j < m.items.length := by omega
    obtain ⟨data, fs, hstep, hdata, -⟩ := add_item_step
      (perform
        { s with
          next_addr := s.next_addr + 2 * j
          mirror := s.mirror.take p ++ (((m.items.drop p).take j) ++ s.mirror.drop p)
          widgets := s.widgets.take p ++ (N ++ s.widgets.drop p) } es)
      m (s.mirror.take p) (s.mirror.drop p) ((m.items.drop p).take j)
      (s.widgets.take p) (s.widgets.drop p) N p j (m.items[p + j])
      hm (List.getElem?_eq_getElem hlt) rfl
      (by simp only [List.length_take]; omega)
      (by simp only [List.length_take, List.length_drop]; omega)
      rfl (by simp only [List.length_take]; omega) hN
    refine ⟨N ++ [data], es ++ fs, by simp [hN], ?_, ?_⟩
    swap
    · intro c hc
      rcases List.mem_append.mp hc with h | h
      · exact hfresh c h
      · rw [List.mem_singleton] at h
        rw [h, hdata]
        simp only [perform, and_self, and_true]
        omega
    rw [List.range_succ, List.foldlM_append, hfold]
    simp only [Option.some_bind, List.foldlM_cons, List.foldlM_nil, hstep, Option.bind_eq_bind,
      Option.pure_def, Option.some_bind]
    have htake : (m.items.drop p).take (j + 1) = (m.items.drop p).take j ++ [m.items[p + j]] := by
      rw [List.take_succ, List.getElem?_drop, List.getElem?_eq_getElem hlt]; rfl
    rw [htake]
    simp only [perform, List.foldl_append, List.append_assoc, Option.some.injEq]
    congr 1

theorem remove_items_spec (s : BzCarousel) (calls : List Effect) (p r : Nat)
    (hmir : s.mirror.length = s.widgets.length) (hr : p + r ≤ s.widgets.length) :
    ∃ es, remove_items (perform s calls) p r = perform
      { s with
        mirror := s.mirror.take p ++ s.mirror.drop (p + r)
        widgets := s.widgets.take p ++ s.widgets.drop (p + r) } es ∧
      es = calls ++ ((s.widgets.drop p).take r).map (fun c => Effect.unref c.addr c.widget) := by
  unfold remove_items
  by_cases h0 : r > 0
  · rw [if_pos h0]
    have h1 : p + r ≤ (perform s calls).widgets.length := hr
    have h2 : p + r ≤ (perform s calls).mirror.length := by
      show p + r ≤ s.mirror.length
      omega
    simp only [g_ptr_array_remove_range, if_pos h1, if_pos h2]
    refine ⟨calls ++ ((s.widgets.drop p).take r).map (fun c => Effect.unref c.addr c.widget), ?_,
      rfl⟩
    simp only [perform, List.foldl_append, List.append_assoc]
  · rw [if_neg h0]
    have hr0 : r = 0 := by omega
    subst hr0
    refine ⟨calls, ?_, by simp⟩
    simp only [Nat.add_zero, List.take_append_drop]

/-- The handler on a registry that mirrors the model as it was before the
notification: it returns, the registry mirrors the new model, and the mirror
sequence is spliced. -/
theorem items_changed_spec (gm : WidgetMeasure) (s : BzCarousel) (m : GtkSingleSelection)
    (p r a : Nat) (hm : s.model = some m) (hmir : s.mirror.length = s.widgets.length)
    (hr : p + r ≤ s.widgets.length) (hlen : m.items.length = s.widgets.length - r + a)
    (hv : selection_valid (some m) = true) :
    ∃ s1, items_changed gm s p r a = some s1 ∧ synced s1 ∧
      s1.mirror = s.mirror.take p ++ ((m.items.drop p).take a ++ s.mirror.drop (p + r)) ∧
      s1.widgets.length = m.items.length ∧ s1.mirror.length = m.items.length ∧
      (∃ sel, s1.model = some { m with selected := sel }) ∧
      s1.width = s.width ∧ s1.height = s.height ∧ s1.raised = s.raised ∧
      (∃ N es, N.length = a ∧ s1.log = s.log ++ es ∧
        s1.widgets.map (fun (c : CarouselWidgetData) =>
            { c with rect := graphene_rect_zero, target := graphene_rect_zero })
          = (s.widgets.take p ++ (N ++ s.widgets.drop (p + r))).map
              (fun (c : CarouselWidgetData) =>
                { c with rect := graphene_rect_zero, target := graphene_rect_zero }) ∧
        (∀ c ∈ N, s.next_addr ≤ c.widget ∧ s.next_addr ≤ c.addr ∧ c.raised = false)) := by
  obtain ⟨calls, hcalls⟩ := removal_calls_total s p r hmir hr
  obtain ⟨es, hrem, -⟩ := remove_items_spec s calls p r hmir hr
  have hmlen : s.mirror.length = s.widgets.length := hmir
  obtain ⟨N, fs, hN, hadd, hfresh⟩ := add_loop_spec
    (perform
      { s with
        mirror := s.mirror.take p ++ s.mirror.drop (p + r)
        widgets := s.widgets.take p ++ s.widgets.drop (p + r) } es) m p a hm
    (by simp only [perform, List.length_append, List.length_take, List.length_drop]; omega)
    (by simp only [perform, List.length_append, List.length_take, List.length_drop]; omega)
    (by omega)
  have htk : ∀ {α : Type} (l : List α), p + r ≤ l.length →
      (l.take p ++ l.drop (p + r)).take p = l.take p ∧
      (l.take p ++ l.drop (p + r)).drop p = l.drop (p + r) := by
    intro α l hl
    have : (l.take p).length = p := by simp only [List.length_take]; omega
    exact ⟨List.take_left' this, List.drop_left' this⟩
  simp only [perform, (htk s.mirror (by omega)).1, (htk s.mirror (by omega)).2,
    (htk s.widgets hr).1, (htk s.widgets hr).2] at hadd
  have hsync : synced
      { s with
        animation := List.foldl animation_step (List.foldl animation_step s.animation es) fs
        log := s.log ++ es ++ fs
        next_addr := s.next_addr + 2 * a
        mirror := s.mirror.take p ++ (((m.items.drop p).take a) ++ s.mirror.drop (p + r))
        widgets := s.widgets.take p ++ (N ++ s.widgets.drop (p + r)) } := by
    refine ⟨?_, ?_, ?_⟩
    · simp only [List.length_append, List.length_take, List.length_drop, hN]; omega
    · simp only [hm, g_list_model_get_n_items, List.length_append, List.length_take,
        List.length_drop, hN]; omega
    · simpa [hm] using hv
  obtain ⟨s1, hs1⟩ := ensure_viewport_total gm _ false hsync
  have hf := ensure_viewport_frame gm _ s1 false hs1
  have hsy := ensure_viewport_synced gm _ s1 false hsync hs1
  have hwl := frame_widgets_length hf.1
  have hmr := frame_mirror hf.1
  have hsz := frame_size hf.1
  have hrs := frame_raised hf.1
  simp only at hwl hmr hsz hrs
  obtain ⟨ls, hls⟩ := ensure_viewport_log gm _ s1 false hs1
  have hwm := frame_widgets hf.1
  simp only at hwm hls
  refine ⟨s1, ?_, hsy, hmr, ?_, ?_, ?_, hsz.1, hsz.2, hrs, N, es ++ fs ++ ls, hN,
    by rw [hls]; simp only [List.append_assoc], hwm,
    fun c hc => ⟨(hfresh c hc).1, (hfresh c hc).2.1, (hfresh c hc).2.2.2.2⟩⟩
  · unfold items_changed
    rw [hcalls]
    simp only [hrem]
    rw [show perform
        { s with
          mirror := s.mirror.take p ++ s.mirror.drop (p + r)
          widgets := s.widgets.take p ++ s.widgets.drop (p + r) } es
        = { s with
            animation := List.foldl animation_step s.animation es
            log := s.log ++ es
            mirror := s.mirror.take p ++ s.mirror.drop (p + r)
            widgets := s.widgets.take p ++ s.widgets.drop (p + r) } from rfl]
    rw [hadd]
    exact hs1
  · rw [hwl]
    simp only [List.length_append, List.length_take, List.length_drop, hN]; omega
  · rw [hmr]
    simp only [List.length_append, List.length_take, List.length_drop]; omega
  · rw [hf.2]
    simp only [hm, Option.map_some']
    exact ⟨_, rfl⟩

theorem consistent_take (n : Nat) (es : List Notification) (k : Nat)
    (h : consistent n es = true) : consistent n (es.take k) = true := by
  induction es generalizing n k with
  | nil => simpa using h
  | cons e rest ih =>
    cases k with
    | zero => rfl
    | succ j =>
      simp only [consistent, Bool.and_eq_true] at h
      simp only [List.take_succ_cons, consistent, Bool.and_eq_true]
      exact ⟨h.1, ih _ j h.2⟩

theorem deliver_all_spec (gm : WidgetMeasure) (self : BzCarousel) (es : List Notification)
    (hmir : self.mirror.length = self.widgets.length)
    (hc : consistent self.widgets.length es = true) :
    ∃ s1, deliver_all gm self es = some s1 ∧
      s1.widgets.length = final_count self.widgets.length es ∧
      s1.mirror.length = final_count self.widgets.length es ∧
      (es ≠ [] → g_list_model_get_n_items s1.model = final_count self.widgets.length es) := by
  induction es generalizing self with
  | nil => exact ⟨self, rfl, rfl, hmir, fun h => absurd rfl h⟩
  | cons e rest ih =>
    simp only [consistent, Bool.and_eq_true, decide_eq_true_eq] at hc
    obtain ⟨⟨⟨h1, h2⟩, h3⟩, h4⟩ := hc
    obtain ⟨s1, hs1, hsy, -, hwl, hml, ⟨sel, hmod⟩, -⟩ := items_changed_spec gm
      { self with model := some e.model } e.model e.position e.removed e.added rfl hmir h1 h2 h3
    have hcount : s1.widgets.length = self.widgets.length - e.removed + e.added := by
      rw [hwl, h2]
    obtain ⟨s2, hs2, hw2, hm2, hn2⟩ := ih s1 (by rw [hwl, hml]) (by rw [hcount]; exact h4)
    refine ⟨s2, ?_, ?_, ?_, fun _ => ?_⟩
    · simp only [deliver_all, deliver_items_changed, hs1, Option.some_bind, hs2]
    · rw [hw2, hcount]; rfl
    · rw [hm2, hcount]; rfl
    · cases rest with
      | nil =>
        simp only [deliver_all, Option.some.injEq] at hs2
        subst hs2
        simp only [final_count, hmod, g_list_model_get_n_items, h2]
      | cons e2 rest2 =>
        rw [hn2 (List.cons_ne_nil e2 rest2), hcount]; rfl

/-- C2. For every sequence of items-changed notifications consistent with the
backing model, delivered to a carousel whose two sequences have equal length,
the handler returns after each notification and then the item sequence and the
mirror sequence both have as many entries as the model has items, that is the
old count less the removed plus the added items. -/
theorem items_changed_keeps_lengths (gm : WidgetMeasure) (self : BzCarousel)
    (es : List Notification) (k : Nat)
    (hmir : self.mirror.length = self.widgets.length)
    (hc : consistent self.widgets.length es = true) :
    ∃ s1, deliver_all gm self (es.take k) = some s1 ∧
      s1.widgets.length = final_count self.widgets.length (es.take k) ∧
      s1.mirror.length = final_count self.widgets.length (es.take k) ∧
      (es.take k ≠ [] →
        g_list_model_get_n_items s1.model = final_count self.widgets.length (es.take k)) :=
  deliver_all_spec gm self (es.take k) hmir (consistent_take _ es k hc)

/-- C2, at a concrete input: item 0 of two is removed, then two items are added
at position 1. -/
theorem items_changed_keeps_lengths_witness :
    ∃ s1, deliver_all wide100 two_items_at_rest
        ([⟨⟨1, [11], 0, true⟩, 0, 1, 0⟩, ⟨⟨1, [11, 12, 13], 0, true⟩, 1, 0, 2⟩].take 2) = some s1 ∧
      s1.widgets.length = final_count two_items_at_rest.widgets.length
        ([⟨⟨1, [11], 0, true⟩, 0, 1, 0⟩, ⟨⟨1, [11, 12, 13], 0, true⟩, 1, 0, 2⟩].take 2) ∧
      s1.mirror.length = final_count two_items_at_rest.widgets.length
        ([⟨⟨1, [11], 0, true⟩, 0, 1, 0⟩, ⟨⟨1, [11, 12, 13], 0, true⟩, 1, 0, 2⟩].take 2) ∧
      (([⟨⟨1, [11], 0, true⟩, 0, 1, 0⟩, ⟨⟨1, [11, 12, 13], 0, true⟩, 1, 0, 2⟩] :
          List Notification).take 2 ≠ [] →
        g_list_model_get_n_items s1.model = final_count two_items_at_rest.widgets.length
          ([⟨⟨1, [11], 0, true⟩, 0, 1, 0⟩, ⟨⟨1, [11, 12, 13], 0, true⟩, 1, 0, 2⟩].take 2)) :=
  items_changed_keeps_lengths wide100 two_items_at_rest
    [⟨⟨1, [11], 0, true⟩, 0, 1, 0⟩, ⟨⟨1, [11, 12, 13], 0, true⟩, 1, 0, 2⟩] 2
    (by decide) (by decide)

/-! ## Removal while animations are in flight -/

theorem cancelled_keys_append (es fs : List Effect) :
    cancelled_keys (es ++ fs) = cancelled_keys es ++ cancelled_keys fs := by
  induction es with
  | nil => rfl
  | cons e rest ih => cases e <;> simp [cancelled_keys, ih]

theorem cancelled_keys_cancel_child (addr : Nat) :
    cancelled_keys (cancel_child addr) = child_keys addr := rfl

/-- A run of calls without `bz_animation_add_spring` leaves the animator with the
springs whose keys it did not cancel. -/
theorem foldl_cancels (es : List Effect) (a : BzAnimation)
    (h : ∀ k sp, Effect.add_spring k sp ∉ es) :
    es.foldl animation_step a = a.filter (fun e => decide (e.1 ∉ cancelled_keys es)) := by
  induction es generalizing a with
  | nil => simp [cancelled_keys]
  | cons e rest ih =>
    have hrest : ∀ k sp, Effect.add_spring k sp ∉ rest :=
      fun k sp hmem => h k sp (List.mem_cons_of_mem e hmem)
    rw [List.foldl_cons, ih _ hrest]
    cases e with
    | cancel key =>
      simp only [animation_step, bz_animation_cancel, cancelled_keys, List.filter_filter,
        List.mem_cons, not_or]
      congr 1
      funext x
      by_cases h1 : x.1 = key <;> simp [h1]
    | add_spring key sp => exact absurd (List.mem_cons_self _ _) (h key sp)
    | _ => simp [animation_step, cancelled_keys]

theorem layout_child_unanimated (gm : WidgetMeasure) (width height : Int) (d : ℚ) (hd : d < 0)
    (offset : Int) (child : CarouselWidgetData) :
    (layout_child gm width height d offset child).2
      = if graphene_rect_equal (child_target gm width height offset child) child.target = false ∨
          graphene_rect_equal graphene_rect_zero child.rect = true
        then cancel_child child.addr else [] := by
  unfold layout_child
  simp only []
  by_cases h1 : graphene_rect_equal (child_target gm width height offset child) child.target = false
  · rw [if_pos (Or.inl ⟨hd, h1⟩), if_pos (Or.inl h1)]
  · have h1t : graphene_rect_equal (child_target gm width height offset child) child.target = true := by
      simpa using h1
    by_cases h2 : graphene_rect_equal graphene_rect_zero child.rect = true
    · rw [if_pos (Or.inr h2), if_pos (Or.inr h2)]
    · rw [if_neg (by rintro (⟨-, h⟩ | h); exact h1 h; exact h2 h), if_pos h1t,
        if_neg (by rintro (h | h); exact h1 h; exact h2 h)]

theorem layout_loop_unanimated (gm : WidgetMeasure) (width height : Int) (d : ℚ) (hd : d < 0)
    (l : List CarouselWidgetData) (offset : Int) :
    (∀ k sp, Effect.add_spring k sp ∉ (layout_loop gm width height d l offset).2) ∧
      cancelled_keys (layout_loop gm width height d l offset).2
        = snapped_keys gm width height l offset := by
  induction l generalizing offset with
  | nil => exact ⟨fun k sp h => by simp [layout_loop] at h, rfl⟩
  | cons c rest ih =>
    obtain ⟨ih1, ih2⟩ := ih (offset + child_width gm c.widget height width)
    simp only [layout_loop, snapped_keys, layout_child_unanimated gm width height d hd,
      cancelled_keys_append, ih2]
    constructor
    · intro k sp hmem
      rcases List.mem_append.mp hmem with h | h
      · split_ifs at h
        · simp [cancel_child, child_keys] at h
        · simp at h
      · exact ih1 k sp h
    · split_ifs
      · rfl
      · rfl

theorem ensure_viewport_empty (gm : WidgetMeasure) (self : BzCarousel) (animate : Bool)
    (h : g_list_model_get_n_items self.model = 0) :
    ensure_viewport gm self animate = some (perform self [.queue_allocate]) := by
  unfold ensure_viewport
  simp only [h, gt_iff_lt, lt_self_iff_false, if_false, Option.map_some']

theorem ensure_viewport_selected (gm : WidgetMeasure) (self : BzCarousel) (animate : Bool)
    (m : GtkSingleSelection) (hm : self.model = some m) (hn : 0 < m.items.length)
    (hs : m.selected ≠ G_MAXUINT) :
    ensure_viewport gm self animate
      = (move_to_idx gm self m.selected (if animate then 1.0 else -1.0)).map
          (fun s => perform s [.queue_allocate]) := by
  unfold ensure_viewport
  simp only [hm, g_list_model_get_n_items, gtk_single_selection_get_selected, gt_iff_lt, hn,
    if_true, if_neg hs]

theorem items_changed_remove_one (gm : WidgetMeasure) (s : BzCarousel) (i : Nat)
    (hmir : s.mirror.length = s.widgets.length) (hi : i < s.widgets.length) :
    items_changed gm s i 1 0 = ensure_viewport gm (perform
      { s with
        mirror := g_ptr_array_remove_range s.mirror i 1
        widgets := g_ptr_array_remove_range s.widgets i 1 }
      (cancel_child (s.widgets[i]).addr ++
        [Effect.unbind_widget (s.widgets[i]).widget (s.mirror[i]),
         Effect.unref (s.widgets[i]).addr (s.widgets[i]).widget])) false := by
  have hi2 : i < s.mirror.length := by omega
  have hcalls : removal_calls s i 1
      = some (cancel_child (s.widgets[i]).addr ++
          [Effect.unbind_widget (s.widgets[i]).widget (s.mirror[i])]) := by
    unfold removal_calls
    have h1 : List.range 1 = [0] := rfl
    rw [h1, List.mapM_cons, List.mapM_nil]
    simp [List.getElem?_eq_getElem hi, List.getElem?_eq_getElem hi2]
  have hdrop : (s.widgets.drop i).take 1 = [s.widgets[i]] := by
    rw [List.drop_eq_getElem_cons hi]; rfl
  have hrem : ∀ calls, remove_items (perform s calls) i 1 = perform
      { s with
        mirror := g_ptr_array_remove_range s.mirror i 1
        widgets := g_ptr_array_remove_range s.widgets i 1 }
      (calls ++ [Effect.unref (s.widgets[i]).addr (s.widgets[i]).widget]) := by
    intro calls
    unfold remove_items
    rw [if_pos (by decide)]
    have hle : i + 1 ≤ (perform s calls).widgets.length := hi
    rw [if_pos hle]
    show perform _ (((s.widgets.drop i).take 1).map _) = _
    rw [hdrop]
    simp only [perform, List.map_cons, List.map_nil, List.foldl_append, List.append_assoc]
  unfold items_changed
  rw [hcalls]
  simp only [hrem, List.range_zero, List.foldlM_nil, Option.pure_def, List.append_assoc,
    List.singleton_append]

/-- C3, amended. Removing the one item at index `i` from a registry that mirrors
the model, the model keeping a selected item or none at all: the handler returns
and the active animations are exactly the previous ones less those whose key the
handler cancels, namely the four keys of item `i` and the four keys of every item
that stays and that the concluding unanimated re-layout snaps (its recomputed
rectangle differs from its previous target, or its rect is all-zero; none on a
zero viewport). The handler makes no `bz_animation_add_spring` call, so no
animation is replaced or added. -/
theorem removal_cancels_exactly (gm : WidgetMeasure) (s : BzCarousel) (m : GtkSingleSelection)
    (i : Nat) (hmir : s.mirror.length = s.widgets.length) (hi : i < s.widgets.length)
    (hlen : m.items.length = s.widgets.length - 1)
    (hsel : m.items.length = 0 ∨ (m.selected < m.items.length ∧ m.selected ≠ G_MAXUINT)) :
    ∃ s1 es, deliver_items_changed gm s m i 1 0 = some s1 ∧
      s1.animation = s.animation.filter (fun e => decide (e.1 ∉ removal_cancelled gm s m i)) ∧
      s1.log = s.log ++ es ∧ (∀ k sp, Effect.add_spring k sp ∉ es) ∧
      cancelled_keys es = removal_cancelled gm s m i := by
  have hkey : ∀ (ws : List CarouselWidgetData) (mr : List Nat) (es : List Effect),
      (∀ k sp, Effect.add_spring k sp ∉ es) →
      cancelled_keys es = removal_cancelled gm s m i →
      (perform { s with model := some m, mirror := mr, widgets := ws } es).animation
        = s.animation.filter (fun e => decide (e.1 ∉ removal_cancelled gm s m i)) ∧
      (perform { s with model := some m, mirror := mr, widgets := ws } es).log = s.log ++ es ∧
      (∀ k sp, Effect.add_spring k sp ∉ es) ∧
      cancelled_keys es = removal_cancelled gm s m i := by
    intro ws mr es h2 h3
    refine ⟨?_, rfl, h2, h3⟩
    show es.foldl animation_step s.animation = _
    rw [foldl_cancels es _ h2, h3]
  have hfirst : ∀ k sp, Effect.add_spring k sp ∉ cancel_child (s.widgets[i]).addr ++
      [Effect.unbind_widget (s.widgets[i]).widget (s.mirror[i]),
       Effect.unref (s.widgets[i]).addr (s.widgets[i]).widget] := by
    intro k sp h
    simp [cancel_child, child_keys] at h
  have hfk : cancelled_keys (cancel_child (s.widgets[i]).addr ++
      [Effect.unbind_widget (s.widgets[i]).widget (s.mirror[i]),
       Effect.unref (s.widgets[i]).addr (s.widgets[i]).widget]) = child_keys (s.widgets[i]).addr := by
    rw [cancelled_keys_append, cancelled_keys_cancel_child]
    simp [cancelled_keys]
  have hq : ∀ (es : List Effect), cancelled_keys (es ++ [Effect.queue_allocate])
      = cancelled_keys es := by
    intro es; rw [cancelled_keys_append]; simp [cancelled_keys]
  have hqs : ∀ (es : List Effect), (∀ k sp, Effect.add_spring k sp ∉ es) →
      ∀ k sp, Effect.add_spring k sp ∉ es ++ [Effect.queue_allocate] := by
    intro es h k sp hmem
    rcases List.mem_append.mp hmem with h1 | h1
    · exact h k sp h1
    · simp at h1
  have hK : removal_cancelled gm s m i = child_keys (s.widgets[i]).addr ++
      (if s.width = 0 ∨ s.height = 0 ∨ m.items.length = 0 then []
        else snapped_keys gm s.width s.height (g_ptr_array_remove_range s.widgets i 1)
          (layout_start gm { s with widgets := g_ptr_array_remove_range s.widgets i 1 }
            m.selected)) := by
    simp only [removal_cancelled, List.getElem?_eq_getElem hi]
  unfold deliver_items_changed
  rw [items_changed_remove_one gm { s with model := some m } i hmir hi]
  obtain ⟨sa, hsa⟩ : ∃ sa, sa = perform
      { s with
        model := some m
        mirror := g_ptr_array_remove_range s.mirror i 1
        widgets := g_ptr_array_remove_range s.widgets i 1 }
      (cancel_child (s.widgets[i]).addr ++
        [Effect.unbind_widget (s.widgets[i]).widget (s.mirror[i]),
         Effect.unref (s.widgets[i]).addr (s.widgets[i]).widget]) := ⟨_, rfl⟩
  have hgoal : ∀ x : Option BzCarousel, x = ensure_viewport gm sa false →
      x = ensure_viewport gm (perform
        { ({ s with model := some m } : BzCarousel) with
          mirror := g_ptr_array_remove_range s.mirror i 1
          widgets := g_ptr_array_remove_range s.widgets i 1 }
        (cancel_child (s.widgets[i]).addr ++
          [Effect.unbind_widget (s.widgets[i]).widget (s.mirror[i]),
           Effect.unref (s.widgets[i]).addr (s.widgets[i]).widget])) false := by
    intro x hx; rw [hx, hsa]
  have hmodel : sa.model = some m := by rw [hsa]; rfl
  have hwid : sa.widgets = g_ptr_array_remove_range s.widgets i 1 := by rw [hsa]; rfl
  have hsize : sa.width = s.width ∧ sa.height = s.height := by rw [hsa]; exact ⟨rfl, rfl⟩
  have hstart : layout_start gm sa m.selected
      = layout_start gm { s with widgets := g_ptr_array_remove_range s.widgets i 1 }
          m.selected := by rw [hsa]; rfl
  have hmain : ∃ ws es, ensure_viewport gm sa false = some (perform
        { s with
          model := some m
          mirror := g_ptr_array_remove_range s.mirror i 1
          widgets := ws } es) ∧
      (∀ k sp, Effect.add_spring k sp ∉ es) ∧
      cancelled_keys es = removal_cancelled gm s m i := by
    by_cases hn : m.items.length = 0
    · have hev := ensure_viewport_empty gm sa false (by rw [hmodel]; exact hn)
      have e1 : perform sa [.queue_allocate] = perform
          { s with
            model := some m
            mirror := g_ptr_array_remove_range s.mirror i 1
            widgets := g_ptr_array_remove_range s.widgets i 1 }
          (cancel_child (s.widgets[i]).addr ++
            [Effect.unbind_widget (s.widgets[i]).widget (s.mirror[i]),
             Effect.unref (s.widgets[i]).addr (s.widgets[i]).widget] ++ [.queue_allocate]) := by
        rw [hsa, perform_perform]
      rw [e1] at hev
      refine ⟨_, _, hev, hqs _ hfirst, ?_⟩
      rw [hq, hfk, hK]
      simp [hn]
    · have hs : m.selected < m.items.length ∧ m.selected ≠ G_MAXUINT := by
        rcases hsel with h | h
        · exact absurd h hn
        · exact h
      have hev := ensure_viewport_selected gm sa false m hmodel (by omega) hs.2
      by_cases hz : s.width = 0 ∨ s.height = 0
      · rw [move_to_idx_zero gm sa _ _ (by rw [hsize.1, hsize.2]; exact hz)] at hev
        have e1 : perform (perform sa [.queue_allocate]) [.queue_allocate] = perform
            { s with
              model := some m
              mirror := g_ptr_array_remove_range s.mirror i 1
              widgets := g_ptr_array_remove_range s.widgets i 1 }
            (cancel_child (s.widgets[i]).addr ++
              [Effect.unbind_widget (s.widgets[i]).widget (s.mirror[i]),
               Effect.unref (s.widgets[i]).addr (s.widgets[i]).widget] ++ [.queue_allocate]
              ++ [.queue_allocate]) := by
          rw [hsa]
          simp only [perform, List.foldl_append, List.append_assoc]
        simp only [Option.map_some'] at hev
        rw [e1] at hev
        refine ⟨_, _, hev, hqs _ (hqs _ hfirst), ?_⟩
        rw [hq, hq, hfk, hK]
        rcases hz with h | h <;> simp [h]
      · have hlt : m.selected < sa.widgets.length := by
          rw [hwid, g_ptr_array_remove_range_length _ _ _ hi]; omega
        rw [move_to_idx_relayout gm sa _ _ (by rw [hsize.1, hsize.2]; exact hz) hlt] at hev
        obtain ⟨hl1, hl2⟩ := layout_loop_unanimated gm s.width s.height
          (if false = true then 1.0 else -1.0) (by norm_num)
          (g_ptr_array_remove_range s.widgets i 1)
          (layout_start gm { s with widgets := g_ptr_array_remove_range s.widgets i 1 }
            m.selected)
        have e1 : perform (relayout gm sa m.selected (if false = true then 1.0 else -1.0))
            [.queue_allocate] = perform
            { s with
              model := some m
              mirror := g_ptr_array_remove_range s.mirror i 1
              widgets := (layout_loop gm s.width s.height (if false = true then 1.0 else -1.0)
                (g_ptr_array_remove_range s.widgets i 1)
                (layout_start gm { s with widgets := g_ptr_array_remove_range s.widgets i 1 }
                  m.selected)).1 }
            (cancel_child (s.widgets[i]).addr ++
              [Effect.unbind_widget (s.widgets[i]).widget (s.mirror[i]),
               Effect.unref (s.widgets[i]).addr (s.widgets[i]).widget] ++
              ((layout_loop gm s.width s.height (if false = true then 1.0 else -1.0)
                (g_ptr_array_remove_range s.widgets i 1)
                (layout_start gm { s with widgets := g_ptr_array_remove_range s.widgets i 1 }
                  m.selected)).2 ++ [.queue_allocate]) ++ [.queue_allocate]) := by
          simp only [relayout, hstart, hwid, hsize.1, hsize.2]
          rw [hsa]
          simp only [perform, List.foldl_append, List.append_assoc]
        simp only [Option.map_some'] at hev
        rw [e1] at hev
        refine ⟨_, _, hev, ?_, ?_⟩
        · intro k sp hmem
          simp only [List.mem_append, List.mem_singleton] at hmem
          rcases hmem with ((h | h) | (h | h)) | h
          · exact hfirst k sp (List.mem_append.mpr (Or.inl h))
          · exact hfirst k sp (List.mem_append.mpr (Or.inr h))
          · exact hl1 k sp h
          · cases h
          · cases h
        · have hz1 : ¬ (s.width = 0 ∨ s.height = 0 ∨ m.items.length = 0) := by
            rintro (h | h | h)
            · exact hz (Or.inl h)
            · exact hz (Or.inr h)
            · exact hn h
          simp only [cancelled_keys_append, hfk, hl2, hK]
          rw [if_neg hz1]
          simp [cancelled_keys]
  obtain ⟨ws, es, h1, h2, h3⟩ := hmain
  exact ⟨_, es, (hgoal _ h1.symm).symm, hkey ws _ es h2 h3⟩

/-- C3, counterexample. Two items with the springs on their x coordinates in
flight; item 0 (record 1) is removed. The previous animations less the four keys
of the removed record still hold the spring of the other item, but after the
handler no animation is active: the concluding re-layout cancelled it. -/
theorem removal_cancels_survivor :
    (deliver_items_changed wide100 two_items_settling ⟨1, [11], 0, true⟩ 0 1 0).map
        (fun s => s.animation) = some [] ∧
      two_items_settling.animation.filter (fun e => decide (e.1 ∉ child_keys 1))
        = [(⟨'x', 3⟩, ⟨220, 200, 1.0, 1.0, 0.16⟩)] := by
  constructor <;> decide!

/-- C3, amended, at the input of the counterexample. -/
theorem removal_cancels_exactly_witness :
    ∃ s1 es, deliver_items_changed wide100 two_items_settling ⟨1, [11], 0, true⟩ 0 1 0 = some s1 ∧
      s1.animation = two_items_settling.animation.filter
        (fun e => decide (e.1 ∉ removal_cancelled wide100 two_items_settling ⟨1, [11], 0, true⟩ 0)) ∧
      s1.log = two_items_settling.log ++ es ∧ (∀ k sp, Effect.add_spring k sp ∉ es) ∧
      cancelled_keys es = removal_cancelled wide100 two_items_settling ⟨1, [11], 0, true⟩ 0 :=
  removal_cancels_exactly wide100 two_items_settling ⟨1, [11], 0, true⟩ 0
    (by decide) (by decide) (by decide) (by decide)

/-! ## Discrete scrolling -/

/-- Setting the cursor never writes outside the reach of a re-layout. -/
theorem set_selected_frame (gm : WidgetMeasure) (self s1 : BzCarousel) (position : Nat)
    (h : gtk_single_selection_set_selected gm self position = some s1) :
    frame s1 = frame self := by
  unfold gtk_single_selection_set_selected at h
  cases hm : self.model with
  | none => rw [hm] at h; cases h; rfl
  | some m =>
    rw [hm] at h
    simp only [] at h
    by_cases h1 : m.selected = position
    · rw [if_pos h1] at h; cases h; rfl
    · rw [if_neg h1] at h
      by_cases h2 : m.selected = (if position < m.items.length then position else G_MAXUINT)
      · rw [if_pos h2] at h; cases h; rfl
      · rw [if_neg h2] at h
        by_cases h3 : m.connected = true
        · rw [if_pos h3] at h
          rw [(model_selected_changed_frame gm _ s1 h).1]
          simp [frame, hm]
        · rw [if_neg h3] at h
          cases h
          simp [frame, hm]

/-- C5. A scroll event from a discrete source, on a carousel whose registry
mirrors a model of `n ≥ 1` items with the cursor at `s < n`: the handler returns
TRUE and the cursor becomes `min (s + 1) (n - 1)` when `dx > 0` and
`max (s - 1) 0` otherwise, which is an index below `n`; scrolling left at 0 stays
at 0 and scrolling right at `n - 1` stays at `n - 1`. -/
theorem discrete_scroll_steps (gm : WidgetMeasure) (self : BzCarousel) (m : GtkSingleSelection)
    (dx dy : ℚ) (source : GdkInputSource)
    (hsrc : source ≠ .GDK_SOURCE_TOUCHPAD ∧ source ≠ .GDK_SOURCE_TRACKPOINT)
    (hm : self.model = some m) (hn : 1 ≤ m.items.length) (hs : m.selected < m.items.length)
    (hreg : self.widgets.length = m.items.length) (h32 : m.items.length ≤ G_MAXUINT) :
    ∃ s1, scroll gm self dx dy source = some (true, s1) ∧
      ((gtk_single_selection_get_selected s1.model : Int)
        = if dx > 0 then min ((m.selected : Int) + 1) ((m.items.length : Int) - 1)
          else max ((m.selected : Int) - 1) 0) ∧
      gtk_single_selection_get_selected s1.model < m.items.length ∧
      (m.selected = 0 → ¬ dx > 0 → gtk_single_selection_get_selected s1.model = 0) ∧
      (m.selected = m.items.length - 1 → dx > 0 →
        gtk_single_selection_get_selected s1.model = m.items.length - 1) := by
  obtain ⟨new_selected, hnew⟩ : ∃ k, k = (if dx > 0 then MIN ((m.selected + 1) % 2 ^ 32)
      (m.items.length - 1) else if m.selected = 0 then 0 else m.selected - 1) := ⟨_, rfl⟩
  have hmax : G_MAXUINT = 4294967295 := rfl
  have hmod : (m.selected + 1) % 2 ^ 32 = m.selected + 1 := by
    apply Nat.mod_eq_of_lt
    have : (2 : Nat) ^ 32 = 4294967296 := by norm_num
    omega
  have hval : (new_selected : Int)
      = if dx > 0 then min ((m.selected : Int) + 1) ((m.items.length : Int) - 1)
        else max ((m.selected : Int) - 1) 0 := by
    rw [hnew]
    by_cases hd : dx > 0
    · simp only [if_pos hd, hmod, MIN]
      split_ifs <;> omega
    · simp only [if_neg hd]
      split_ifs <;> omega
  have hlt : new_selected < m.items.length := by
    by_cases hd : dx > 0
    · rw [if_pos hd] at hval; omega
    · rw [if_neg hd] at hval; omega
  obtain ⟨s1, hs1, -, hmod1⟩ := set_selected_spec gm self m new_selected hm hlt
    (fun _ => by omega)
  have hsel : gtk_single_selection_get_selected s1.model = new_selected := by
    rw [hmod1]; rfl
  have hscroll : scroll gm self dx dy source = some (true, s1) := by
    unfold scroll
    have h1 : ¬ self.model = none := by rw [hm]; simp
    have h2 : ¬ g_list_model_get_n_items self.model = 0 := by
      rw [hm]; simp only [g_list_model_get_n_items]; omega
    rw [if_neg h1, if_neg h2]
    have hs1b : gtk_single_selection_set_selected gm self
        (if dx > 0 then MIN ((gtk_single_selection_get_selected self.model + 1) % 2 ^ 32)
          (g_list_model_get_n_items self.model - 1)
        else if gtk_single_selection_get_selected self.model = 0 then 0
        else gtk_single_selection_get_selected self.model - 1) = some s1 := by
      rw [hm]
      simp only [gtk_single_selection_get_selected, g_list_model_get_n_items]
      rw [← hnew, hm] at *
      exact hs1
    cases source <;> first
      | exact absurd rfl hsrc.1
      | exact absurd rfl hsrc.2
      | (simp only []; rw [hs1b]; rfl)
  refine ⟨s1, hscroll, by rw [hsel]; exact hval, by rw [hsel]; exact hlt, ?_, ?_⟩
  · intro h0 hd
    rw [hsel]
    rw [if_neg hd] at hval
    omega
  · intro h0 hd
    rw [hsel]
    rw [if_pos hd] at hval
    omega

/-- C5, at a concrete input: a mouse-wheel step to the right from item 0 of two. -/
theorem discrete_scroll_steps_witness :
    ∃ s1, scroll wide100 two_items_at_rest 1 0 .GDK_SOURCE_MOUSE = some (true, s1) ∧
      ((gtk_single_selection_get_selected s1.model : Int)
        = if (1 : ℚ) > 0 then
            min (((⟨1, [10, 11], 0, true⟩ : GtkSingleSelection).selected : Int) + 1)
              (((⟨1, [10, 11], 0, true⟩ : GtkSingleSelection).items.length : Int) - 1)
          else max (((⟨1, [10, 11], 0, true⟩ : GtkSingleSelection).selected : Int) - 1) 0) ∧
      gtk_single_selection_get_selected s1.model
        < (⟨1, [10, 11], 0, true⟩ : GtkSingleSelection).items.length ∧
      ((⟨1, [10, 11], 0, true⟩ : GtkSingleSelection).selected = 0 → ¬ (1 : ℚ) > 0 →
        gtk_single_selection_get_selected s1.model = 0) ∧
      ((⟨1, [10, 11], 0, true⟩ : GtkSingleSelection).selected
          = (⟨1, [10, 11], 0, true⟩ : GtkSingleSelection).items.length - 1 → (1 : ℚ) > 0 →
        gtk_single_selection_get_selected s1.model
          = (⟨1, [10, 11], 0, true⟩ : GtkSingleSelection).items.length - 1) :=
  discrete_scroll_steps wide100 two_items_at_rest ⟨1, [10, 11], 0, true⟩ 1 0 .GDK_SOURCE_MOUSE
    (by decide) rfl (by decide) (by decide) (by decide) (by decide)

/-! ## Drag commit -/

/-- C6. Whenever the nearest-to-centre candidate is the current selection 0 and
`offset_x > 15`, `finish_horizontal_gesture` does what the animated re-layout
`ensure_viewport (animate = TRUE)` does, and on a registry that mirrors its model
it returns with the selection still 0. In the scenario (viewport width 300, two
items of natural width 100, selection 0, drag released at offset +20) the
candidate at release is index 0, the selection after `drag_end` is 0, and
`drag_end` is the animated re-layout followed by the claim of the gesture. -/
theorem drag_commit_at_first_item :
    (∀ (gm : WidgetMeasure) (self : BzCarousel) (offset_x offset_y : Int),
      self.model ≠ none → self.widgets ≠ [] →
      gtk_single_selection_get_selected self.model = 0 → nearest self = 0 → offset_x > 15 →
      finish_horizontal_gesture gm self offset_x offset_y = ensure_viewport gm self true ∧
      (synced self → ∃ s1, finish_horizontal_gesture gm self offset_x offset_y = some s1 ∧
        gtk_single_selection_get_selected s1.model = 0)) ∧
    two_items_dragged.map (fun s => nearest { s with dragging := false }) = some 0 ∧
    (two_items_dragged.bind (fun s => drag_end wide100 s 20 0)).map
      (fun s => gtk_single_selection_get_selected s.model) = some 0 ∧
    two_items_dragged.bind (fun s => drag_end wide100 s 20 0)
      = two_items_dragged.bind (fun s =>
          (ensure_viewport wide100 { s with dragging := false } true).map
            (fun s => perform s [.claimed])) := by
  refine ⟨?_, by decide!, by decide!, by decide!⟩
  intro gm self offset_x offset_y hm hw hsel hnear hox
  have hfin : finish_horizontal_gesture gm self offset_x offset_y = ensure_viewport gm self true := by
    unfold finish_horizontal_gesture
    have h1 : ¬ (self.model = none ∨ self.widgets.length = 0) := by
      rintro (h | h)
      · exact hm h
      · exact hw (List.length_eq_zero.mp h)
    rw [if_neg h1]
    simp only [hsel, hnear, snap]
    have h2 : ¬ (offset_x > 15 ∧ 0 > 0) := by omega
    have h3 : ¬ (offset_x < -15 ∧ 0 < self.widgets.length - 1) := by omega
    simp only [if_true, if_neg h2, if_neg h3, or_true]
  refine ⟨hfin, fun hsy => ?_⟩
  obtain ⟨s1, hs1⟩ := ensure_viewport_total gm self true hsy
  refine ⟨s1, by rw [hfin, hs1], ?_⟩
  rw [(ensure_viewport_frame gm self s1 true hs1).2]
  cases hmod : self.model with
  | none => exact absurd hmod hm
  | some m =>
    rw [hmod] at hsel
    simp only [gtk_single_selection_get_selected] at hsel
    simp only [Option.map_some', gtk_single_selection_get_selected, hsel]
    split_ifs <;> rfl

/-- C6, at the state of the scenario: two items, selection 0, rects displaced by
the drag, released at offset +20. -/
theorem drag_commit_at_first_item_witness :
    finish_horizontal_gesture wide100
        { two_items_at_rest with
          widgets :=
            [ ⟨1, 0, ⟨120, 3, 100, 195⟩, ⟨120, 3, 100, 195⟩, false⟩,
              ⟨3, 2, ⟨220, 3, 100, 195⟩, ⟨220, 3, 100, 195⟩, false⟩ ] } 20 0
      = ensure_viewport wide100
        { two_items_at_rest with
          widgets :=
            [ ⟨1, 0, ⟨120, 3, 100, 195⟩, ⟨120, 3, 100, 195⟩, false⟩,
              ⟨3, 2, ⟨220, 3, 100, 195⟩, ⟨220, 3, 100, 195⟩, false⟩ ] } true :=
  (drag_commit_at_first_item.1 wide100 _ 20 0 (by decide) (by decide) (by decide) (by decide!)
    (by decide)).1

/-! ## The raise factor -/

theorem child_target_vertical (gm : WidgetMeasure) (width height offset : Int)
    (c : CarouselWidgetData) :
    (c.raised = false →
      (child_target gm width height offset c).height
          = (c_round ((height : ℚ) * (1 - 0.025)) : ℚ) ∧
        (child_target gm width height offset c).y = (c_round ((height : ℚ) * 0.0125) : ℚ)) ∧
    (c.raised = true →
      (child_target gm width height offset c).height = (height : ℚ) ∧
        (child_target gm width height offset c).y = 0) := by
  have e1 : (1.0 : ℚ) - RAISE_FACTOR = 1 - 0.025 := by norm_num [RAISE_FACTOR]
  have e2 : (0.5 : ℚ) * RAISE_FACTOR = 0.0125 := by norm_num [RAISE_FACTOR]
  constructor
  · intro hr
    simp only [child_target, hr, Bool.false_eq_true, if_false, GRAPHENE_RECT_INIT, e1, e2,
      and_self]
  · intro hr
    simp only [child_target, hr, if_true, GRAPHENE_RECT_INIT, Int.cast_zero, and_self]

/-- C7. On a viewport of height `h > 0` (and non-zero width) `move_to_idx`
returns, and gives every unraised item the target height `round (h * (1 - 0.025))`
and the target y `round (h * 0.0125)`, every raised item the target height `h` and
the target y 0, `round` rounding halves away from zero; for `h = 200` the two
values are 195 and 3. -/
theorem raise_factor_geometry (gm : WidgetMeasure) (self : BzCarousel) (idx : Nat) (d : ℚ)
    (hW : self.width ≠ 0) (hH : 0 < self.height) (hi : idx < self.widgets.length) :
    ∃ s1, move_to_idx gm self idx d = some s1 ∧
      (∀ (j : Nat) (c c1 : CarouselWidgetData), self.widgets[j]? = some c → s1.widgets[j]? = some c1 →
        (c.raised = false →
          c1.target.height = (c_round ((self.height : ℚ) * (1 - 0.025)) : ℚ) ∧
            c1.target.y = (c_round ((self.height : ℚ) * 0.0125) : ℚ)) ∧
        (c.raised = true → c1.target.height = (self.height : ℚ) ∧ c1.target.y = 0)) ∧
      c_round ((200 : ℚ) * (1 - 0.025)) = 195 ∧ c_round ((200 : ℚ) * 0.0125) = 3 := by
  have hz : ¬ (self.width = 0 ∨ self.height = 0) := by
    rintro (h | h)
    · exact hW h
    · omega
  refine ⟨_, move_to_idx_relayout gm self idx d hz hi, ?_, by decide!, by decide!⟩
  intro j c c1 hc hc1
  have hj : j < self.widgets.length := by
    by_contra hcon
    rw [List.getElem?_eq_none (by omega)] at hc
    cases hc
  have hcj : self.widgets[j] = c := by
    rw [List.getElem?_eq_getElem hj] at hc
    exact Option.some.inj hc
  have h1 : (relayout gm self idx d).widgets[j]?
      = some (layout_child gm self.width self.height d
          (layout_start gm self idx + nominal_sum gm self.width self.height self.widgets j)
          self.widgets[j]).1 :=
    layout_loop_getElem gm self.width self.height d self.widgets _ j hj
  rw [h1] at hc1
  have hc1e := Option.some.inj hc1
  rw [← hc1e, layout_child_target, hcj]
  exact child_target_vertical gm self.width self.height _ c

/-- C7, at a concrete input: two items in a viewport of height 200. -/
theorem raise_factor_geometry_witness :
    ∃ s1, move_to_idx wide100 two_items_at_rest 0 (-1.0) = some s1 ∧
      (∀ (j : Nat) (c c1 : CarouselWidgetData), two_items_at_rest.widgets[j]? = some c → s1.widgets[j]? = some c1 →
        (c.raised = false →
          c1.target.height = (c_round ((two_items_at_rest.height : ℚ) * (1 - 0.025)) : ℚ) ∧
            c1.target.y = (c_round ((two_items_at_rest.height : ℚ) * 0.0125) : ℚ)) ∧
        (c.raised = true →
          c1.target.height = (two_items_at_rest.height : ℚ) ∧ c1.target.y = 0)) ∧
      c_round ((200 : ℚ) * (1 - 0.025)) = 195 ∧ c_round ((200 : ℚ) * 0.0125) = 3 :=
  raise_factor_geometry wide100 two_items_at_rest 0 (-1.0) (by decide) (by decide) (by decide)

/-! ## Measure -/

/-- From a minimum of 0 the loop of `bz_carousel_measure` never lowers the
minimum: `tmp_minimum > 0 && tmp_minimum < 0` holds for no child. -/
theorem measure_minimum_stays_zero (gm : WidgetMeasure) (self : BzCarousel)
    (orientation : GtkOrientation) (for_size : Int) (out : Measure) (h : out.minimum = 0) :
    (bz_carousel_measure gm self orientation for_size out).minimum = 0 := by
  unfold bz_carousel_measure
  generalize self.widgets = l
  induction l generalizing out with
  | nil => exact h
  | cons c rest ih =>
    rw [List.foldl_cons]
    apply ih
    simp only [measure_step, h]
    rw [if_neg (by omega)]

/-- C9, the code at the failing input: two children that each measure minimum 50
and natural 100, out-parameters 0 on entry. The natural is the largest natural,
100, but the minimum comes back as 0, not as the smallest minimum 50. -/
theorem measure_reports_zero_minimum :
    bz_carousel_measure min50_nat100 two_items_at_rest .GTK_ORIENTATION_HORIZONTAL (-1)
        ⟨0, 0, 0, 0⟩ = ⟨0, 100, 0, 0⟩ := by
  decide

/-! ## The `raised` property -/

theorem update_motion_raised (gm : WidgetMeasure) (self s1 : BzCarousel) (x y : ℚ)
    (h : update_motion gm self x y = some s1) : s1.raised = self.raised := by
  unfold update_motion at h
  simp only [] at h
  split_ifs at h
  · cases h; rfl
  · cases h; rfl
  · have hr := frame_raised (ensure_viewport_frame gm _ s1 true h).1
    exact hr
  · cases h; rfl

theorem finish_horizontal_gesture_raised (gm : WidgetMeasure) (self s1 : BzCarousel)
    (offset_x offset_y : Int)
    (h : finish_horizontal_gesture gm self offset_x offset_y = some s1) :
    s1.raised = self.raised := by
  unfold finish_horizontal_gesture at h
  simp only [] at h
  split_ifs at h
  · cases h; rfl
  · have hr := frame_raised (ensure_viewport_frame gm _ s1 true h).1
    exact hr
  · have hr := frame_raised (set_selected_frame gm _ s1 _ h)
    exact hr

/-- C10, amended. In every state reachable through the pointer enter, move and
leave handlers and the scroll-end handler, `bz_carousel_get_raised` returns what
it returned in the state they started from: the handlers never write the
property, whatever the raised flags of the items are. -/
theorem raised_property_untouched (gm : WidgetMeasure) (s0 s : BzCarousel)
    (h : hover_reachable gm s0 s) : bz_carousel_get_raised s = bz_carousel_get_raised s0 := by
  induction h with
  | start => rfl
  | enter s s1 x y _ hstep ih =>
    unfold bz_carousel_get_raised at ih ⊢
    rw [← ih]
    have h2 : update_motion gm { s with motion_x := x, motion_y := y } x y = some s1 := hstep
    have hr := update_motion_raised gm _ s1 x y h2
    exact hr
  | motion s s1 x y _ hstep ih =>
    unfold bz_carousel_get_raised at ih ⊢
    rw [← ih]
    have h2 : update_motion gm { s with motion_x := x, motion_y := y } x y = some s1 := hstep
    have hr := update_motion_raised gm _ s1 x y h2
    exact hr
  | leave s s1 _ hstep ih =>
    unfold bz_carousel_get_raised at ih ⊢
    rw [← ih]
    unfold motion_leave at hstep
    split_ifs at hstep
    · cases hstep; rfl
    · have hr := update_motion_raised gm _ s1 _ _ hstep
      exact hr
  | scroll_end s s1 _ hstep ih =>
    unfold bz_carousel_get_raised at ih ⊢
    rw [← ih]
    unfold scroll_end at hstep
    simp only [] at hstep
    cases hf : finish_horizontal_gesture gm { s with scrolling := false }
        (s.hscroll_start - s.hscroll_current) 0 with
    | none => rw [hf] at hstep; cases hstep
    | some s2 =>
      rw [hf] at hstep
      simp only [Option.some_bind] at hstep
      have h1 := finish_horizontal_gesture_raised gm _ s2 _ _ hf
      have h2 := update_motion_raised gm _ s1 _ _ hstep
      exact h2.trans h1

/-- C10, counterexample. The pointer enters over item 0 of two items at rest: the
handler returns the state `two_items_hovered`, in which item 0 has its raised flag
set, and `bz_carousel_get_raised` still returns FALSE. -/
theorem raised_property_ignores_hover :
    motion_enter wide100 two_items_at_rest 150 100 = some two_items_hovered ∧
      two_items_hovered.widgets.any (fun c => c.raised) = true ∧
      bz_carousel_get_raised two_items_hovered = false := by
  refine ⟨by decide!, by decide, by decide⟩

/-- C10, amended, at the state of the counterexample. -/
theorem raised_property_untouched_witness :
    bz_carousel_get_raised two_items_hovered = bz_carousel_get_raised two_items_at_rest :=
  raised_property_untouched wide100 two_items_at_rest two_items_hovered
    (hover_reachable.enter two_items_at_rest two_items_hovered 150 100 hover_reachable.start
      (by decide!))

/-! ## Binding a model -/

theorem mapM_option_mem {α β : Type} (f : α → Option β) (l : List α) (ys : List β)
    (h : l.mapM f = some ys) : ∀ x ∈ l, ∃ y, f x = some y ∧ y ∈ ys := by
  induction l generalizing ys with
  | nil => intro x hx; cases hx
  | cons a rest ih =>
    rw [List.mapM_cons] at h
    cases hfa : f a with
    | none => rw [hfa] at h; cases h
    | some y =>
      cases hr : rest.mapM f with
      | none => rw [hfa, hr] at h; cases h
      | some zs =>
        rw [hfa, hr] at h
        cases h
        intro x hx
        rcases List.mem_cons.mp hx with h1 | h1
        · exact ⟨y, by rw [h1, hfa], List.mem_cons_self _ _⟩
        · obtain ⟨z, hz1, hz2⟩ := ih zs hr x h1
          exact ⟨z, hz1, List.mem_cons_of_mem _ hz2⟩

/-- C11. On a model with at least one item whose cursor holds the sentinel,
`ensure_viewport` sets the cursor to 0 and is the layout for index 0 on the state
that call leaves; with a cursor `s` other than the sentinel it is the layout for
`s` and the model is left as it was; with no item (or no model) it changes no
selection and computes no layout, it only requests an allocation. On a registry
that mirrors its model the function returns. -/
theorem ensure_viewport_selects_first (gm : WidgetMeasure) (self : BzCarousel) (animate : Bool) :
    (∀ m, self.model = some m → 0 < m.items.length → m.selected = G_MAXUINT →
      (m.connected = true → 0 < self.widgets.length) →
      ∃ s0, gtk_single_selection_set_selected gm self 0 = some s0 ∧
        s0.model = some { m with selected := 0 } ∧
        ensure_viewport gm self animate
          = (move_to_idx gm s0 0 (if animate then 1.0 else -1.0)).map
              (fun s => perform s [.queue_allocate]) ∧
        ∀ s1, ensure_viewport gm self animate = some s1 →
          gtk_single_selection_get_selected s1.model = 0) ∧
    (∀ m, self.model = some m → 0 < m.items.length → m.selected ≠ G_MAXUINT →
      ensure_viewport gm self animate
        = (move_to_idx gm self m.selected (if animate then 1.0 else -1.0)).map
            (fun s => perform s [.queue_allocate]) ∧
      ∀ s1, ensure_viewport gm self animate = some s1 → s1.model = self.model) ∧
    (g_list_model_get_n_items self.model = 0 →
      ensure_viewport gm self animate
        = some { self with log := self.log ++ [Effect.queue_allocate] }) ∧
    (synced self → ∃ s1, ensure_viewport gm self animate = some s1) := by
  refine ⟨?_, ?_, ?_, ensure_viewport_total gm self animate⟩
  · intro m hm hn hs hw
    obtain ⟨s0, h0, -, hmod⟩ := set_selected_spec gm self m 0 hm hn hw
    have heq : ensure_viewport gm self animate
        = (move_to_idx gm s0 0 (if animate then 1.0 else -1.0)).map
            (fun s => perform s [.queue_allocate]) := by
      unfold ensure_viewport
      simp only [hm, g_list_model_get_n_items, gtk_single_selection_get_selected, gt_iff_lt, hn,
        if_true, hs, h0, Option.some_bind]
    refine ⟨s0, h0, hmod, heq, ?_⟩
    intro s1 hs1
    rw [heq] at hs1
    cases hmv : move_to_idx gm s0 0 (if animate then 1.0 else -1.0) with
    | none => rw [hmv] at hs1; cases hs1
    | some sm =>
      rw [hmv] at hs1
      simp only [Option.map_some', Option.some.injEq] at hs1
      subst hs1
      show gtk_single_selection_get_selected sm.model = 0
      rw [(move_to_idx_frame gm s0 sm _ _ hmv).2, hmod]
      rfl
  · intro m hm hn hs
    have heq := ensure_viewport_selected gm self animate m hm hn hs
    refine ⟨heq, ?_⟩
    intro s1 hs1
    rw [heq] at hs1
    cases hmv : move_to_idx gm self m.selected (if animate then 1.0 else -1.0) with
    | none => rw [hmv] at hs1; cases hs1
    | some sm =>
      rw [hmv] at hs1
      simp only [Option.map_some', Option.some.injEq] at hs1
      subst hs1
      exact (move_to_idx_frame gm self sm _ _ hmv).2
  · intro hn
    rw [ensure_viewport_empty gm self animate hn]
    rfl

/-- C11, at a concrete input: two items whose model reports no selection. -/
theorem ensure_viewport_selects_first_witness :
    ∃ s0, gtk_single_selection_set_selected wide100
        { two_items_at_rest with model := some ⟨1, [10, 11], G_MAXUINT, true⟩ } 0 = some s0 ∧
      s0.model = some { (⟨1, [10, 11], G_MAXUINT, true⟩ : GtkSingleSelection) with selected := 0 } ∧
      ensure_viewport wide100
          { two_items_at_rest with model := some ⟨1, [10, 11], G_MAXUINT, true⟩ } false
        = (move_to_idx wide100 s0 0 (if false = true then 1.0 else -1.0)).map
            (fun s => perform s [.queue_allocate]) ∧
      ∀ s1, ensure_viewport wide100
          { two_items_at_rest with model := some ⟨1, [10, 11], G_MAXUINT, true⟩ } false = some s1 →
        gtk_single_selection_get_selected s1.model = 0 :=
  (ensure_viewport_selects_first wide100
    { two_items_at_rest with model := some ⟨1, [10, 11], G_MAXUINT, true⟩ } false).1
    ⟨1, [10, 11], G_MAXUINT, true⟩ rfl (by decide) rfl (fun _ => by decide)

/-- C12. With a viewport of zero width or zero height `move_to_idx` defers, for
every item list, index and damping ratio: it returns the state with one more
`gtk_widget_queue_allocate` in the log and nothing else changed, so every rect and
target is as before and the animator has started and cancelled nothing. -/
theorem zero_viewport_defers (gm : WidgetMeasure) (self : BzCarousel) (idx : Nat) (d : ℚ)
    (h : self.width = 0 ∨ self.height = 0) :
    move_to_idx gm self idx d = some { self with log := self.log ++ [Effect.queue_allocate] } ∧
      ∃ s1, move_to_idx gm self idx d = some s1 ∧ s1.widgets = self.widgets ∧
        s1.animation = self.animation ∧ s1.log = self.log ++ [Effect.queue_allocate] := by
  rw [move_to_idx_zero gm self idx d h]
  exact ⟨rfl, _, rfl, rfl, rfl, rfl⟩

/-- C12, at a concrete input: two items with springs in flight, the viewport
height set to zero, an index past the end and an animated call. -/
theorem zero_viewport_defers_witness :
    move_to_idx wide100 { two_items_settling with height := 0 } 7 1.0
        = some { ({ two_items_settling with height := 0 } : BzCarousel) with
            log := ({ two_items_settling with height := 0 } : BzCarousel).log
              ++ [Effect.queue_allocate] } ∧
      ∃ s1, move_to_idx wide100 { two_items_settling with height := 0 } 7 1.0 = some s1 ∧
        s1.widgets = ({ two_items_settling with height := 0 } : BzCarousel).widgets ∧
        s1.animation = ({ two_items_settling with height := 0 } : BzCarousel).animation ∧
        s1.log = ({ two_items_settling with height := 0 } : BzCarousel).log
          ++ [Effect.queue_allocate] :=
  zero_viewport_defers wide100 { two_items_settling with height := 0 } 7 1.0 (Or.inr rfl)

/-! ## Two defects: indexing after a model is cleared, and a damping ratio of zero -/

/-- C13, the code at the failing input: a sized carousel bound to a model of two
items, item 0 selected, is given no model (or another model). The clearing call
of `items_changed` empties the item sequence, the model it was given still reports
two items and the cursor 0, and the first loop of `move_to_idx` reads index 0 of
the empty sequence: no result is defined. -/
theorem clearing_model_indexes_empty_registry :
    (remove_items { two_items_at_rest with model := some ⟨1, [10, 11], 0, false⟩ } 0 2).widgets
        = [] ∧
      g_list_model_get_n_items
        (remove_items { two_items_at_rest with model := some ⟨1, [10, 11], 0, false⟩ } 0 2).model
          = 2 ∧
      gtk_single_selection_get_selected
        (remove_items { two_items_at_rest with model := some ⟨1, [10, 11], 0, false⟩ } 0 2).model
          = 0 ∧
      move_to_idx wide100
        (remove_items { two_items_at_rest with model := some ⟨1, [10, 11], 0, false⟩ } 0 2)
        0 (-1.0) = none ∧
      items_changed wide100 { two_items_at_rest with model := some ⟨1, [10, 11], 0, false⟩ }
        0 2 0 = none ∧
      bz_carousel_set_model wide100 two_items_at_rest none = none ∧
      bz_carousel_set_model wide100 two_items_at_rest (some ⟨2, [20], 0, false⟩) = none := by
  refine ⟨by decide, by decide, by decide, by decide!, by decide!, by decide!, by decide!⟩

theorem nominal_sum_cons_succ (gm : WidgetMeasure) (width height : Int) (c : CarouselWidgetData)
    (rest : List CarouselWidgetData) (j : Nat) :
    nominal_sum gm width height (c :: rest) (j + 1)
      = child_width gm c.widget height width + nominal_sum gm width height rest j := by
  simp [nominal_sum]

/-- The calls of the second loop are those of its iterations, in order. -/
theorem layout_loop_calls (gm : WidgetMeasure) (width height : Int) (d : ℚ)
    (l : List CarouselWidgetData) (offset : Int) :
    (layout_loop gm width height d l offset).2
      = ((List.range l.length).map (fun j =>
          match l[j]? with
          | some c => (layout_child gm width height d
              (offset + nominal_sum gm width height l j) c).2
          | none => [])).flatten := by
  induction l generalizing offset with
  | nil => rfl
  | cons c rest ih =>
    simp only [layout_loop, List.length_cons, List.range_succ_eq_map, List.map_cons,
      List.map_map, List.flatten_cons, ih]
    congr 1
    · simp [nominal_sum]
    · congr 1
      apply List.map_congr_left
      intro j _
      simp only [Function.comp, List.getElem?_cons_succ, nominal_sum_cons_succ, add_assoc]

theorem relayout_calls (gm : WidgetMeasure) (self : BzCarousel) (idx : Nat) (d : ℚ) :
    (layout_loop gm self.width self.height d self.widgets (layout_start gm self idx)).2
      = ((List.range self.widgets.length).map (item_calls gm self idx d)).flatten := by
  rw [layout_loop_calls]
  rfl

/-- C14. The transition `move_to_idx` makes for every item on a non-zero viewport,
`T` being the rectangle computed for the item. The target becomes `T` in every
case. (a) When `T` equals the previous target and the rect is not all-zero, the
rect is unchanged and the animator gets no call, whatever the damping ratio.
(b) Otherwise, when the rect is all-zero or no animation was requested (a negative
damping ratio), the four animations of the item are cancelled and the rect becomes
`T`. (c) Otherwise four springs are started, for x, y, w and h, each from the
component of the rect to the component of `T`, with the damping ratio of the call,
mass 1.0 and stiffness 0.16, and the rect is left to them. The calls appear in the
log item by item, followed by the allocation request. -/
theorem per_item_transition (gm : WidgetMeasure) (self : BzCarousel) (idx : Nat) (d : ℚ)
    (hz : ¬ (self.width = 0 ∨ self.height = 0)) (hi : idx < self.widgets.length) :
    ∃ s1, move_to_idx gm self idx d = some s1 ∧
      s1.log = self.log ++
        (((List.range self.widgets.length).map (item_calls gm self idx d)).flatten
          ++ [Effect.queue_allocate]) ∧
      s1.animation =
        (((List.range self.widgets.length).map (item_calls gm self idx d)).flatten
          ++ [Effect.queue_allocate]).foldl animation_step self.animation ∧
      ∀ (j : Nat) (c : CarouselWidgetData), self.widgets[j]? = some c →
        ∃ c1, s1.widgets[j]? = some c1 ∧ c1.target = item_target gm self idx j c ∧
          c1.addr = c.addr ∧ c1.widget = c.widget ∧ c1.raised = c.raised ∧
          (graphene_rect_equal (item_target gm self idx j c) c.target = true ∧
              graphene_rect_equal graphene_rect_zero c.rect = false →
            c1.rect = c.rect ∧ item_calls gm self idx d j = []) ∧
          (¬ (graphene_rect_equal (item_target gm self idx j c) c.target = true ∧
              graphene_rect_equal graphene_rect_zero c.rect = false) →
            (graphene_rect_equal graphene_rect_zero c.rect = true ∨ d < 0) →
            c1.rect = item_target gm self idx j c ∧
              item_calls gm self idx d j = cancel_child c.addr) ∧
          (¬ (graphene_rect_equal (item_target gm self idx j c) c.target = true ∧
              graphene_rect_equal graphene_rect_zero c.rect = false) →
            ¬ (graphene_rect_equal graphene_rect_zero c.rect = true ∨ d < 0) →
            c1.rect = c.rect ∧
              item_calls gm self idx d j =
                [ .add_spring ⟨'x', c.addr⟩
                    ⟨c.rect.x, (item_target gm self idx j c).x, d, 1.0, 0.16⟩,
                  .add_spring ⟨'y', c.addr⟩
                    ⟨c.rect.y, (item_target gm self idx j c).y, d, 1.0, 0.16⟩,
                  .add_spring ⟨'w', c.addr⟩
                    ⟨c.rect.width, (item_target gm self idx j c).width, d, 1.0, 0.16⟩,
                  .add_spring ⟨'h', c.addr⟩
                    ⟨c.rect.height, (item_target gm self idx j c).height, d, 1.0, 0.16⟩ ]) := by
  refine ⟨_, move_to_idx_relayout gm self idx d hz hi, ?_, ?_, ?_⟩
  · simp only [relayout, perform, relayout_calls]
  · simp only [relayout, perform, relayout_calls]
  · intro j c hc
    have hj : j < self.widgets.length := by
      by_contra hcon
      rw [List.getElem?_eq_none (by omega)] at hc
      cases hc
    have hcj : self.widgets[j] = c := by
      rw [List.getElem?_eq_getElem hj] at hc
      exact Option.some.inj hc
    have h1 : (relayout gm self idx d).widgets[j]?
        = some (layout_child gm self.width self.height d (item_offset gm self idx j) c).1 := by
      have := layout_loop_getElem gm self.width self.height d self.widgets
        (layout_start gm self idx) j hj
      rw [hcj] at this
      exact this
    have hcalls : item_calls gm self idx d j
        = (layout_child gm self.width self.height d (item_offset gm self idx j) c).2 := by
      simp only [item_calls, hc]
    refine ⟨_, h1, layout_child_target gm _ _ d _ c, ?_⟩
    rw [hcalls]
    unfold item_target
    generalize item_offset gm self idx j = o
    unfold layout_child
    simp only []
    by_cases hav : graphene_rect_equal (child_target gm self.width self.height o c) c.target = true
    · by_cases hzero : graphene_rect_equal graphene_rect_zero c.rect = true
      · have hcond : (d < 0 ∧ graphene_rect_equal (child_target gm self.width self.height o c)
            c.target = false) ∨ graphene_rect_equal graphene_rect_zero c.rect = true :=
          Or.inr hzero
        rw [if_pos hcond]
        refine ⟨rfl, rfl, rfl, ?_, ?_, ?_⟩
        · rintro ⟨-, h⟩; rw [hzero] at h; cases h
        · intro _ _; exact ⟨rfl, rfl⟩
        · intro _ h; exact absurd (Or.inl hzero) h
      · have hcond : ¬ ((d < 0 ∧ graphene_rect_equal (child_target gm self.width self.height o c)
            c.target = false) ∨ graphene_rect_equal graphene_rect_zero c.rect = true) := by
          rintro (⟨-, h⟩ | h)
          · rw [hav] at h; cases h
          · exact hzero h
        rw [if_neg hcond, if_pos hav]
        refine ⟨rfl, rfl, rfl, ?_, ?_, ?_⟩
        · intro _; exact ⟨rfl, rfl⟩
        · intro h; exact absurd ⟨hav, by simpa using hzero⟩ h
        · intro h; exact absurd ⟨hav, by simpa using hzero⟩ h
    · have hav2 : graphene_rect_equal (child_target gm self.width self.height o c) c.target
          = false := by simpa using hav
      by_cases hsnap : graphene_rect_equal graphene_rect_zero c.rect = true ∨ d < 0
      · have hcond : (d < 0 ∧ graphene_rect_equal (child_target gm self.width self.height o c)
            c.target = false) ∨ graphene_rect_equal graphene_rect_zero c.rect = true := by
          rcases hsnap with h | h
          · exact Or.inr h
          · exact Or.inl ⟨h, hav2⟩
        rw [if_pos hcond]
        refine ⟨rfl, rfl, rfl, ?_, ?_, ?_⟩
        · rintro ⟨h, -⟩; exact absurd h hav
        · intro _ _; exact ⟨rfl, rfl⟩
        · intro _ h; exact absurd hsnap h
      · have hcond : ¬ ((d < 0 ∧ graphene_rect_equal (child_target gm self.width self.height o c)
            c.target = false) ∨ graphene_rect_equal graphene_rect_zero c.rect = true) := by
          rintro (⟨h, -⟩ | h)
          · exact hsnap (Or.inr h)
          · exact hsnap (Or.inl h)
        rw [if_neg hcond, if_neg hav]
        refine ⟨rfl, rfl, rfl, ?_, ?_, ?_⟩
        · rintro ⟨h, -⟩; exact absurd h hav
        · intro _ h; exact absurd h hsnap
        · intro _ _; exact ⟨rfl, rfl⟩

/-- C14, at a concrete input: the animated layout of two displaced items. -/
theorem per_item_transition_witness :
    ∃ s1, move_to_idx wide100 two_items_displaced 0 1.0 = some s1 ∧
      s1.log = two_items_displaced.log ++
        (((List.range two_items_displaced.widgets.length).map
            (item_calls wide100 two_items_displaced 0 1.0)).flatten
          ++ [Effect.queue_allocate]) ∧
      s1.animation =
        (((List.range two_items_displaced.widgets.length).map
            (item_calls wide100 two_items_displaced 0 1.0)).flatten
          ++ [Effect.queue_allocate]).foldl animation_step two_items_displaced.animation ∧
      ∀ (j : Nat) (c : CarouselWidgetData), two_items_displaced.widgets[j]? = some c →
        ∃ c1, s1.widgets[j]? = some c1 ∧
          c1.target = item_target wide100 two_items_displaced 0 j c ∧
          c1.addr = c.addr ∧ c1.widget = c.widget ∧ c1.raised = c.raised ∧
          (graphene_rect_equal (item_target wide100 two_items_displaced 0 j c) c.target = true ∧
              graphene_rect_equal graphene_rect_zero c.rect = false →
            c1.rect = c.rect ∧ item_calls wide100 two_items_displaced 0 1.0 j = []) ∧
          (¬ (graphene_rect_equal (item_target wide100 two_items_displaced 0 j c) c.target = true ∧
              graphene_rect_equal graphene_rect_zero c.rect = false) →
            (graphene_rect_equal graphene_rect_zero c.rect = true ∨ (1.0 : ℚ) < 0) →
            c1.rect = item_target wide100 two_items_displaced 0 j c ∧
              item_calls wide100 two_items_displaced 0 1.0 j = cancel_child c.addr) ∧
          (¬ (graphene_rect_equal (item_target wide100 two_items_displaced 0 j c) c.target = true ∧
              graphene_rect_equal graphene_rect_zero c.rect = false) →
            ¬ (graphene_rect_equal graphene_rect_zero c.rect = true ∨ (1.0 : ℚ) < 0) →
            c1.rect = c.rect ∧
              item_calls wide100 two_items_displaced 0 1.0 j =
                [ .add_spring ⟨'x', c.addr⟩
                    ⟨c.rect.x, (item_target wide100 two_items_displaced 0 j c).x, 1.0, 1.0, 0.16⟩,
                  .add_spring ⟨'y', c.addr⟩
                    ⟨c.rect.y, (item_target wide100 two_items_displaced 0 j c).y, 1.0, 1.0, 0.16⟩,
                  .add_spring ⟨'w', c.addr⟩
                    ⟨c.rect.width, (item_target wide100 two_items_displaced 0 j c).width,
                      1.0, 1.0, 0.16⟩,
                  .add_spring ⟨'h', c.addr⟩
                    ⟨c.rect.height, (item_target wide100 two_items_displaced 0 j c).height,
                      1.0, 1.0, 0.16⟩ ]) :=
  per_item_transition wide100 two_items_displaced 0 1.0 (by decide) (by decide)

/-! ## The anchor under live gestures -/

theorem c_trunc_add_nonneg (b : Int) (x : ℚ) (hb : 0 ≤ b) (hx : 0 ≤ x) :
    c_trunc ((b : ℚ) + x) = b + c_trunc x := by
  have hbq : (0 : ℚ) ≤ (b : ℚ) := by exact_mod_cast hb
  unfold c_trunc
  rw [if_pos (by linarith), if_pos hx, Int.floor_int_add]

theorem relayout_item (gm : WidgetMeasure) (self : BzCarousel) (idx : Nat) (d : ℚ) (j : Nat)
    (c : CarouselWidgetData) (hc : self.widgets[j]? = some c) :
    (relayout gm self idx d).widgets[j]?
      = some (layout_child gm self.width self.height d (item_offset gm self idx j) c).1 := by
  have hj : j < self.widgets.length := by
    by_contra hcon
    rw [List.getElem?_eq_none (by omega)] at hc
    cases hc
  have hcj : self.widgets[j] = c := by
    rw [List.getElem?_eq_getElem hj] at hc
    exact Option.some.inj hc
  have := layout_loop_getElem gm self.width self.height d self.widgets
    (layout_start gm self idx) j hj
  rw [hcj] at this
  exact this

theorem nominal_sum_widgets (gm : WidgetMeasure) (width height : Int)
    (l ws : List CarouselWidgetData) (n : Nat)
    (h : ws.map (fun c => c.widget) = l.map (fun c => c.widget)) :
    nominal_sum gm width height ws n = nominal_sum gm width height l n := by
  have key : ∀ k : List CarouselWidgetData,
      (k.take n).map (fun c => child_width gm c.widget height width)
        = ((k.map (fun c => c.widget)).take n).map (fun w => child_width gm w height width) := by
    intro k
    rw [← List.map_take, List.map_map]
    rfl
  unfold nominal_sum
  rw [key ws, key l, h]

theorem item_offset_widgets (gm : WidgetMeasure) (self : BzCarousel) (idx j : Nat)
    (ws : List CarouselWidgetData)
    (h : ws.map (fun c => c.widget) = self.widgets.map (fun c => c.widget)) :
    item_offset gm { self with widgets := ws } idx j = item_offset gm self idx j := by
  have ha : anchor { self with widgets := ws } = anchor self := rfl
  have hsel : (ws[idx]?).map (fun c => child_width gm c.widget self.height self.width)
      = (self.widgets[idx]?).map (fun c => child_width gm c.widget self.height self.width) := by
    have e : ∀ k : List CarouselWidgetData,
        (k[idx]?).map (fun c => child_width gm c.widget self.height self.width)
          = ((k.map (fun c => c.widget))[idx]?).map
              (fun w => child_width gm w self.height self.width) := by
      intro k
      rw [List.getElem?_map, Option.map_map]
      rfl
    rw [e ws, e self.widgets, h]
  simp only [item_offset, layout_start, ha, hsel,
    nominal_sum_widgets gm self.width self.height self.widgets ws _ h]

theorem floor_half (w : Int) (h : 0 ≤ w) : ⌊(w : ℚ) / 2⌋ = w.tdiv 2 := by
  have hb := tdiv_two_nonneg w h
  rw [Int.floor_eq_iff]
  constructor
  · rw [le_div_iff₀ (by norm_num)]
    exact_mod_cast (by omega : w.tdiv 2 * 2 ≤ w)
  · rw [div_lt_iff₀ (by norm_num)]
    exact_mod_cast (by omega : w < (w.tdiv 2 + 1) * 2)

/-- C17. On a non-zero viewport, with `s` the selected index: the slot start of
item `i` is `anchor - (nominal widths before s) - (nominal width of s) / 2 +
(nominal widths before i)`, the division being the floor for the non-negative
widths the toolkit gives; it is the same for every registry with the same child
widgets, whatever the raised flags, rects and targets; a raised item's target has
x equal to the slot start and the nominal width; an unraised item's target has the
width measured for the shrunk height and x equal to the slot start plus
`round ((nominal - shrunk) / 2)`; the next slot starts one nominal width later. -/
theorem raising_keeps_spacing (gm : WidgetMeasure) (self : BzCarousel) (s : Nat) (d : ℚ)
    (hz : ¬ (self.width = 0 ∨ self.height = 0)) (hs : s < self.widgets.length) :
    ∃ s1 cs, move_to_idx gm self s d = some s1 ∧ self.widgets[s]? = some cs ∧
      ∀ (i : Nat) (c : CarouselWidgetData), self.widgets[i]? = some c →
        item_offset gm self s i
          = anchor self - nominal_sum gm self.width self.height self.widgets s
            - (child_width gm cs.widget self.height self.width).tdiv 2
            + nominal_sum gm self.width self.height self.widgets i ∧
        (0 ≤ child_width gm cs.widget self.height self.width →
          item_offset gm self s i
            = anchor self - nominal_sum gm self.width self.height self.widgets s
              - ⌊((child_width gm cs.widget self.height self.width : Int) : ℚ) / 2⌋
              + nominal_sum gm self.width self.height self.widgets i) ∧
        (∀ ws : List CarouselWidgetData,
          ws.map (fun c => c.widget) = self.widgets.map (fun c => c.widget) →
          item_offset gm { self with widgets := ws } s i = item_offset gm self s i) ∧
        item_offset gm self s (i + 1)
          = item_offset gm self s i + child_width gm c.widget self.height self.width ∧
        ∃ c1, s1.widgets[i]? = some c1 ∧
          (c.raised = true →
            c1.target.x = (item_offset gm self s i : ℚ) ∧
            c1.target.width = (child_width gm c.widget self.height self.width : ℚ)) ∧
          (c.raised = false →
            c1.target.x = ((item_offset gm self s i
              + c_round (((child_width gm c.widget self.height self.width
                  - child_width gm c.widget
                      (c_round ((self.height : ℚ) * (1.0 - RAISE_FACTOR))) self.width : Int) : ℚ)
                  * 0.5) : Int) : ℚ) ∧
            c1.target.width = (child_width gm c.widget
              (c_round ((self.height : ℚ) * (1.0 - RAISE_FACTOR))) self.width : ℚ)) := by
  refine ⟨_, self.widgets[s], move_to_idx_relayout gm self s d hz hs,
    List.getElem?_eq_getElem hs, ?_⟩
  intro i c hc
  have hi : i < self.widgets.length := by
    by_contra hcon
    rw [List.getElem?_eq_none (by omega)] at hc
    cases hc
  have hci : self.widgets[i] = c := by
    rw [List.getElem?_eq_getElem hi] at hc
    exact Option.some.inj hc
  have hoff : item_offset gm self s i
      = anchor self - nominal_sum gm self.width self.height self.widgets s
        - (child_width gm (self.widgets[s]).widget self.height self.width).tdiv 2
        + nominal_sum gm self.width self.height self.widgets i := by
    simp only [item_offset, layout_start, List.getElem?_eq_getElem hs, Option.map_some',
      Option.getD_some]
  refine ⟨hoff, ?_, ?_, ?_, _, relayout_item gm self s d i c hc, ?_, ?_⟩
  · intro h0
    rw [floor_half _ h0]
    exact hoff
  · intro ws hws
    exact item_offset_widgets gm self s i ws hws
  · simp only [item_offset]
    rw [nominal_sum_succ gm self.width self.height self.widgets i hi, hci]
    ring
  · intro hr
    rw [layout_child_target]
    simp only [child_target, hr, if_true, GRAPHENE_RECT_INIT, and_self]
  · intro hr
    rw [layout_child_target]
    simp only [child_target, hr, Bool.false_eq_true, if_false, GRAPHENE_RECT_INIT, and_self]

/-- C17 on two items whose width depends on the height (100 for the full height,
90 for the shrunk one), the first selected and raised: the raised item gets the
slot start 100 and the nominal width 100, the unraised one the slot start 200, the
shrunk width 90 and the x `200 + round ((100 - 90) / 2) = 205`. -/
theorem raising_keeps_spacing_witness :
    (∃ s1 cs, move_to_idx shrinks90 first_item_raised 0 (-1.0) = some s1 ∧
      first_item_raised.widgets[0]? = some cs ∧
      ∀ (i : Nat) (c : CarouselWidgetData), first_item_raised.widgets[i]? = some c →
        item_offset shrinks90 first_item_raised 0 i
          = anchor first_item_raised
            - nominal_sum shrinks90 first_item_raised.width first_item_raised.height
                first_item_raised.widgets 0
            - (child_width shrinks90 cs.widget first_item_raised.height
                first_item_raised.width).tdiv 2
            + nominal_sum shrinks90 first_item_raised.width first_item_raised.height
                first_item_raised.widgets i ∧
        (0 ≤ child_width shrinks90 cs.widget first_item_raised.height first_item_raised.width →
          item_offset shrinks90 first_item_raised 0 i
            = anchor first_item_raised
              - nominal_sum shrinks90 first_item_raised.width first_item_raised.height
                  first_item_raised.widgets 0
              - ⌊((child_width shrinks90 cs.widget first_item_raised.height
                    first_item_raised.width : Int) : ℚ) / 2⌋
              + nominal_sum shrinks90 first_item_raised.width first_item_raised.height
                  first_item_raised.widgets i) ∧
        (∀ ws : List CarouselWidgetData,
          ws.map (fun c => c.widget) = first_item_raised.widgets.map (fun c => c.widget) →
          item_offset shrinks90 { first_item_raised with widgets := ws } 0 i
            = item_offset shrinks90 first_item_raised 0 i) ∧
        item_offset shrinks90 first_item_raised 0 (i + 1)
          = item_offset shrinks90 first_item_raised 0 i
            + child_width shrinks90 c.widget first_item_raised.height first_item_raised.width ∧
        ∃ c1, s1.widgets[i]? = some c1 ∧
          (c.raised = true →
            c1.target.x = (item_offset shrinks90 first_item_raised 0 i : ℚ) ∧
            c1.target.width
              = (child_width shrinks90 c.widget first_item_raised.height
                  first_item_raised.width : ℚ)) ∧
          (c.raised = false →
            c1.target.x = ((item_offset shrinks90 first_item_raised 0 i
              + c_round (((child_width shrinks90 c.widget first_item_raised.height
                    first_item_raised.width
                  - child_width shrinks90 c.widget
                      (c_round ((first_item_raised.height : ℚ) * (1.0 - RAISE_FACTOR)))
                      first_item_raised.width : Int) : ℚ)
                  * 0.5) : Int) : ℚ) ∧
            c1.target.width = (child_width shrinks90 c.widget
              (c_round ((first_item_raised.height : ℚ) * (1.0 - RAISE_FACTOR)))
              first_item_raised.width : ℚ))) ∧
    (List.range 3).map (item_offset shrinks90 first_item_raised 0) = [100, 200, 300] ∧
    (move_to_idx shrinks90 first_item_raised 0 (-1.0)).map
        (fun s => s.widgets.map (fun c => (c.raised, c.target.x, c.target.width)))
      = some [(true, 100, 100), (false, 205, 90)] :=
  ⟨raising_keeps_spacing shrinks90 first_item_raised 0 (-1.0) (by decide) (by decide),
    by decide!, by decide!⟩

theorem CLAMP_bounds (x low high : Int) (h0 : 0 ≤ low) (hx : low ≤ x) (hW : 0 < high) :
    0 ≤ CLAMP x low high ∧ CLAMP x low high ≤ high ∧ (low ≤ high → low ≤ CLAMP x low high) := by
  unfold CLAMP
  split_ifs <;> refine ⟨?_, ?_, ?_⟩ <;> omega

theorem c_round_nonneg (q : ℚ) (h : 0 ≤ q) : 0 ≤ c_round q := by
  unfold c_round
  rw [if_pos h]
  exact Int.floor_nonneg.mpr (by linarith)

theorem raise_loop_rects (x y : ℚ) (l : List CarouselWidgetData) :
    (raise_loop x y l).1.map (fun c => (c.addr, c.widget, c.rect, c.target))
      = l.map (fun c => (c.addr, c.widget, c.rect, c.target)) := by
  induction l with
  | nil => rfl
  | cons c rest ih =>
    simp only [raise_loop]
    split_ifs <;> simp [ih]

theorem add_item_inserts (s s1 : BzCarousel) (k : Nat) (h : add_item s k = some s1) :
    ∃ data, s1.widgets = s.widgets.take k ++ data :: s.widgets.drop k ∧
      data.rect = graphene_rect_zero ∧ data.target = graphene_rect_zero ∧
      data.raised = false ∧ data.addr = s.next_addr + 1 ∧ data.widget = s.next_addr ∧
      s1.next_addr = s.next_addr + 2 := by
  unfold add_item at h
  cases hm : s.model with
  | none => rw [hm] at h; cases h
  | some m =>
    rw [hm] at h
    simp only [] at h
    cases ho : m.items[k]? with
    | none => rw [ho] at h; cases h
    | some object =>
      rw [ho] at h
      simp only [] at h
      have hk : k ≤ s.widgets.length := by
        by_contra hcon
        have h0 : ¬ k = 0 := by omega
        rw [if_neg h0, List.getElem?_eq_none (by omega)] at h
        cases h
      split at h
      · cases h
      · simp only [Option.some.injEq] at h
        subst h
        refine ⟨⟨s.next_addr + 1, s.next_addr, graphene_rect_zero, graphene_rect_zero, false⟩,
          ?_, rfl, rfl, rfl, rfl, rfl, rfl⟩
        simp only [perform, g_ptr_array_insert, if_pos hk]

/-- C18. After a layout pass on a viewport of width `W > 0` and height `H > 0`,
every item whose horizontal measurements satisfy `0 ≤ minimum ≤ natural` (for the
height the pass measures it for) has a target width that is not negative, at most
`W`, and at least the minimum when the minimum is at most `W`, and a target height
that is not negative. A record enters the item sequence with an all-zero rect and
target; the hover loop and a pass on a zero viewport leave rects and targets as
they are. -/
theorem targets_clamped (gm : WidgetMeasure) (self : BzCarousel) (idx : Nat) (d : ℚ)
    (hW : 0 < self.width) (hH : 0 < self.height) (hi : idx < self.widgets.length) :
    (∃ s1, move_to_idx gm self idx d = some s1 ∧
      ∀ (j : Nat) (c : CarouselWidgetData), self.widgets[j]? = some c →
        ∃ c1, s1.widgets[j]? = some c1 ∧
          ∀ f : Int, f = (if c.raised then self.height
              else c_round ((self.height : ℚ) * (1.0 - RAISE_FACTOR))) →
            0 ≤ (gm c.widget .GTK_ORIENTATION_HORIZONTAL f).minimum →
            (gm c.widget .GTK_ORIENTATION_HORIZONTAL f).minimum
              ≤ (gm c.widget .GTK_ORIENTATION_HORIZONTAL f).natural →
            0 ≤ c1.target.width ∧ c1.target.width ≤ (self.width : ℚ) ∧
              0 ≤ c1.target.height ∧
              ((gm c.widget .GTK_ORIENTATION_HORIZONTAL f).minimum ≤ self.width →
                ((gm c.widget .GTK_ORIENTATION_HORIZONTAL f).minimum : ℚ) ≤ c1.target.width)) ∧
    (∀ (s s1 : BzCarousel) (k : Nat), add_item s k = some s1 →
      ∃ data, s1.widgets = s.widgets.take k ++ data :: s.widgets.drop k ∧
        data.rect = graphene_rect_zero ∧ data.target = graphene_rect_zero) ∧
    (∀ (x y : ℚ) (l : List CarouselWidgetData),
      (raise_loop x y l).1.map (fun c => (c.rect, c.target))
        = l.map (fun c => (c.rect, c.target))) ∧
    (∀ (s s1 : BzCarousel) (i : Nat) (e : ℚ), (s.width = 0 ∨ s.height = 0) →
      move_to_idx gm s i e = some s1 → s1.widgets = s.widgets) := by
  have hz : ¬ (self.width = 0 ∨ self.height = 0) := by omega
  refine ⟨⟨_, move_to_idx_relayout gm self idx d hz hi, ?_⟩, ?_, ?_, ?_⟩
  · intro j c hc
    refine ⟨_, relayout_item gm self idx d j c hc, ?_⟩
    intro f hf h0 h1
    rw [layout_child_target]
    have hcl := CLAMP_bounds _ _ self.width h0 h1 hW
    have hHq : (0 : ℚ) ≤ (self.height : ℚ) := by exact_mod_cast hH.le
    by_cases hr : c.raised = true
    · rw [if_pos hr] at hf
      subst hf
      simp only [child_target, hr, if_true, GRAPHENE_RECT_INIT, child_width]
      refine ⟨?_, ?_, hHq, fun hle => ?_⟩
      · exact_mod_cast hcl.1
      · exact_mod_cast hcl.2.1
      · exact_mod_cast hcl.2.2 hle
    · rw [if_neg hr] at hf
      subst hf
      have hrf : c.raised = false := by simpa using hr
      simp only [child_target, hrf, Bool.false_eq_true, if_false, GRAPHENE_RECT_INIT, child_width]
      refine ⟨?_, ?_, ?_, fun hle => ?_⟩
      · exact_mod_cast hcl.1
      · exact_mod_cast hcl.2.1
      · have : 0 ≤ c_round ((self.height : ℚ) * (1.0 - RAISE_FACTOR)) :=
          c_round_nonneg _ (mul_nonneg hHq (by norm_num [RAISE_FACTOR]))
        exact_mod_cast this
      · exact_mod_cast hcl.2.2 hle
  · intro s s1 k h
    obtain ⟨data, h1, h2, h3, -⟩ := add_item_inserts s s1 k h
    exact ⟨data, h1, h2, h3⟩
  · intro x y l
    have := congrArg (List.map (fun (t : Nat × Nat × graphene_rect_t × graphene_rect_t) =>
      (t.2.2.1, t.2.2.2))) (raise_loop_rects x y l)
    simpa [List.map_map, Function.comp] using this
  · intro s s1 i e hzero h
    rw [move_to_idx_zero gm s i e hzero] at h
    cases h
    rfl

/-- C18 on two items at rest in a 300 by 200 viewport. -/
theorem targets_clamped_witness :
    ∃ s1, move_to_idx wide100 two_items_at_rest 0 (-1.0) = some s1 ∧
      ∀ (j : Nat) (c : CarouselWidgetData), two_items_at_rest.widgets[j]? = some c →
        ∃ c1, s1.widgets[j]? = some c1 ∧
          ∀ f : Int, f = (if c.raised then two_items_at_rest.height
              else c_round ((two_items_at_rest.height : ℚ) * (1.0 - RAISE_FACTOR))) →
            0 ≤ (wide100 c.widget .GTK_ORIENTATION_HORIZONTAL f).minimum →
            (wide100 c.widget .GTK_ORIENTATION_HORIZONTAL f).minimum
              ≤ (wide100 c.widget .GTK_ORIENTATION_HORIZONTAL f).natural →
            0 ≤ c1.target.width ∧ c1.target.width ≤ (two_items_at_rest.width : ℚ) ∧
              0 ≤ c1.target.height ∧
              ((wide100 c.widget .GTK_ORIENTATION_HORIZONTAL f).minimum
                  ≤ two_items_at_rest.width →
                ((wide100 c.widget .GTK_ORIENTATION_HORIZONTAL f).minimum : ℚ)
                  ≤ c1.target.width) :=
  (targets_clamped wide100 two_items_at_rest 0 (-1.0) (by decide) (by decide) (by decide)).1

/-! ## Runs of calls that keep the registry -/

theorem spring_keys_append (es fs : List Effect) :
    spring_keys (es ++ fs) = spring_keys es ++ spring_keys fs := by
  simp [spring_keys, List.filterMap_append]

theorem unbinds_append (es fs : List Effect) :
    unbinds (es ++ fs) = unbinds es ++ unbinds fs := by
  simp [unbinds, List.filterMap_append]

theorem binds_append (es fs : List Effect) :
    binds (es ++ fs) = binds es ++ binds fs := by
  simp [binds, List.filterMap_append]

theorem unrefs_append (es fs : List Effect) :
    unrefs (es ++ fs) = unrefs es ++ unrefs fs := by
  simp [unrefs, List.filterMap_append]

theorem quiet_nil : quiet [] := ⟨rfl, rfl, rfl⟩

theorem quiet_append {es fs : List Effect} (h1 : quiet es) (h2 : quiet fs) : quiet (es ++ fs) := by
  obtain ⟨a1, a2, a3⟩ := h1
  obtain ⟨b1, b2, b3⟩ := h2
  refine ⟨?_, ?_, ?_⟩
  · rw [unbinds_append, a1, b1]; rfl
  · rw [binds_append, a2, b2]; rfl
  · rw [unrefs_append, a3, b3]; rfl

theorem quiet_cancel_child (addr : Nat) : quiet (cancel_child addr) := ⟨rfl, rfl, rfl⟩

theorem spring_keys_cancel_child (addr : Nat) : spring_keys (cancel_child addr) = [] := rfl

theorem layout_child_calls (gm : WidgetMeasure) (width height : Int) (d : ℚ) (offset : Int)
    (child : CarouselWidgetData) :
    (∀ k ∈ spring_keys (layout_child gm width height d offset child).2,
        k ∈ child_keys child.addr) ∧
      quiet (layout_child gm width height d offset child).2 ∧
      (layout_child gm width height d offset child).1.addr = child.addr := by
  unfold layout_child
  simp only []
  split_ifs
  · exact ⟨fun k hk => by simp [spring_keys_cancel_child] at hk, quiet_cancel_child _, rfl⟩
  · exact ⟨fun k hk => by simp [spring_keys] at hk, quiet_nil, rfl⟩
  · refine ⟨fun k hk => ?_, ⟨rfl, rfl, rfl⟩, rfl⟩
    have : spring_keys (spring_child child
        (child_target gm width height offset child) d) = child_keys child.addr := rfl
    rw [this] at hk
    exact hk

theorem layout_loop_trace (gm : WidgetMeasure) (width height : Int) (d : ℚ)
    (l : List CarouselWidgetData) (offset : Int) :
    (layout_loop gm width height d l offset).1.map (fun c => c.addr) = l.map (fun c => c.addr) ∧
      (∀ k ∈ spring_keys (layout_loop gm width height d l offset).2,
        ∃ a ∈ l.map (fun c => c.addr), k ∈ child_keys a) ∧
      quiet (layout_loop gm width height d l offset).2 := by
  induction l generalizing offset with
  | nil => exact ⟨rfl, fun k hk => by simp [layout_loop, spring_keys] at hk, quiet_nil⟩
  | cons c rest ih =>
    obtain ⟨i1, i2, i3⟩ := ih (offset + child_width gm c.widget height width)
    obtain ⟨c1, c2, c3⟩ := layout_child_calls gm width height d offset c
    simp only [layout_loop, List.map_cons]
    refine ⟨by rw [c3, i1], ?_, quiet_append c2 i3⟩
    intro k hk
    rw [spring_keys_append, List.mem_append] at hk
    rcases hk with hk | hk
    · exact ⟨c.addr, List.mem_cons_self _ _, c1 k hk⟩
    · obtain ⟨a, ha, hka⟩ := i2 k hk
      exact ⟨a, List.mem_cons_of_mem _ ha, hka⟩

theorem evolves_refl (s : BzCarousel) : evolves s s :=
  ⟨rfl, rfl, rfl, [], by simp, rfl, fun k hk => by simp [spring_keys] at hk, quiet_nil⟩

theorem evolves_trans {s s1 s2 : BzCarousel} (h1 : evolves s s1) (h2 : evolves s1 s2) :
    evolves s s2 := by
  obtain ⟨a1, n1, m1, es, l1, an1, k1, q1⟩ := h1
  obtain ⟨a2, n2, m2, fs, l2, an2, k2, q2⟩ := h2
  refine ⟨a2.trans a1, n2.trans n1, m2.trans m1, es ++ fs, ?_, ?_, ?_, quiet_append q1 q2⟩
  · rw [l2, l1, List.append_assoc]
  · rw [an2, an1, List.foldl_append]
  · intro k hk
    rw [spring_keys_append, List.mem_append] at hk
    rcases hk with hk | hk
    · exact k1 k hk
    · rw [← a1]; exact k2 k hk

theorem evolves_perform (s : BzCarousel) (es : List Effect)
    (hk : ∀ k ∈ spring_keys es, ∃ a ∈ addrs s, k ∈ child_keys a) (hq : quiet es) :
    evolves s (perform s es) :=
  ⟨rfl, rfl, rfl, es, rfl, rfl, hk, hq⟩

theorem evolves_queue (s : BzCarousel) : evolves s (perform s [.queue_allocate]) :=
  evolves_perform s _ (fun k hk => by simp [spring_keys] at hk) ⟨rfl, rfl, rfl⟩

theorem move_to_idx_evolves (gm : WidgetMeasure) (self s1 : BzCarousel) (idx : Nat) (d : ℚ)
    (h : move_to_idx gm self idx d = some s1) : evolves self s1 := by
  by_cases hz : self.width = 0 ∨ self.height = 0
  · rw [move_to_idx_zero gm self idx d hz] at h
    cases h
    exact evolves_queue self
  · rcases Nat.lt_or_ge idx self.widgets.length with hi | hi
    · rw [move_to_idx_relayout gm self idx d hz hi] at h
      cases h
      obtain ⟨t1, t2, t3⟩ := layout_loop_trace gm self.width self.height d self.widgets
        (layout_start gm self idx)
      refine ⟨t1, rfl, rfl, _, rfl, rfl, ?_, quiet_append t3 ⟨rfl, rfl, rfl⟩⟩
      intro k hk
      rw [spring_keys_append, List.mem_append] at hk
      rcases hk with hk | hk
      · exact t2 k hk
      · simp [spring_keys] at hk
    · rw [move_to_idx_out_of_range gm self idx d hz hi] at h
      cases h

theorem model_selected_changed_evolves (gm : WidgetMeasure) (self s1 : BzCarousel)
    (h : model_selected_changed gm self = some s1) : evolves self s1 := by
  unfold model_selected_changed at h
  simp only [] at h
  split_ifs at h with hx
  · cases hm : move_to_idx gm self (gtk_single_selection_get_selected self.model) 1.0 with
    | none => simp [hm] at h
    | some s2 =>
      rw [hm] at h
      simp only [Option.map_some', Option.some.injEq] at h
      subst h
      exact evolves_trans (move_to_idx_evolves gm self s2 _ _ hm) (evolves_queue s2)
  · simp only [Option.map_some', Option.some.injEq] at h
    subst h
    exact evolves_queue self

theorem set_selected_evolves (gm : WidgetMeasure) (self s1 : BzCarousel) (position : Nat)
    (h : gtk_single_selection_set_selected gm self position = some s1) : evolves self s1 := by
  unfold gtk_single_selection_set_selected at h
  cases hm : self.model with
  | none => rw [hm] at h; cases h; exact evolves_refl _
  | some m =>
    rw [hm] at h
    simp only [] at h
    by_cases h1 : m.selected = position
    · rw [if_pos h1] at h; cases h; exact evolves_refl _
    · rw [if_neg h1] at h
      by_cases h2 : m.selected = (if position < m.items.length then position else G_MAXUINT)
      · rw [if_pos h2] at h; cases h; exact evolves_refl _
      · rw [if_neg h2] at h
        by_cases hc : m.connected = true
        · rw [if_pos hc] at h
          have hev := model_selected_changed_evolves gm _ s1 h
          exact hev
        · rw [if_neg hc] at h
          cases h
          exact evolves_refl self

theorem ensure_viewport_evolves (gm : WidgetMeasure) (self s1 : BzCarousel) (animate : Bool)
    (h : ensure_viewport gm self animate = some s1) : evolves self s1 := by
  unfold ensure_viewport at h
  simp only [] at h
  by_cases h1 : g_list_model_get_n_items self.model > 0
  · rw [if_pos h1] at h
    by_cases h2 : gtk_single_selection_get_selected self.model = G_MAXUINT
    · rw [if_pos h2] at h
      cases h0 : gtk_single_selection_set_selected gm self 0 with
      | none => simp [h0] at h
      | some s0 =>
        rw [h0] at h
        simp only [Option.some_bind] at h
        cases hmv : move_to_idx gm s0 0 (if animate = true then 1.0 else -1.0) with
        | none => simp [hmv] at h
        | some sm =>
          rw [hmv] at h
          simp only [Option.map_some', Option.some.injEq] at h
          subst h
          exact evolves_trans (set_selected_evolves gm self s0 0 h0)
            (evolves_trans (move_to_idx_evolves gm s0 sm _ _ hmv) (evolves_queue sm))
    · rw [if_neg h2] at h
      cases hmv : move_to_idx gm self (gtk_single_selection_get_selected self.model)
          (if animate = true then 1.0 else -1.0) with
      | none => simp [hmv] at h
      | some sm =>
        rw [hmv] at h
        simp only [Option.map_some', Option.some.injEq] at h
        subst h
        exact evolves_trans (move_to_idx_evolves gm self sm _ _ hmv) (evolves_queue sm)
  · rw [if_neg h1] at h
    simp only [Option.map_some', Option.some.injEq] at h
    subst h
    exact evolves_queue self

/-! ## The calls of `items_changed` -/

theorem mapM_option_eq {α β : Type} (f : α → Option β) (g : α → β) (l : List α)
    (h : ∀ x ∈ l, f x = some (g x)) : l.mapM f = some (l.map g) := by
  induction l with
  | nil => rfl
  | cons a rest ih =>
    rw [List.mapM_cons, h a (List.mem_cons_self a rest),
      ih (fun x hx => h x (List.mem_cons_of_mem a hx))]
    rfl

theorem removal_calls_eq (self : BzCarousel) (p r : Nat)
    (hm : p + r ≤ self.mirror.length) (hr : p + r ≤ self.widgets.length) :
    removal_calls self p r
      = some (removal_log ((self.widgets.drop p).take r) ((self.mirror.drop p).take r)) := by
  unfold removal_calls removal_log
  rw [mapM_option_eq _ (fun i =>
    match self.mirror[p + i]?, self.widgets[p + i]? with
    | some object, some child =>
      cancel_child child.addr ++ [Effect.unbind_widget child.widget object]
    | _, _ => []) (List.range r) (fun i hi => by
      have hi2 : i < r := List.mem_range.mp hi
      have h1 : p + i < self.mirror.length := by omega
      have h2 : p + i < self.widgets.length := by omega
      simp [List.getElem?_eq_getElem h1, List.getElem?_eq_getElem h2])]
  simp only [Option.map_some', Option.some.injEq]
  congr 1
  apply List.ext_getElem
  · simp only [List.length_map, List.length_range, List.length_zip, List.length_take,
      List.length_drop]
    omega
  · intro i h1 h2
    have hi : i < r := by simpa using h1
    have hw : p + i < self.widgets.length := by omega
    have hmi : p + i < self.mirror.length := by omega
    simp only [List.getElem_map, List.getElem_range, List.getElem_zip, List.getElem_take,
      List.getElem_drop, List.getElem?_eq_getElem hw, List.getElem?_eq_getElem hmi]

theorem add_item_calls (s : BzCarousel) (m : GtkSingleSelection) (A C : List Nat) (B : List Nat)
    (WA WC N : List CarouselWidgetData) (p k : Nat) (object : Nat)
    (hm : s.model = some m) (ho : m.items[p + k]? = some object)
    (hmir : s.mirror = A ++ (B ++ C)) (hA : A.length = p) (hB : B.length = k)
    (hw : s.widgets = WA ++ (N ++ WC)) (hWA : WA.length = p) (hN : N.length = k) :
    ∃ q, add_item s (p + k) = some (perform
      { s with
        next_addr := s.next_addr + 2
        mirror := A ++ ((B ++ [object]) ++ C)
        widgets := WA ++ ((N ++
          [⟨s.next_addr + 1, s.next_addr, graphene_rect_zero, graphene_rect_zero, false⟩])
          ++ WC) }
      [q, .bind_widget s.next_addr object]) ∧
      (q = Effect.set_parent s.next_addr ∨ ∃ w, q = Effect.insert_after s.next_addr w) := by
  unfold add_item
  rw [hm]
  simp only [ho]
  have hprev : ∃ q, (if p + k = 0 then some (Effect.set_parent s.next_addr)
      else (s.widgets[p + k - 1]?).map
        (fun prev => Effect.insert_after s.next_addr prev.widget)) = some q ∧
      (q = Effect.set_parent s.next_addr ∨ ∃ w, q = Effect.insert_after s.next_addr w) := by
    by_cases h0 : p + k = 0
    · exact ⟨_, by rw [if_pos h0], Or.inl rfl⟩
    · rw [if_neg h0]
      have hlt : p + k - 1 < s.widgets.length := by
        rw [hw]; simp only [List.length_append, hWA, hN]; omega
      exact ⟨_, by rw [List.getElem?_eq_getElem hlt]; rfl, Or.inr ⟨_, rfl⟩⟩
  obtain ⟨q, hq, hqq⟩ := hprev
  rw [hq]
  simp only [hmir, hw, g_ptr_array_insert_middle A B C object p k hA hB,
    g_ptr_array_insert_middle WA N WC _ p k hWA hN]
  exact ⟨_, rfl, hqq⟩

/-- The insertion loop with its calls: one bind notification per new record, with
the new container and the item of the model, and nothing unbound, released,
cancelled or animated. -/
theorem add_loop_trace (s : BzCarousel) (m : GtkSingleSelection) (p k : Nat)
    (hm : s.model = some m) (hp : p ≤ s.widgets.length)
    (hmir : s.mirror.length = s.widgets.length) (hk : p + k ≤ m.items.length) :
    ∃ N es, N.length = k ∧
      (List.range k).foldlM (fun s i => add_item s (p + i)) s = some (perform
        { s with
          next_addr := s.next_addr + 2 * k
          mirror := s.mirror.take p ++ (((m.items.drop p).take k) ++ s.mirror.drop p)
          widgets := s.widgets.take p ++ (N ++ s.widgets.drop p) } es) ∧
      (∀ c ∈ N, s.next_addr ≤ c.widget ∧ s.next_addr ≤ c.addr ∧
        c.rect = graphene_rect_zero ∧ c.target = graphene_rect_zero ∧ c.raised = false) ∧
      binds es = (N.map (fun c => c.widget)).zip ((m.items.drop p).take k) ∧
      unbinds es = [] ∧ unrefs es = [] ∧ spring_keys es = [] ∧ cancelled_keys es = [] := by
  induction k with
  | zero =>
    refine ⟨[], [], rfl, ?_, (fun c hc => by cases hc), rfl, rfl, rfl, rfl, rfl⟩
    simp [perform]
  | succ j ih =>
    obtain ⟨N, es, hN, hfold, hfresh, hb, hu, hr, hsk, hck⟩ := ih (by omega)
    have hlt : p + j < m.items.length := by omega
    obtain ⟨q, hstep, hq⟩ := add_item_calls
      (perform
        { s with
          next_addr := s.next_addr + 2 * j
          mirror := s.mirror.take p ++ (((m.items.drop p).take j) ++ s.mirror.drop p)
          widgets := s.widgets.take p ++ (N ++ s.widgets.drop p) } es)
      m (s.mirror.take p) (s.mirror.drop p) ((m.items.drop p).take j)
      (s.widgets.take p) (s.widgets.drop p) N p j (m.items[p + j])
      hm (List.getElem?_eq_getElem hlt) rfl
      (by simp only [List.length_take]; omega)
      (by simp only [List.length_take, List.length_drop]; omega)
      rfl (by simp only [List.length_take]; omega) hN
    have htake : (m.items.drop p).take (j + 1) = (m.items.drop p).take j ++ [m.items[p + j]] := by
      rw [List.take_succ, List.getElem?_drop, List.getElem?_eq_getElem hlt]; rfl
    have hlen : (N.map (fun c => c.widget)).length = ((m.items.drop p).take j).length := by
      simp only [List.length_map, List.length_take, List.length_drop, hN]; omega
    have hqe : binds [q] = [] ∧ unbinds [q] = [] ∧ unrefs [q] = [] ∧ spring_keys [q] = [] ∧
        cancelled_keys [q] = [] := by
      rcases hq with rfl | ⟨w, rfl⟩ <;> exact ⟨rfl, rfl, rfl, rfl, rfl⟩
    have hsplit : ∀ o : Nat, [q, Effect.bind_widget (s.next_addr + 2 * j) o]
        = [q] ++ [Effect.bind_widget (s.next_addr + 2 * j) o] := fun _ => rfl
    refine ⟨N ++ [⟨s.next_addr + 2 * j + 1, s.next_addr + 2 * j, graphene_rect_zero,
        graphene_rect_zero, false⟩],
      es ++ [q, .bind_widget (s.next_addr + 2 * j) (m.items[p + j])], by simp [hN], ?_, ?_,
      ?_, ?_, ?_, ?_, ?_⟩
    · rw [List.range_succ, List.foldlM_append, hfold]
      simp only [Option.some_bind, List.foldlM_cons, List.foldlM_nil, hstep, Option.bind_eq_bind,
        Option.pure_def, Option.some_bind]
      rw [htake]
      simp only [perform, List.foldl_append, List.append_assoc, Option.some.injEq]
      congr 1
    · intro c hc
      rcases List.mem_append.mp hc with h | h
      · exact hfresh c h
      · rw [List.mem_singleton] at h
        rw [h]
        simp only [and_self, and_true]
        omega
    · rw [binds_append, hb, htake, List.map_append, List.zip_append hlen, hsplit, binds_append,
        hqe.1]
      rfl
    · rw [unbinds_append, hu, hsplit, unbinds_append, hqe.2.1]; rfl
    · rw [unrefs_append, hr, hsplit, unrefs_append, hqe.2.2.1]; rfl
    · rw [spring_keys_append, hsk, hsplit, spring_keys_append, hqe.2.2.2.1]; rfl
    · rw [cancelled_keys_append, hck, hsplit, cancelled_keys_append, hqe.2.2.2.2]; rfl

theorem removal_log_cons (c : CarouselWidgetData) (o : Nat) (ws : List CarouselWidgetData)
    (os : List Nat) :
    removal_log (c :: ws) (o :: os)
      = (cancel_child c.addr ++ [Effect.unbind_widget c.widget o]) ++ removal_log ws os := rfl

theorem removal_log_calls (ws : List CarouselWidgetData) (os : List Nat) :
    unbinds (removal_log ws os) = (ws.map (fun c => c.widget)).zip os ∧
      binds (removal_log ws os) = [] ∧ unrefs (removal_log ws os) = [] ∧
      spring_keys (removal_log ws os) = [] := by
  induction ws generalizing os with
  | nil => exact ⟨rfl, rfl, rfl, rfl⟩
  | cons c rest ih =>
    cases os with
    | nil => exact ⟨rfl, rfl, rfl, rfl⟩
    | cons o os =>
      obtain ⟨h1, h2, h3, h4⟩ := ih os
      rw [removal_log_cons]
      refine ⟨?_, ?_, ?_, ?_⟩
      · rw [unbinds_append, h1]; rfl
      · rw [binds_append, h2]; rfl
      · rw [unrefs_append, h3]; rfl
      · rw [spring_keys_append, h4]; rfl

theorem release_log_calls (ws : List CarouselWidgetData) :
    unrefs (release_log ws) = ws.map (fun c => (c.addr, c.widget)) ∧
      binds (release_log ws) = [] ∧ unbinds (release_log ws) = [] ∧
      spring_keys (release_log ws) = [] ∧ cancelled_keys (release_log ws) = [] := by
  induction ws with
  | nil => exact ⟨rfl, rfl, rfl, rfl, rfl⟩
  | cons c rest ih =>
    obtain ⟨h1, h2, h3, h4, h5⟩ := ih
    refine ⟨?_, ?_, ?_, ?_, ?_⟩
    · simp only [release_log, List.map_cons] at h1 ⊢
      simp only [unrefs, List.filterMap_cons] at h1 ⊢
      rw [h1]
    · exact h2
    · exact h3
    · exact h4
    · exact h5

/-- C19. The handler on a registry that mirrors the model as it was before the
notification, with `position + removed` inside it: it returns; the mirror sequence
is the old one with the removed range replaced by the `added` items of the model
from `position` on; the item sequence holds the surviving records in their order
(same record, widget and raised flag) with `added` new records between them; the
calls it logs are, in order, for every removed item its four cancels followed by
its unbind notification (carrying the item's widget and mirrored object), then the
release of every removed record, then a rest that unbinds and releases nothing and
binds each new container to its item of the model. So there are exactly `removed`
unbind and `added` bind notifications. -/
theorem items_changed_splices (gm : WidgetMeasure) (s : BzCarousel) (m : GtkSingleSelection)
    (p r a : Nat) (hm : s.model = some m) (hmir : s.mirror.length = s.widgets.length)
    (hr : p + r ≤ s.widgets.length) (hlen : m.items.length = s.widgets.length - r + a)
    (hv : selection_valid (some m) = true) :
    ∃ s1 N rest, items_changed gm s p r a = some s1 ∧
      s1.mirror = s.mirror.take p ++ ((m.items.drop p).take a ++ s.mirror.drop (p + r)) ∧
      N.length = a ∧
      (∀ c ∈ N, s.next_addr ≤ c.widget ∧ s.next_addr ≤ c.addr ∧ c.raised = false) ∧
      s1.widgets.map (fun c => (c.addr, c.widget, c.raised))
        = (s.widgets.take p ++ (N ++ s.widgets.drop (p + r))).map
            (fun c => (c.addr, c.widget, c.raised)) ∧
      s1.log = s.log ++
        (removal_log ((s.widgets.drop p).take r) ((s.mirror.drop p).take r)
          ++ (release_log ((s.widgets.drop p).take r) ++ rest)) ∧
      unbinds rest = [] ∧ unrefs rest = [] ∧
      binds rest = (N.map (fun c => c.widget)).zip ((m.items.drop p).take a) ∧
      unbinds (removal_log ((s.widgets.drop p).take r) ((s.mirror.drop p).take r)
          ++ (release_log ((s.widgets.drop p).take r) ++ rest))
        = (((s.widgets.drop p).take r).map (fun c => c.widget)).zip ((s.mirror.drop p).take r) ∧
      binds (removal_log ((s.widgets.drop p).take r) ((s.mirror.drop p).take r)
          ++ (release_log ((s.widgets.drop p).take r) ++ rest))
        = (N.map (fun c => c.widget)).zip ((m.items.drop p).take a) ∧
      (unbinds (removal_log ((s.widgets.drop p).take r) ((s.mirror.drop p).take r)
          ++ (release_log ((s.widgets.drop p).take r) ++ rest))).length = r ∧
      (binds (removal_log ((s.widgets.drop p).take r) ((s.mirror.drop p).take r)
          ++ (release_log ((s.widgets.drop p).take r) ++ rest))).length = a := by
  have hcalls := removal_calls_eq s p r (by omega) hr
  obtain ⟨es, hrem, hes⟩ := remove_items_spec s
    (removal_log ((s.widgets.drop p).take r) ((s.mirror.drop p).take r)) p r hmir hr
  obtain ⟨N, fs, hN, hadd, hfresh, hfb, hfu, hfr, -, -⟩ := add_loop_trace
    (perform
      { s with
        mirror := s.mirror.take p ++ s.mirror.drop (p + r)
        widgets := s.widgets.take p ++ s.widgets.drop (p + r) } es) m p a hm
    (by simp only [perform, List.length_append, List.length_take, List.length_drop]; omega)
    (by simp only [perform, List.length_append, List.length_take, List.length_drop]; omega)
    (by omega)
  have htk : ∀ {α : Type} (l : List α), p + r ≤ l.length →
      (l.take p ++ l.drop (p + r)).take p = l.take p ∧
      (l.take p ++ l.drop (p + r)).drop p = l.drop (p + r) := by
    intro α l hl
    have : (l.take p).length = p := by simp only [List.length_take]; omega
    exact ⟨List.take_left' this, List.drop_left' this⟩
  simp only [perform, (htk s.mirror (by omega)).1, (htk s.mirror (by omega)).2,
    (htk s.widgets hr).1, (htk s.widgets hr).2] at hadd
  have hsync : synced
      { s with
        animation := List.foldl animation_step (List.foldl animation_step s.animation es) fs
        log := s.log ++ es ++ fs
        next_addr := s.next_addr + 2 * a
        mirror := s.mirror.take p ++ (((m.items.drop p).take a) ++ s.mirror.drop (p + r))
        widgets := s.widgets.take p ++ (N ++ s.widgets.drop (p + r)) } := by
    refine ⟨?_, ?_, ?_⟩
    · simp only [List.length_append, List.length_take, List.length_drop, hN]; omega
    · simp only [hm, g_list_model_get_n_items, List.length_append, List.length_take,
        List.length_drop, hN]; omega
    · simpa [hm] using hv
  obtain ⟨s1, hs1⟩ := ensure_viewport_total gm _ false hsync
  have hf := ensure_viewport_frame gm _ s1 false hs1
  obtain ⟨-, -, -, ls, hls, -, -, hlq⟩ := ensure_viewport_evolves gm _ s1 false hs1
  have hmr := frame_mirror hf.1
  have hwm := frame_widgets hf.1
  simp only at hmr hwm hls
  obtain ⟨r1, r2, r3, -⟩ := removal_log_calls ((s.widgets.drop p).take r)
    ((s.mirror.drop p).take r)
  obtain ⟨q1, q2, q3, -, -⟩ := release_log_calls ((s.widgets.drop p).take r)
  have hrest_u : unbinds (fs ++ ls) = [] := by rw [unbinds_append, hfu, hlq.1]; rfl
  have hrest_r : unrefs (fs ++ ls) = [] := by rw [unrefs_append, hfr, hlq.2.2]; rfl
  have hrest_b : binds (fs ++ ls)
      = (N.map (fun c => c.widget)).zip ((m.items.drop p).take a) := by
    rw [binds_append, hfb, hlq.2.1, List.append_nil]
  have hun : unbinds (removal_log ((s.widgets.drop p).take r) ((s.mirror.drop p).take r)
        ++ (release_log ((s.widgets.drop p).take r) ++ (fs ++ ls)))
      = (((s.widgets.drop p).take r).map (fun c => c.widget)).zip
          ((s.mirror.drop p).take r) := by
    rw [unbinds_append, unbinds_append, r1, q3, hrest_u]
    simp
  have hbi : binds (removal_log ((s.widgets.drop p).take r) ((s.mirror.drop p).take r)
        ++ (release_log ((s.widgets.drop p).take r) ++ (fs ++ ls)))
      = (N.map (fun c => c.widget)).zip ((m.items.drop p).take a) := by
    rw [binds_append, binds_append, r2, q2, hrest_b]
    simp
  refine ⟨s1, N, fs ++ ls, ?_, hmr, hN,
    fun c hc => ⟨(hfresh c hc).1, (hfresh c hc).2.1, (hfresh c hc).2.2.2.2⟩, ?_, ?_,
    hrest_u, hrest_r, hrest_b, hun, hbi, ?_, ?_⟩
  · unfold items_changed
    rw [hcalls]
    simp only [hrem]
    rw [show perform
        { s with
          mirror := s.mirror.take p ++ s.mirror.drop (p + r)
          widgets := s.widgets.take p ++ s.widgets.drop (p + r) } es
        = { s with
            animation := List.foldl animation_step s.animation es
            log := s.log ++ es
            mirror := s.mirror.take p ++ s.mirror.drop (p + r)
            widgets := s.widgets.take p ++ s.widgets.drop (p + r) } from rfl]
    rw [hadd]
    exact hs1
  · have := congrArg (List.map (fun (c : CarouselWidgetData) => (c.addr, c.widget, c.raised))) hwm
    simpa only [List.map_map, Function.comp] using this
  · rw [hls, hes]
    simp only [release_log, List.append_assoc]
  · rw [hun]
    simp only [List.length_zip, List.length_map, List.length_take, List.length_drop]
    omega
  · rw [hbi]
    simp only [List.length_zip, List.length_map, List.length_take, List.length_drop, hN]
    omega

/-- C19 on two items at rest when the model loses item 0 and gains one item in its
place. -/
theorem items_changed_splices_witness :
    ∃ (s1 : BzCarousel) (N : List CarouselWidgetData) (rest : List Effect),
      items_changed wide100 { two_items_at_rest with model := some ⟨1, [12, 11], 0, true⟩ } 0 1 1
        = some s1 ∧
      s1.mirror = [12, 11] ∧ N.length = 1 ∧
      s1.log = two_items_at_rest.log ++
        (removal_log [⟨1, 0, ⟨100, 3, 100, 195⟩, ⟨100, 3, 100, 195⟩, false⟩] [10]
          ++ (release_log [⟨1, 0, ⟨100, 3, 100, 195⟩, ⟨100, 3, 100, 195⟩, false⟩] ++ rest)) ∧
      binds rest = (N.map (fun c => c.widget)).zip [12] :=
  let ⟨s1, N, rest, h1, h2, h3, _, _, h6, _, _, h9, _⟩ :=
    items_changed_splices wide100
      { two_items_at_rest with model := some ⟨1, [12, 11], 0, true⟩ }
      ⟨1, [12, 11], 0, true⟩ 0 1 1 rfl (by decide) (by decide) (by decide) (by decide)
  ⟨s1, N, rest, h1, h2, h3, h6, h9⟩

/-! ## The animator never outlives the registry -/

theorem fold_owned (W : List Nat) (es : List Effect) (a : BzAnimation)
    (ho : ∀ e ∈ a, ∃ w ∈ W, e.1 ∈ child_keys w) (hn : (a.map Prod.fst).Nodup)
    (hk : ∀ k ∈ spring_keys es, ∃ w ∈ W, k ∈ child_keys w) :
    (∀ e ∈ es.foldl animation_step a, ∃ w ∈ W, e.1 ∈ child_keys w) ∧
      ((es.foldl animation_step a).map Prod.fst).Nodup := by
  induction es generalizing a with
  | nil => exact ⟨ho, hn⟩
  | cons e rest ih =>
    rw [List.foldl_cons]
    cases e with
    | cancel key =>
      refine ih _ ?_ ?_ (fun k hk1 => hk k (by simpa [spring_keys] using hk1))
      · intro e he
        exact ho e (List.mem_of_mem_filter he)
      · exact List.Nodup.sublist ((List.filter_sublist a).map Prod.fst) hn
    | add_spring key sp =>
      refine ih _ ?_ ?_ (fun k hk1 => hk k (by
        simp only [spring_keys, List.filterMap_cons] at hk1 ⊢
        exact List.mem_cons_of_mem _ hk1))
      · intro e he
        simp only [animation_step, bz_animation_add_spring, List.mem_append,
          List.mem_singleton] at he
        rcases he with he | he
        · exact ho e (List.mem_of_mem_filter he)
        · rw [he]
          exact hk key (by simp [spring_keys])
      · simp only [animation_step, bz_animation_add_spring, List.map_append, List.map_cons,
          List.map_nil]
        rw [List.nodup_append]
        refine ⟨List.Nodup.sublist ((List.filter_sublist a).map Prod.fst) hn,
          List.nodup_singleton _, ?_⟩
        intro k hk1 hk2
        rw [List.mem_singleton] at hk2
        obtain ⟨e, he, hek⟩ := List.mem_map.mp hk1
        have := (List.mem_filter.mp he).2
        simp only [bz_animation_cancel, decide_eq_true_eq] at this
        exact this (hek.trans hk2)
    | _ => exact ih a ho hn (fun k hk1 => hk k (by simpa [spring_keys] using hk1))

theorem evolves_inv {s s1 : BzCarousel} (h : evolves s s1) (hi : anim_inv s) : anim_inv s1 := by
  obtain ⟨a1, n1, -, es, -, an1, k1, -⟩ := h
  obtain ⟨i1, i2, i3, i4⟩ := hi
  have ho : ∀ e ∈ s.animation, ∃ w ∈ addrs s, e.1 ∈ child_keys w := by
    intro e he
    obtain ⟨c, hc, hk⟩ := i1 e he
    exact ⟨c.addr, List.mem_map_of_mem _ hc, hk⟩
  obtain ⟨f1, f2⟩ := fold_owned (addrs s) es s.animation ho i2 k1
  refine ⟨?_, ?_, ?_, ?_⟩
  · intro e he
    rw [an1] at he
    obtain ⟨w, hw, hk⟩ := f1 e he
    rw [← a1] at hw
    obtain ⟨c, hc, hcw⟩ := List.mem_map.mp hw
    exact ⟨c, hc, by rw [hcw]; exact hk⟩
  · rw [an1]; exact f2
  · rw [a1]; exact i3
  · rw [a1, n1]; exact i4

theorem evolves_of_fields (s s1 : BzCarousel) (hw : addrs s1 = addrs s)
    (hn : s1.next_addr = s.next_addr) (hm : s1.mirror = s.mirror) (hl : s1.log = s.log)
    (ha : s1.animation = s.animation) : evolves s s1 :=
  ⟨hw, hn, hm, [], by simp [hl], by simp [ha], fun k hk => by simp [spring_keys] at hk,
    quiet_nil⟩

theorem raise_loop_addrs (x y : ℚ) (l : List CarouselWidgetData) :
    (raise_loop x y l).1.map (fun c => c.addr) = l.map (fun c => c.addr) := by
  have := congrArg (List.map (fun (t : Nat × Nat × graphene_rect_t × graphene_rect_t) => t.1))
    (raise_loop_rects x y l)
  simpa [List.map_map, Function.comp] using this

theorem update_motion_evolves (gm : WidgetMeasure) (self s1 : BzCarousel) (x y : ℚ)
    (h : update_motion gm self x y = some s1) : evolves self s1 := by
  unfold update_motion at h
  simp only [GRAPHENE_POINT_INIT] at h
  have hraise : evolves self
      { self with widgets := (raise_loop (c_float x) (c_float y) self.widgets).1 } :=
    evolves_of_fields _ _ (raise_loop_addrs (c_float x) (c_float y) self.widgets) rfl rfl rfl rfl
  by_cases hs : self.scrolling = true
  · rw [if_pos hs] at h; cases h; exact evolves_refl _
  · rw [if_neg hs] at h
    by_cases hd : self.dragging = true
    · rw [if_pos hd] at h; cases h; exact hraise
    · rw [if_neg hd] at h
      by_cases he : (raise_loop (c_float x) (c_float y) self.widgets).2 = true
      · rw [if_pos he] at h
        exact evolves_trans hraise (ensure_viewport_evolves gm _ s1 true h)
      · rw [if_neg he] at h; cases h; exact hraise

theorem motion_enter_evolves (gm : WidgetMeasure) (self s1 : BzCarousel) (x y : ℚ)
    (h : motion_enter gm self x y = some s1) : evolves self s1 := by
  have hev := update_motion_evolves gm _ s1 x y h
  exact hev

theorem motion_event_evolves (gm : WidgetMeasure) (self s1 : BzCarousel) (x y : ℚ)
    (h : motion_event gm self x y = some s1) : evolves self s1 := by
  have hev := update_motion_evolves gm _ s1 x y h
  exact hev

theorem motion_leave_evolves (gm : WidgetMeasure) (self s1 : BzCarousel)
    (h : motion_leave gm self = some s1) : evolves self s1 := by
  unfold motion_leave at h
  by_cases hd : self.dragging = true
  · rw [if_pos hd] at h; cases h; exact evolves_refl _
  · rw [if_neg hd] at h
    have hev := update_motion_evolves gm _ s1 _ _ h
    exact hev

theorem finish_horizontal_gesture_evolves (gm : WidgetMeasure) (self s1 : BzCarousel)
    (ox oy : Int) (h : finish_horizontal_gesture gm self ox oy = some s1) : evolves self s1 := by
  unfold finish_horizontal_gesture at h
  by_cases h0 : self.model = none ∨ self.widgets.length = 0
  · rw [if_pos h0] at h; cases h; exact evolves_refl _
  · rw [if_neg h0] at h
    simp only [] at h
    split_ifs at h
    · exact ensure_viewport_evolves gm self s1 true h
    · exact set_selected_evolves gm self s1 _ h

theorem scroll_end_evolves (gm : WidgetMeasure) (self s1 : BzCarousel)
    (h : scroll_end gm self = some s1) : evolves self s1 := by
  unfold scroll_end at h
  simp only [] at h
  cases hf : finish_horizontal_gesture gm { self with scrolling := false }
      (self.hscroll_start - self.hscroll_current) 0 with
  | none => rw [hf] at h; cases h
  | some s2 =>
    rw [hf] at h
    simp only [Option.some_bind] at h
    have h0 := finish_horizontal_gesture_evolves gm _ s2 _ _ hf
    have h1 : evolves self s2 := h0
    have h3 := update_motion_evolves gm _ s1 _ _ h
    have h2 : evolves s2 s1 := h3
    exact evolves_trans h1 h2

theorem scroll_evolves (gm : WidgetMeasure) (self s1 : BzCarousel) (dx dy : ℚ)
    (source : GdkInputSource) (handled : Bool)
    (h : scroll gm self dx dy source = some (handled, s1)) : evolves self s1 := by
  unfold scroll at h
  by_cases hm : self.model = none
  · rw [if_pos hm] at h
    simp only [Option.some.injEq, Prod.mk.injEq] at h
    rw [← h.2]
    exact evolves_of_fields _ _ rfl rfl rfl rfl rfl
  · rw [if_neg hm] at h
    simp only [] at h
    by_cases hn : g_list_model_get_n_items self.model = 0
    · rw [if_pos hn] at h
      simp only [Option.some.injEq, Prod.mk.injEq] at h
      rw [← h.2]
      exact evolves_of_fields _ _ rfl rfl rfl rfl rfl
    · rw [if_neg hn] at h
      have hsel : ∀ position, (gtk_single_selection_set_selected gm self position).map
          (fun s => (true, s)) = some (handled, s1) → evolves self s1 := by
        intro position hp
        cases hs : gtk_single_selection_set_selected gm self position with
        | none => rw [hs] at hp; cases hp
        | some s2 =>
          rw [hs] at hp
          simp only [Option.map_some', Option.some.injEq, Prod.mk.injEq] at hp
          rw [← hp.2]
          exact set_selected_evolves gm self s2 position hs
      have hpad : (if (match self.widgets with
            | first :: _ =>
              decide (dx < 0 ∧
                first.rect.x ≥ c_float (c_float ((self.width.tdiv 2 : Int) : ℚ)
                  - c_float (first.rect.width / 2)))
            | [] => false) = true then some (false, self)
          else
            (ensure_viewport gm
              { self with hscroll_current := c_trunc ((self.hscroll_current : ℚ) + dx) }
              false).map (fun s => (true, s))) = some (handled, s1) → evolves self s1 := by
        intro hp
        split_ifs at hp
        · simp only [Option.some.injEq, Prod.mk.injEq] at hp
          rw [← hp.2]
          exact evolves_refl _
        · cases he : ensure_viewport gm
              { self with hscroll_current := c_trunc ((self.hscroll_current : ℚ) + dx) }
              false with
          | none => rw [he] at hp; cases hp
          | some s2 =>
            rw [he] at hp
            simp only [Option.map_some', Option.some.injEq, Prod.mk.injEq] at hp
            rw [← hp.2]
            have hev := ensure_viewport_evolves gm _ s2 false he
            exact hev
      cases source <;> first | exact hpad h | exact hsel _ h

theorem drag_begin_evolves (gm : WidgetMeasure) (self s1 : BzCarousel)
    (h : drag_begin gm self = some s1) : evolves self s1 := by
  unfold drag_begin at h
  simp only [] at h
  split_ifs at h
  · cases h
    exact evolves_of_fields _ _ rfl rfl rfl rfl rfl
  · have hev := ensure_viewport_evolves gm _ s1 true h
    exact hev

theorem drag_update_evolves (gm : WidgetMeasure) (self s1 : BzCarousel) (x y : ℚ)
    (h : drag_update gm self x y = some s1) : evolves self s1 := by
  have hev := ensure_viewport_evolves gm _ s1 false h
  exact hev

theorem drag_end_evolves (gm : WidgetMeasure) (self s1 : BzCarousel) (x y : ℚ)
    (h : drag_end gm self x y = some s1) : evolves self s1 := by
  unfold drag_end at h
  simp only [] at h
  cases hf : finish_horizontal_gesture gm { self with dragging := false }
      (c_trunc x) (c_trunc y) with
  | none => rw [hf] at h; cases h
  | some s2 =>
    rw [hf] at h
    simp only [Option.map_some', Option.some.injEq] at h
    have h0 := finish_horizontal_gesture_evolves gm _ s2 _ _ hf
    have h1 : evolves self s2 := h0
    split_ifs at h
    · rw [← h]
      exact evolves_trans h1 (evolves_perform s2 _ (fun k hk => by simp [spring_keys] at hk)
        ⟨rfl, rfl, rfl⟩)
    · rw [← h]; exact h1

theorem allocate_calls (l : List CarouselWidgetData) :
    spring_keys (l.map (fun c =>
        Effect.allocate c.widget (c_trunc c.rect.width) (c_trunc c.rect.height)
          c.rect.x c.rect.y)) = [] ∧
      quiet (l.map (fun c =>
        Effect.allocate c.widget (c_trunc c.rect.width) (c_trunc c.rect.height)
          c.rect.x c.rect.y)) := by
  induction l with
  | nil => exact ⟨rfl, quiet_nil⟩
  | cons c rest ih => exact ⟨ih.1, ih.2.1, ih.2.2.1, ih.2.2.2⟩

theorem size_allocate_evolves (gm : WidgetMeasure) (self s1 : BzCarousel) (width height : Int)
    (h : bz_carousel_size_allocate gm self width height = some s1) : evolves self s1 := by
  unfold bz_carousel_size_allocate at h
  cases he : ensure_viewport gm { self with width := width, height := height } false with
  | none => rw [he] at h; cases h
  | some s2 =>
    rw [he] at h
    simp only [Option.map_some', Option.some.injEq] at h
    have h0 := ensure_viewport_evolves gm _ s2 false he
    have h1 : evolves self s2 := h0
    rw [← h]
    refine evolves_trans h1 (evolves_perform s2 _ ?_ (allocate_calls s2.widgets).2)
    intro k hk
    rw [(allocate_calls s2.widgets).1] at hk
    cases hk

theorem removal_calls_bounds (self : BzCarousel) (p r : Nat) (calls : List Effect)
    (h : removal_calls self p r = some calls) (h0 : 0 < r) :
    p + r ≤ self.widgets.length ∧ p + r ≤ self.mirror.length := by
  unfold removal_calls at h
  cases hmap : (List.range r).mapM (fun i =>
      match self.mirror[p + i]?, self.widgets[p + i]? with
      | some object, some child =>
        some (cancel_child child.addr ++ [Effect.unbind_widget child.widget object])
      | _, _ => none) with
  | none => rw [hmap] at h; cases h
  | some ys =>
    obtain ⟨y, hy, -⟩ := mapM_option_mem _ _ ys hmap (r - 1) (List.mem_range.mpr (by omega))
    have hw : p + (r - 1) < self.widgets.length := by
      by_contra hc
      rw [List.getElem?_eq_none (show self.widgets.length ≤ p + (r - 1) by omega)] at hy
      split at hy
      · rename_i heq1 heq2; cases heq2
      · cases hy
    have hmi : p + (r - 1) < self.mirror.length := by
      by_contra hc
      rw [List.getElem?_eq_none (show self.mirror.length ≤ p + (r - 1) by omega)] at hy
      split at hy
      · rename_i heq1 heq2; cases heq1
      · cases hy
    omega

theorem removal_log_cancelled (ws : List CarouselWidgetData) (os : List Nat)
    (h : ws.length ≤ os.length) :
    ∀ c ∈ ws, ∀ k ∈ child_keys c.addr, k ∈ cancelled_keys (removal_log ws os) := by
  induction ws generalizing os with
  | nil => intro c hc; cases hc
  | cons w rest ih =>
    cases os with
    | nil => simp at h
    | cons o os =>
      intro c hc k hk
      rw [removal_log_cons, cancelled_keys_append, cancelled_keys_append,
        cancelled_keys_cancel_child]
      rcases List.mem_cons.mp hc with h1 | h1
      · rw [h1] at hk
        exact List.mem_append_left _ (List.mem_append_left _ hk)
      · exact List.mem_append_right _ (ih os (by simpa using h) c h1 k hk)

theorem mem_spring_keys (es : List Effect) (k : AnimKey) (sp : Spring)
    (h : Effect.add_spring k sp ∈ es) : k ∈ spring_keys es := by
  unfold spring_keys
  rw [List.mem_filterMap]
  exact ⟨_, h, rfl⟩

theorem splice_sublist {α : Type} (l : List α) (p r : Nat) :
    (l.take p ++ l.drop (p + r)).Sublist l := by
  have h1 : (l.drop (p + r)).Sublist (l.drop p) := by
    rw [← List.drop_drop]
    exact List.drop_sublist _ _
  have h2 := List.Sublist.append (List.Sublist.refl (l.take p)) h1
  rw [List.take_append_drop] at h2
  exact h2

theorem splice_split {α : Type} (l : List α) (p r : Nat) :
    l = l.take p ++ ((l.drop p).take r ++ l.drop (p + r)) := by
  rw [← List.drop_drop, List.take_append_drop, List.take_append_drop]

/-- The removal loop and the two range removals keep the invariant, and no record
of the removed range keeps its address in the registry. -/
theorem remove_step_inv (s : BzCarousel) (p r : Nat) (calls : List Effect) (hi : anim_inv s)
    (hrc : removal_calls s p r = some calls) :
    anim_inv (remove_items (perform s calls) p r) ∧
      (remove_items (perform s calls) p r).next_addr = s.next_addr ∧
      ∀ c ∈ (s.widgets.drop p).take r, c.addr ∉ addrs (remove_items (perform s calls) p r) := by
  obtain ⟨i1, i2, i3, i4⟩ := hi
  by_cases h0 : r > 0
  · obtain ⟨hbw, hbm⟩ := removal_calls_bounds s p r calls hrc h0
    rw [removal_calls_eq s p r hbm hbw] at hrc
    cases hrc
    have hstate : remove_items
        (perform s (removal_log ((s.widgets.drop p).take r) ((s.mirror.drop p).take r))) p r
        = perform
            { s with
              mirror := s.mirror.take p ++ s.mirror.drop (p + r)
              widgets := s.widgets.take p ++ s.widgets.drop (p + r) }
            (removal_log ((s.widgets.drop p).take r) ((s.mirror.drop p).take r)
              ++ release_log ((s.widgets.drop p).take r)) := by
      unfold remove_items
      rw [if_pos h0]
      have h1 : p + r ≤ (perform s (removal_log ((s.widgets.drop p).take r)
          ((s.mirror.drop p).take r))).widgets.length := hbw
      have h2 : p + r ≤ (perform s (removal_log ((s.widgets.drop p).take r)
          ((s.mirror.drop p).take r))).mirror.length := hbm
      simp only [g_ptr_array_remove_range, if_pos h1, if_pos h2]
      simp only [perform, List.foldl_append, List.append_assoc, release_log]
    rw [hstate]
    have hnos : ∀ k sp, Effect.add_spring k sp ∉
        (removal_log ((s.widgets.drop p).take r) ((s.mirror.drop p).take r)
          ++ release_log ((s.widgets.drop p).take r)) := by
      intro k sp hmem
      have := mem_spring_keys _ k sp hmem
      rw [spring_keys_append, (removal_log_calls _ _).2.2.2, (release_log_calls _).2.2.2.1] at this
      cases this
    have hanim : (perform
        { s with
          mirror := s.mirror.take p ++ s.mirror.drop (p + r)
          widgets := s.widgets.take p ++ s.widgets.drop (p + r) }
        (removal_log ((s.widgets.drop p).take r) ((s.mirror.drop p).take r)
          ++ release_log ((s.widgets.drop p).take r))).animation
        = s.animation.filter (fun e => decide (e.1 ∉ cancelled_keys
            (removal_log ((s.widgets.drop p).take r) ((s.mirror.drop p).take r)
              ++ release_log ((s.widgets.drop p).take r)))) :=
      foldl_cancels _ s.animation hnos
    have hlenW : ((s.widgets.drop p).take r).length ≤ ((s.mirror.drop p).take r).length := by
      simp only [List.length_take, List.length_drop]; omega
    have haddrs : addrs s = (s.widgets.take p).map (fun c => c.addr)
        ++ (((s.widgets.drop p).take r).map (fun c => c.addr)
          ++ (s.widgets.drop (p + r)).map (fun c => c.addr)) := by
      unfold addrs
      rw [← List.map_append, ← List.map_append, ← splice_split]
    refine ⟨⟨?_, ?_, ?_, ?_⟩, rfl, ?_⟩
    · intro e he
      rw [hanim] at he
      obtain ⟨hea, hek⟩ := List.mem_filter.mp he
      simp only [decide_eq_true_eq] at hek
      obtain ⟨c, hc, hk⟩ := i1 e hea
      rw [splice_split s.widgets p r] at hc
      rcases List.mem_append.mp hc with h1 | h1
      · exact ⟨c, List.mem_append_left _ h1, hk⟩
      · rcases List.mem_append.mp h1 with h2 | h2
        · exfalso
          apply hek
          rw [cancelled_keys_append]
          exact List.mem_append_left _ (removal_log_cancelled _ _ hlenW c h2 e.1 hk)
        · exact ⟨c, List.mem_append_right _ h2, hk⟩
    · rw [hanim]
      exact List.Nodup.sublist ((List.filter_sublist s.animation).map Prod.fst) i2
    · show ((s.widgets.take p ++ s.widgets.drop (p + r)).map (fun c => c.addr)).Nodup
      exact List.Nodup.sublist ((splice_sublist s.widgets p r).map (fun c => c.addr)) i3
    · intro a ha
      have ha2 : a ∈ (s.widgets.take p ++ s.widgets.drop (p + r)).map (fun c => c.addr) := ha
      exact i4 a (((splice_sublist s.widgets p r).map (fun c => c.addr)).subset ha2)
    · intro c hc hmem
      have hnd := i3
      rw [haddrs] at hnd
      have hmem2 : c.addr ∈ (s.widgets.take p).map (fun c => c.addr)
          ++ (s.widgets.drop (p + r)).map (fun c => c.addr) := by
        have : addrs (perform
          { s with
            mirror := s.mirror.take p ++ s.mirror.drop (p + r)
            widgets := s.widgets.take p ++ s.widgets.drop (p + r) }
          (removal_log ((s.widgets.drop p).take r) ((s.mirror.drop p).take r)
            ++ release_log ((s.widgets.drop p).take r)))
            = (s.widgets.take p).map (fun c => c.addr)
              ++ (s.widgets.drop (p + r)).map (fun c => c.addr) := by
          simp only [addrs, perform, List.map_append]
        rw [this] at hmem
        exact hmem
      have hcW : c.addr ∈ ((s.widgets.drop p).take r).map (fun c => c.addr) :=
        List.mem_map_of_mem _ hc
      rw [List.nodup_append] at hnd
      obtain ⟨-, hnd2, hdis⟩ := hnd
      rw [List.nodup_append] at hnd2
      rcases List.mem_append.mp hmem2 with h1 | h1
      · exact hdis h1 (List.mem_append_left _ hcW)
      · exact hnd2.2.2 hcW h1
  · have hr0 : r = 0 := by omega
    subst hr0
    have hc : calls = [] := by
      have : removal_calls s p 0 = some [] := rfl
      rw [this] at hrc
      exact (Option.some.inj hrc).symm
    subst hc
    refine ⟨⟨i1, i2, i3, i4⟩, rfl, ?_⟩
    intro c hc
    simp at hc

theorem add_item_animation (s s1 : BzCarousel) (k : Nat) (h : add_item s k = some s1) :
    s1.animation = s.animation := by
  unfold add_item at h
  cases hm : s.model with
  | none => rw [hm] at h; cases h
  | some m =>
    rw [hm] at h
    simp only [] at h
    cases ho : m.items[k]? with
    | none => rw [ho] at h; cases h
    | some object =>
      rw [ho] at h
      simp only [] at h
      by_cases hk : k = 0
      · rw [if_pos hk] at h
        simp only [Option.some.injEq] at h
        rw [← h]
        rfl
      · rw [if_neg hk] at h
        cases hp : s.widgets[k - 1]? with
        | none => rw [hp] at h; cases h
        | some prev =>
          rw [hp] at h
          simp only [Option.map_some', Option.some.injEq] at h
          rw [← h]
          rfl

theorem add_item_inv (s s1 : BzCarousel) (k : Nat) (hi : anim_inv s)
    (h : add_item s k = some s1) :
    anim_inv s1 ∧ (∀ x ∈ addrs s1, x ∈ addrs s ∨ s.next_addr ≤ x) ∧
      s.next_addr ≤ s1.next_addr := by
  obtain ⟨i1, i2, i3, i4⟩ := hi
  obtain ⟨data, hw, -, -, -, hda, -, hn⟩ := add_item_inserts s s1 k h
  have han := add_item_animation s s1 k h
  have hperm : List.Perm (addrs s1) (data.addr :: addrs s) := by
    unfold addrs
    rw [hw, List.map_append, List.map_cons]
    refine List.perm_middle.trans ?_
    rw [← List.map_append, List.take_append_drop]
  have hmem : ∀ x, x ∈ addrs s1 ↔ x = data.addr ∨ x ∈ addrs s := by
    intro x
    rw [hperm.mem_iff, List.mem_cons]
  refine ⟨⟨?_, ?_, ?_, ?_⟩, ?_, by omega⟩
  · intro e he
    rw [han] at he
    obtain ⟨c, hc, hk⟩ := i1 e he
    refine ⟨c, ?_, hk⟩
    rw [hw]
    rw [← List.take_append_drop k s.widgets] at hc
    rcases List.mem_append.mp hc with h1 | h1
    · exact List.mem_append_left _ h1
    · exact List.mem_append_right _ (List.mem_cons_of_mem _ h1)
  · rw [han]; exact i2
  · rw [hperm.nodup_iff, List.nodup_cons]
    refine ⟨?_, i3⟩
    intro hmem1
    have := i4 _ hmem1
    omega
  · intro a ha
    rcases (hmem a).mp ha with h1 | h1
    · omega
    · have := i4 a h1; omega
  · intro x hx
    rcases (hmem x).mp hx with h1 | h1
    · right; omega
    · left; exact h1

theorem foldlM_inv {α β : Type} (P : α → Prop) (f : α → β → Option α)
    (hf : ∀ s i s1, P s → f s i = some s1 → P s1) :
    ∀ (l : List β) (s s1 : α), P s → l.foldlM f s = some s1 → P s1 := by
  intro l
  induction l with
  | nil =>
    intro s s1 hp h
    simp only [List.foldlM_nil, Option.pure_def, Option.some.injEq] at h
    rw [← h]; exact hp
  | cons i rest ih =>
    intro s s1 hp h
    rw [List.foldlM_cons] at h
    cases hfi : f s i with
    | none => rw [hfi] at h; cases h
    | some s2 =>
      rw [hfi] at h
      exact ih s2 s1 (hf s i s2 hp hfi) h

/-- The handler keeps the invariant whenever it returns, and no removed record
keeps its address in the registry. -/
theorem items_changed_inv (gm : WidgetMeasure) (s s1 : BzCarousel) (p r a : Nat)
    (hi : anim_inv s) (h : items_changed gm s p r a = some s1) :
    anim_inv s1 ∧ ∀ c ∈ (s.widgets.drop p).take r, c.addr ∉ addrs s1 := by
  unfold items_changed at h
  cases hrc : removal_calls s p r with
  | none => rw [hrc] at h; cases h
  | some calls =>
    rw [hrc] at h
    simp only [] at h
    obtain ⟨r1, r2, r3⟩ := remove_step_inv s p r calls hi hrc
    cases hadd : (List.range a).foldlM (fun s i => add_item s (p + i))
        (remove_items (perform s calls) p r) with
    | none => rw [hadd] at h; cases h
    | some s2 =>
      rw [hadd] at h
      simp only [] at h
      have hloop := foldlM_inv
        (fun (t : BzCarousel) => anim_inv t ∧
          (∀ x ∈ addrs t, x ∈ addrs (remove_items (perform s calls) p r) ∨ s.next_addr ≤ x) ∧
          s.next_addr ≤ t.next_addr)
        (fun s i => add_item s (p + i))
        (fun t i t1 ht hstep => by
          obtain ⟨t1i, t2, t3⟩ := ht
          obtain ⟨u1, u2, u3⟩ := add_item_inv t t1 (p + i) t1i hstep
          refine ⟨u1, ?_, by omega⟩
          intro x hx
          rcases u2 x hx with h1 | h1
          · exact t2 x h1
          · right; omega)
        (List.range a) _ s2 ⟨r1, fun x hx => Or.inl hx, by omega⟩ hadd
      obtain ⟨l1, l2, -⟩ := hloop
      have hev := ensure_viewport_evolves gm s2 s1 false h
      refine ⟨evolves_inv hev l1, ?_⟩
      intro c hc hmem
      rw [hev.1] at hmem
      rcases l2 _ hmem with h1 | h1
      · exact r3 c hc h1
      · have hcs : c ∈ s.widgets := List.mem_of_mem_drop (List.mem_of_mem_take hc)
        have := hi.2.2.2 c.addr (List.mem_map_of_mem _ hcs)
        omega

theorem set_model_inv (gm : WidgetMeasure) (s s1 : BzCarousel)
    (model : Option GtkSingleSelection) (hi : anim_inv s)
    (h : bz_carousel_set_model gm s model = some s1) : anim_inv s1 := by
  unfold bz_carousel_set_model at h
  by_cases hsame : model.map (fun m => m.addr) = s.model.map (fun m => m.addr)
  · rw [if_pos hsame] at h; cases h; exact hi
  · rw [if_neg hsame] at h
    simp only [] at h
    split at h
    · cases h
    · rename_i s2 hcleared
      have h2 : anim_inv s2 := by
        split at hcleared
        · exact (items_changed_inv gm _ s2 _ _ _ (by exact hi) hcleared).1
        · cases hcleared; exact hi
      have h2n : anim_inv { s2 with model := none } := h2
      cases model with
      | none =>
        simp only [Option.map_some', Option.some.injEq] at h
        rw [← h]
        exact evolves_inv (evolves_perform _ _ (fun k hk => by simp [spring_keys] at hk)
          ⟨rfl, rfl, rfl⟩) h2n
      | some m =>
        simp only [] at h
        cases hfill : items_changed gm
            { s2 with model := some { m with connected := false } } 0 0 m.items.length with
        | none => simp [hfill] at h
        | some s3 =>
          rw [hfill] at h
          simp only [Option.map_some', Option.some.injEq] at h
          have h3 : anim_inv s3 := (items_changed_inv gm _ s3 _ _ _ (by exact h2n) hfill).1
          rw [← h]
          exact evolves_inv (evolves_perform _ _ (fun k hk => by simp [spring_keys] at hk)
            ⟨rfl, rfl, rfl⟩) h3

theorem reachable_inv (gm : WidgetMeasure) (s : BzCarousel) (h : reachable gm s) :
    anim_inv s := by
  induction h with
  | init =>
    exact ⟨(fun e he => by cases he), List.nodup_nil, List.nodup_nil, (fun a ha => by cases ha)⟩
  | items_changed s s1 m p r a _ hstep ih =>
    exact (items_changed_inv gm _ s1 p r a (by exact ih) hstep).1
  | set_model s s1 model _ hstep ih => exact set_model_inv gm s s1 model ih hstep
  | size_allocate s s1 w h _ hstep ih =>
    exact evolves_inv (size_allocate_evolves gm s s1 w h hstep) ih
  | move_to_idx s s1 idx d _ hstep ih =>
    exact evolves_inv (move_to_idx_evolves gm s s1 idx d hstep) ih
  | set_selected s s1 position _ hstep ih =>
    exact evolves_inv (set_selected_evolves gm s s1 position hstep) ih
  | motion_enter s s1 x y _ hstep ih =>
    exact evolves_inv (motion_enter_evolves gm s s1 x y hstep) ih
  | motion_event s s1 x y _ hstep ih =>
    exact evolves_inv (motion_event_evolves gm s s1 x y hstep) ih
  | motion_leave s s1 _ hstep ih => exact evolves_inv (motion_leave_evolves gm s s1 hstep) ih
  | scroll_begin s _ ih => exact ih
  | scroll s s1 dx dy source handled _ hstep ih =>
    exact evolves_inv (scroll_evolves gm s s1 dx dy source handled hstep) ih
  | scroll_end s s1 _ hstep ih => exact evolves_inv (scroll_end_evolves gm s s1 hstep) ih
  | drag_begin s s1 _ hstep ih => exact evolves_inv (drag_begin_evolves gm s s1 hstep) ih
  | drag_update s s1 x y _ hstep ih =>
    exact evolves_inv (drag_update_evolves gm s s1 x y hstep) ih
  | drag_end s s1 x y _ hstep ih => exact evolves_inv (drag_end_evolves gm s s1 x y hstep) ih

theorem child_keys_child (k : AnimKey) (a : Nat) (h : k ∈ child_keys a) : k.child = a := by
  simp only [child_keys, List.mem_cons, List.mem_singleton, List.not_mem_nil, or_false] at h
  rcases h with h | h | h | h <;> rw [h]

theorem nodup_keys_filter (a : BzAnimation) (hn : (a.map Prod.fst).Nodup) (k : AnimKey) :
    (a.filter (fun e => decide (e.1 = k))).length ≤ 1 := by
  induction a with
  | nil => simp
  | cons e rest ih =>
    rw [List.map_cons, List.nodup_cons] at hn
    by_cases hk : e.1 = k
    · have hrest : rest.filter (fun e => decide (e.1 = k)) = [] := by
        rw [List.filter_eq_nil_iff]
        intro x hx
        simp only [decide_eq_true_eq]
        intro hxk
        exact hn.1 (List.mem_map.mpr ⟨x, hx, hxk.trans hk.symm⟩)
      simp [List.filter_cons, hk, hrest]
    · have := ih hn.2
      simpa [List.filter_cons, hk] using this

/-- C20. The animator being a keyed list in which starting a spring replaces any
entry of its key: in every state reached from `bz_carousel_init` through the
model's notifications, `bz_carousel_set_model`, size allocation, `move_to_idx`,
changes of the selection and the pointer, scroll and drag handlers, every active
animation has one of the four keys (x, y, w, h) of a record that is in the
registry, no key is active twice (so each key has at most one entry), and the
records have distinct addresses; and when the handler of a notification then
returns, the address of every record of the removed range is the address of no
record of the registry and of no active animation. -/
theorem no_dangling_animation (gm : WidgetMeasure) (s : BzCarousel) (h : reachable gm s) :
    (∀ e ∈ s.animation, ∃ c ∈ s.widgets, e.1 ∈ child_keys c.addr) ∧
      (s.animation.map Prod.fst).Nodup ∧
      (∀ k : AnimKey, (s.animation.filter (fun e => decide (e.1 = k))).length ≤ 1) ∧
      (addrs s).Nodup ∧
      (∀ (m : GtkSingleSelection) (p r a : Nat) (s1 : BzCarousel),
        deliver_items_changed gm s m p r a = some s1 →
        ∀ c ∈ (s.widgets.drop p).take r,
          c.addr ∉ addrs s1 ∧ ∀ e ∈ s1.animation, e.1.child ≠ c.addr) := by
  have hinv := reachable_inv gm s h
  refine ⟨hinv.1, hinv.2.1, nodup_keys_filter s.animation hinv.2.1, hinv.2.2.1, ?_⟩
  intro m p r a s1 hstep c hc
  have hs : anim_inv { s with model := some m } := hinv
  obtain ⟨h1, h2⟩ := items_changed_inv gm _ s1 p r a hs hstep
  have hc2 := h2 c hc
  refine ⟨hc2, ?_⟩
  intro e he heq
  obtain ⟨c1, hc1, hk⟩ := h1.1 e he
  apply hc2
  rw [← heq, child_keys_child e.1 c1.addr hk]
  exact List.mem_map_of_mem _ hc1

/-- C20 on the carousel that was sized, given two items, and then moved to the
second item, so that eight springs are in flight. -/
theorem no_dangling_animation_witness :
    reachable wide100 after_selecting_second ∧
      after_selecting_second.animation.length = 8 ∧
      (∀ e ∈ after_selecting_second.animation,
        ∃ c ∈ after_selecting_second.widgets, e.1 ∈ child_keys c.addr) ∧
      (after_selecting_second.animation.map Prod.fst).Nodup :=
  have hr : reachable wide100 after_selecting_second :=
    reachable.set_selected after_two_items after_selecting_second 1
      (reachable.items_changed after_allocation after_two_items ⟨1, [10, 11], 0, true⟩ 0 0 2
        (reachable.size_allocate bz_carousel_init after_allocation 300 200 reachable.init
          (by decide!))
        (by decide!))
      (by decide!)
  ⟨hr, by decide!, (no_dangling_animation wide100 after_selecting_second hr).1,
    (no_dangling_animation wide100 after_selecting_second hr).2.1⟩

/-- The loop of `finish_horizontal_gesture`: either no score is below the running
minimum and the accumulator is returned, or the result is the first position of
the least score. -/
theorem nearest_loop_spec (width : ℚ) (l : List CarouselWidgetData) (i : Nat) (acc : Nat × Int) :
    ((nearest_loop width l i acc = acc ∧
        ∀ c ∈ l, acc.2 ≤ distance_from_center width c.rect) ∨
      ∃ (j : Nat) (hj : j < l.length),
        nearest_loop width l i acc = (i + j, distance_from_center width (l[j]).rect) ∧
        distance_from_center width (l[j]).rect < acc.2 ∧
        (∀ c ∈ l, distance_from_center width (l[j]).rect ≤ distance_from_center width c.rect) ∧
        ∀ (k : Nat) (hk : k < j),
          distance_from_center width (l[j]).rect
            < distance_from_center width (l[k]).rect) := by
  induction l generalizing i acc with
  | nil => left; exact ⟨rfl, fun c hc => by cases hc⟩
  | cons c rest ih =>
    simp only [nearest_loop]
    by_cases hlt : distance_from_center width c.rect < acc.2
    · rw [if_pos hlt]
      rcases ih (i + 1) (i, distance_from_center width c.rect) with ⟨h1, h2⟩ | ⟨j, hj, h1, h2, h3, h4⟩
      · right
        refine ⟨0, by simp, ?_, hlt, ?_, ?_⟩
        · simpa using h1
        · intro c1 hc1
          rcases List.mem_cons.mp hc1 with h | h
          · rw [h]; exact le_refl _
          · exact h2 c1 h
        · intro k hk; omega
      · right
        refine ⟨j + 1, by simpa using hj, ?_, ?_, ?_, ?_⟩
        · rw [h1]
          simp only [List.getElem_cons_succ, Prod.mk.injEq, and_true]
          omega
        · simp only [List.getElem_cons_succ]
          exact lt_trans h2 hlt
        · intro c1 hc1
          simp only [List.getElem_cons_succ]
          rcases List.mem_cons.mp hc1 with h | h
          · rw [h]; exact le_of_lt h2
          · exact h3 c1 h
        · intro k hk
          simp only [List.getElem_cons_succ]
          cases k with
          | zero => simpa using h2
          | succ k1 =>
            simp only [List.getElem_cons_succ]
            exact h4 k1 (by omega)
    · rw [if_neg hlt]
      rcases ih (i + 1) acc with ⟨h1, h2⟩ | ⟨j, hj, h1, h2, h3, h4⟩
      · left
        refine ⟨h1, ?_⟩
        intro c1 hc1
        rcases List.mem_cons.mp hc1 with h | h
        · rw [h]; exact not_lt.mp hlt
        · exact h2 c1 h
      · right
        refine ⟨j + 1, by simpa using hj, ?_, ?_, ?_, ?_⟩
        · rw [h1]
          simp only [List.getElem_cons_succ, Prod.mk.injEq, and_true]
          omega
        · simpa only [List.getElem_cons_succ] using h2
        · intro c1 hc1
          simp only [List.getElem_cons_succ]
          rcases List.mem_cons.mp hc1 with h | h
          · rw [h]; exact le_of_lt (lt_of_lt_of_le h2 (not_lt.mp hlt))
          · exact h3 c1 h
        · intro k hk
          simp only [List.getElem_cons_succ]
          cases k with
          | zero => exact lt_of_lt_of_le h2 (not_lt.mp hlt)
          | succ k1 =>
            simp only [List.getElem_cons_succ]
            exact h4 k1 (by omega)

/-- The candidate on a registry with a score below `G_MAXINT`: an index, of least
score, and the first such. -/
theorem nearest_spec (self : BzCarousel)
    (h : ∃ c ∈ self.widgets, distance_from_center (self.width : ℚ) c.rect < G_MAXINT) :
    ∃ (hj : nearest self < self.widgets.length),
      (∀ c ∈ self.widgets,
        distance_from_center (self.width : ℚ) (self.widgets[nearest self]).rect
          ≤ distance_from_center (self.width : ℚ) c.rect) ∧
      ∀ (k : Nat) (hk : k < nearest self),
        distance_from_center (self.width : ℚ) (self.widgets[nearest self]).rect
          < distance_from_center (self.width : ℚ) (self.widgets[k]).rect := by
  obtain ⟨c0, hc0, hlt⟩ := h
  rcases nearest_loop_spec (self.width : ℚ) self.widgets 0 (G_MAXUINT, G_MAXINT) with
    ⟨-, h2⟩ | ⟨j, hj, h1, -, h3, h4⟩
  · exact absurd hlt (not_lt.mpr (h2 c0 hc0))
  · have hn : nearest self = j := by
      unfold nearest
      rw [h1]
      simp
    have hj2 : nearest self < self.widgets.length := by rw [hn]; exact hj
    refine ⟨hj2, ?_, ?_⟩
    · intro c hc
      simp only [hn]
      exact h3 c hc
    · intro k hk
      simp only [hn]
      exact h4 k (by omega)

theorem c_trunc_gt_fifteen (q : ℚ) : c_trunc q > 15 ↔ 16 ≤ q := by
  unfold c_trunc
  split_ifs with h
  · constructor
    · intro hq
      have : (16 : Int) ≤ ⌊q⌋ := by omega
      have := Int.le_floor.mp this
      simpa using this
    · intro hq
      have : (16 : Int) ≤ ⌊q⌋ := Int.le_floor.mpr (by simpa using hq)
      omega
  · constructor
    · intro hq
      have hf : 0 ≤ ⌊-q⌋ := Int.floor_nonneg.mpr (by linarith)
      omega
    · intro hq
      linarith

theorem c_trunc_lt_minus_fifteen (q : ℚ) : c_trunc q < -15 ↔ q ≤ -16 := by
  unfold c_trunc
  split_ifs with h
  · constructor
    · intro hq
      have hf : 0 ≤ ⌊q⌋ := Int.floor_nonneg.mpr h
      omega
    · intro hq
      linarith
  · constructor
    · intro hq
      have : (16 : Int) ≤ ⌊-q⌋ := by omega
      have := Int.le_floor.mp this
      have h16 : (16 : ℚ) ≤ -q := by simpa using this
      linarith
    · intro hq
      have : (16 : Int) ≤ ⌊-q⌋ := Int.le_floor.mpr (by simp only [Int.cast_ofNat]; linarith)
      omega

theorem finish_horizontal_gesture_snap (gm : WidgetMeasure) (self : BzCarousel)
    (m : GtkSingleSelection) (ox oy : Int) (hm : self.model = some m)
    (hw : 0 < self.widgets.length) :
    finish_horizontal_gesture gm self ox oy
      = if snap self m.selected (nearest self) ox = G_MAXUINT ∨
            snap self m.selected (nearest self) ox = m.selected
        then ensure_viewport gm self true
        else gtk_single_selection_set_selected gm self
          (snap self m.selected (nearest self) ox) := by
  unfold finish_horizontal_gesture
  have h1 : ¬ (self.model = none ∨ self.widgets.length = 0) := by
    rintro (h | h)
    · rw [hm] at h; cases h
    · omega
  rw [if_neg h1]
  simp only [hm, gtk_single_selection_get_selected]

theorem snap_cases (self : BzCarousel) (s : Nat) (ox : Int) (hs : s < self.widgets.length) :
    snap self s s ox
      = if ox > 15 ∧ 0 < s then s - 1
        else if ox < -15 ∧ s < self.widgets.length - 1 then s + 1 else s := by
  unfold snap
  rw [if_pos rfl]

theorem snap_index (self : BzCarousel) (s n : Nat) (ox : Int) (hn : n < self.widgets.length) :
    snap self s n ox < self.widgets.length := by
  unfold snap
  split_ifs <;> omega

/-- The snap threshold as `drag_end` applies it, on a registry that mirrors its
model and with the nearest-to-centre candidate equal to the current selection `s`:
`drag_end` returns and the selection is `s - 1` when the offset truncated toward
zero is greater than 15, that is when the offset is at least 16, and `s` is not the
first index; it is `s + 1` when the truncated offset is less than -15, that is when
the offset is at most -16, and `s` is not the last index; otherwise it is still
`s`. -/
theorem drag_release_snaps (gm : WidgetMeasure) (self : BzCarousel) (m : GtkSingleSelection)
    (ox oy : ℚ) (s : Nat) (hm : self.model = some m) (hsel : m.selected = s)
    (hsync : synced self) (hs : s < self.widgets.length)
    (hlen : self.widgets.length ≤ G_MAXUINT) (hnear : nearest self = s) :
    (∃ s1, drag_end gm self ox oy = some s1 ∧
      gtk_single_selection_get_selected s1.model
        = if 16 ≤ ox ∧ 0 < s then s - 1
          else if ox ≤ -16 ∧ s < self.widgets.length - 1 then s + 1 else s) ∧
    (c_trunc ox > 15 ↔ 16 ≤ ox) ∧ (c_trunc ox < -15 ↔ ox ≤ -16) := by
  refine ⟨?_, c_trunc_gt_fifteen ox, c_trunc_lt_minus_fifteen ox⟩
  have hitems : m.items.length = self.widgets.length := by
    have := hsync.2.1
    rw [hm] at this
    exact this
  have hG : G_MAXUINT = 4294967295 := rfl
  have hfin : ∃ s2, finish_horizontal_gesture gm { self with dragging := false }
        (c_trunc ox) (c_trunc oy) = some s2 ∧
      gtk_single_selection_get_selected s2.model
        = if 16 ≤ ox ∧ 0 < s then s - 1
          else if ox ≤ -16 ∧ s < self.widgets.length - 1 then s + 1 else s := by
    rw [finish_horizontal_gesture_snap gm { self with dragging := false } m _ _ hm (by
      show 0 < self.widgets.length
      omega)]
    have hn2 : nearest { self with dragging := false } = s := hnear
    rw [hn2, hsel, snap_cases { self with dragging := false } s (c_trunc ox) hs]
    simp only [c_trunc_gt_fifteen, c_trunc_lt_minus_fifteen]
    have hset : ∀ position, position < self.widgets.length →
        ∃ s2, gtk_single_selection_set_selected gm { self with dragging := false } position
            = some s2 ∧ gtk_single_selection_get_selected s2.model = position := by
      intro position hp
      obtain ⟨s2, h1, -, h2⟩ := set_selected_spec gm { self with dragging := false } m position
        hm (by omega) (fun _ => hp)
      exact ⟨s2, h1, by rw [h2]; rfl⟩
    have hens : ∃ s2, ensure_viewport gm { self with dragging := false } true = some s2 ∧
        gtk_single_selection_get_selected s2.model = s := by
      have hsy : synced { self with dragging := false } := hsync
      obtain ⟨s2, h1⟩ := ensure_viewport_total gm _ true hsy
      refine ⟨s2, h1, ?_⟩
      rw [(ensure_viewport_frame gm _ s2 true h1).2]
      simp only [hm, Option.map_some', gtk_single_selection_get_selected, hsel]
      rw [if_neg (by omega)]
    by_cases h1 : 16 ≤ ox ∧ 0 < s
    · simp only [if_pos h1]
      rw [if_neg (by omega)]
      exact hset (s - 1) (by omega)
    · simp only [if_neg h1]
      by_cases h2 : ox ≤ -16 ∧ s < self.widgets.length - 1
      · simp only [if_pos h2]
        rw [if_neg (by omega)]
        exact hset (s + 1) (by omega)
      · simp only [if_neg h2]
        rw [if_pos (Or.inr trivial)]
        exact hens
  obtain ⟨s2, hf, hsel2⟩ := hfin
  unfold drag_end
  simp only [hf, Option.map_some']
  by_cases hcl : ox < -3 ∨ ox > 3 ∨ oy < -3 ∨ oy > 3
  · rw [if_pos hcl]
    exact ⟨_, rfl, hsel2⟩
  · rw [if_neg hcl]
    exact ⟨_, rfl, hsel2⟩

/-- C22, the code at the failing input: two items with the second selected,
dragged 15.5 units to the right and released there. The candidate at release is
the selection 1, the offset 15.5 is greater than 15 and index 1 is not the first,
yet the selection after `drag_end` is still 1: the `double` offset reaches the
threshold test of `finish_horizontal_gesture` as the `int` 15. -/
theorem fractional_release_keeps_selection :
    (drag_update shrinks90 second_item_dragged (31 / 2) 0).map (fun s => s.widgets)
        = some second_item_dragged.widgets ∧
      nearest { second_item_dragged with dragging := false } = 1 ∧
      gtk_single_selection_get_selected second_item_dragged.model = 1 ∧
      (31 / 2 : ℚ) > 15 ∧ c_trunc (31 / 2) = 15 ∧
      (drag_end shrinks90 second_item_dragged (31 / 2) 0).map
        (fun s => gtk_single_selection_get_selected s.model) = some 1 := by
  refine ⟨by decide!, by decide!, by decide!, by norm_num, by decide!, by decide!⟩

/-- C23. On a carousel with a model and a non-empty registry (of at most
`G_MAXUINT` records, one of them with a score below `G_MAXINT`), with `r` the index
`finish_horizontal_gesture` resolves: `r` is an index of the registry; when `r`
differs from the selection, the call is exactly the selection of `r`, with no
re-layout request of its own, and on a model with as many items as the registry
it returns with the cursor at `r`; when `r` is the selection, the call is exactly
the animated `ensure_viewport`, it returns on a registry that mirrors the model,
and the model is unchanged. Without a model or without records the call returns
the state as it is. -/
theorem commit_dichotomy (gm : WidgetMeasure) (self : BzCarousel) (m : GtkSingleSelection)
    (ox oy : Int) (hm : self.model = some m) (hw : self.widgets ≠ [])
    (hlen : self.widgets.length ≤ G_MAXUINT)
    (hc : ∃ c ∈ self.widgets, distance_from_center (self.width : ℚ) c.rect < G_MAXINT) :
    (∃ r, r = snap self m.selected (nearest self) ox ∧ r < self.widgets.length ∧
      (r ≠ m.selected →
        finish_horizontal_gesture gm self ox oy = gtk_single_selection_set_selected gm self r ∧
        (m.items.length = self.widgets.length →
          ∃ s1, finish_horizontal_gesture gm self ox oy = some s1 ∧
            s1.model = some { m with selected := r })) ∧
      (r = m.selected →
        finish_horizontal_gesture gm self ox oy = ensure_viewport gm self true ∧
        (synced self → ∃ s1, finish_horizontal_gesture gm self ox oy = some s1) ∧
        ∀ s1, finish_horizontal_gesture gm self ox oy = some s1 → s1.model = self.model)) ∧
    ∀ (s : BzCarousel) (x y : Int), s.model = none ∨ s.widgets = [] →
      finish_horizontal_gesture gm s x y = some s := by
  constructor
  · obtain ⟨hn, -, -⟩ := nearest_spec self hc
    have hpos : 0 < self.widgets.length := List.length_pos.mpr hw
    have hr := snap_index self m.selected (nearest self) ox hn
    have hG : G_MAXUINT = 4294967295 := rfl
    have hfin := finish_horizontal_gesture_snap gm self m ox oy hm hpos
    refine ⟨_, rfl, hr, ?_, ?_⟩
    · intro hne
      have heq : finish_horizontal_gesture gm self ox oy
          = gtk_single_selection_set_selected gm self
              (snap self m.selected (nearest self) ox) := by
        rw [hfin, if_neg]
        rintro (h | h)
        · omega
        · exact hne h
      refine ⟨heq, ?_⟩
      intro hitems
      obtain ⟨s1, h1, -, h2⟩ := set_selected_spec gm self m _ hm (by omega) (fun _ => hr)
      exact ⟨s1, by rw [heq]; exact h1, h2⟩
    · intro he
      have heq : finish_horizontal_gesture gm self ox oy = ensure_viewport gm self true := by
        rw [hfin, if_pos (Or.inr he)]
      refine ⟨heq, ?_, ?_⟩
      · intro hsy
        obtain ⟨s1, h1⟩ := ensure_viewport_total gm self true hsy
        exact ⟨s1, by rw [heq]; exact h1⟩
      · intro s1 h1
        rw [heq] at h1
        rw [(ensure_viewport_frame gm self s1 true h1).2, hm]
        simp only [Option.map_some', Option.some.injEq]
        rw [if_neg (by omega)]
  · intro s x y h
    unfold finish_horizontal_gesture
    rw [if_pos]
    rcases h with h | h
    · exact Or.inl h
    · exact Or.inr (by rw [h]; rfl)

/-- C23 on the dragged pair of items released at offset 15: the candidate is the
selection and the animated re-layout is requested. -/
theorem commit_dichotomy_witness :
    ∃ r, r = snap { second_item_dragged with dragging := false } 1
        (nearest { second_item_dragged with dragging := false }) 15 ∧
      r < second_item_dragged.widgets.length ∧
      (r = 1 →
        finish_horizontal_gesture shrinks90 { second_item_dragged with dragging := false } 15 0
          = ensure_viewport shrinks90 { second_item_dragged with dragging := false } true) :=
  let ⟨r, h1, h2, _, h4⟩ :=
    (commit_dichotomy shrinks90 { second_item_dragged with dragging := false }
      ⟨1, [10, 11], 1, true⟩ 15 0 rfl (by decide) (by decide)
      ⟨⟨1, 0, ⟨20, 3, 90, 195⟩, ⟨20, 3, 90, 195⟩, false⟩, by decide, by decide!⟩).1
  ⟨r, h1, h2, fun h => (h4 h).1⟩

/-- C24, the code at the failing input: two items of width 100 in a 300 by 200
viewport, the second selected, every rect equal to the target that `move_to_idx`
computes for index 1 (an unanimated pass changes nothing), released with offset 0.
Their rectangles touch at x = 100, so both score 50; the loop keeps the first index
of least score, the candidate is 0 and the selection moves from 1 to 0, through
`finish_horizontal_gesture` and through a drag that begins and ends in place. -/
theorem tie_moves_selection_left :
    (move_to_idx wide100 second_selected_at_rest 1 (-1.0)).map (fun s => s.widgets)
        = some second_selected_at_rest.widgets ∧
      gtk_single_selection_get_selected second_selected_at_rest.model = 1 ∧
      second_selected_at_rest.widgets.map
          (fun c => distance_from_center (second_selected_at_rest.width : ℚ) c.rect) = [50, 50] ∧
      nearest second_selected_at_rest = 0 ∧
      (finish_horizontal_gesture wide100 second_selected_at_rest 0 0).map
        (fun s => gtk_single_selection_get_selected s.model) = some 0 ∧
      ((drag_begin wide100 second_selected_at_rest).bind (fun s => drag_end wide100 s 0 0)).map
        (fun s => gtk_single_selection_get_selected s.model) = some 0 := by
  refine ⟨by decide!, by decide!, by decide!, by decide!, by decide!, by decide!⟩

/-! ## Hover -/

theorem raise_loop_flags (x y : ℚ) (l : List CarouselWidgetData) :
    (raise_loop x y l).1.map (fun c => c.raised)
      = l.map (fun c => graphene_rect_contains_point c.target x y) := by
  induction l with
  | nil => rfl
  | cons c rest ih =>
    simp only [raise_loop]
    split_ifs with h
    · simp [ih]
    · have hc : graphene_rect_contains_point c.target x y = c.raised := by simpa using h
      simp only [List.map_cons, ih, hc]

theorem raise_loop_length (x y : ℚ) (l : List CarouselWidgetData) :
    (raise_loop x y l).1.length = l.length := by
  have := congrArg List.length (raise_loop_addrs x y l)
  simpa using this

theorem frame_flags {a b : BzCarousel} (h : frame a = frame b) :
    a.widgets.map (fun c => c.raised) = b.widgets.map (fun c => c.raised) := by
  have := congrArg (List.map (fun (c : CarouselWidgetData) => c.raised)) (frame_widgets h)
  simpa only [List.map_map, Function.comp] using this

theorem frame_motion {a b : BzCarousel} (h : frame a = frame b) :
    a.motion_x = b.motion_x ∧ a.motion_y = b.motion_y := by
  have h1 := congrArg BzCarousel.motion_x h
  have h2 := congrArg BzCarousel.motion_y h
  exact ⟨h1, h2⟩

/-- What `update_motion` leaves when no scroll is active: the flags are the
containment tests on the targets, the pointer position is untouched. -/
theorem update_motion_flags (gm : WidgetMeasure) (self s1 : BzCarousel) (x y : ℚ)
    (hs : self.scrolling = false) (h : update_motion gm self x y = some s1) :
    s1.widgets.map (fun c => c.raised)
        = self.widgets.map
            (fun c => graphene_rect_contains_point c.target (c_float x) (c_float y)) ∧
      s1.motion_x = self.motion_x ∧ s1.motion_y = self.motion_y := by
  unfold update_motion at h
  simp only [GRAPHENE_POINT_INIT] at h
  rw [hs] at h
  simp only [Bool.false_eq_true, if_false] at h
  by_cases hd : self.dragging = true
  · rw [if_pos hd] at h
    cases h
    exact ⟨raise_loop_flags (c_float x) (c_float y) self.widgets, rfl, rfl⟩
  · rw [if_neg hd] at h
    by_cases he : (raise_loop (c_float x) (c_float y) self.widgets).2 = true
    · rw [if_pos he] at h
      have hf := (ensure_viewport_frame gm _ s1 true h).1
      have h1 := frame_flags hf
      have h2 := frame_motion hf
      exact ⟨by rw [h1]; exact raise_loop_flags (c_float x) (c_float y) self.widgets, h2.1,
        h2.2⟩
    · rw [if_neg he] at h
      cases h
      exact ⟨raise_loop_flags (c_float x) (c_float y) self.widgets, rfl, rfl⟩

theorem update_motion_total (gm : WidgetMeasure) (self : BzCarousel) (x y : ℚ)
    (hsy : synced self) : ∃ s1, update_motion gm self x y = some s1 := by
  unfold update_motion
  simp only [GRAPHENE_POINT_INIT]
  by_cases hs : self.scrolling = true
  · rw [if_pos hs]; exact ⟨_, rfl⟩
  · rw [if_neg hs]
    by_cases hd : self.dragging = true
    · rw [if_pos hd]; exact ⟨_, rfl⟩
    · rw [if_neg hd]
      by_cases he : (raise_loop (c_float x) (c_float y) self.widgets).2 = true
      · rw [if_pos he]
        have hsy2 : synced
            { self with widgets := (raise_loop (c_float x) (c_float y) self.widgets).1 } := by
          obtain ⟨h1, h2, h3⟩ := hsy
          refine ⟨?_, ?_, h3⟩
          · show self.mirror.length
              = (raise_loop (c_float x) (c_float y) self.widgets).1.length
            rw [raise_loop_length]; exact h1
          · show g_list_model_get_n_items self.model
              = (raise_loop (c_float x) (c_float y) self.widgets).1.length
            rw [raise_loop_length]; exact h2
        exact ensure_viewport_total gm _ true hsy2
      · rw [if_neg he]; exact ⟨_, rfl⟩

theorem update_motion_scrolling (gm : WidgetMeasure) (self : BzCarousel) (x y : ℚ)
    (hs : self.scrolling = true) : update_motion gm self x y = some self := by
  unfold update_motion
  simp only [GRAPHENE_POINT_INIT]
  rw [if_pos hs]

theorem update_motion_dragging (gm : WidgetMeasure) (self : BzCarousel) (x y : ℚ)
    (hs : self.scrolling = false) (hd : self.dragging = true) :
    update_motion gm self x y
      = some { self with
          widgets := (raise_loop (c_float x) (c_float y) self.widgets).1 } := by
  unfold update_motion
  simp only [GRAPHENE_POINT_INIT]
  rw [if_neg (by rw [hs]; exact Bool.false_ne_true), if_pos hd]

/-- C25, amended. A pointer enter or move event at `(x, y)` records the position.
When no scroll is active, it leaves every item with the raised flag that says
whether the item's target, as it was when the event arrived, contains the point
`(x, y)` converted to `float` coordinates; the rects are not read, so a state that
differs only in the rects gets the same flags; this holds while a drag is active,
when the result is the input with the flags and the position updated and nothing
else (no re-layout). While a scroll is active the event only records the position:
no flag changes. The event returns on a registry that mirrors its model, and enter
and move do the same. -/
theorem hover_tests_targets (gm : WidgetMeasure) (self : BzCarousel) (x y : ℚ) :
    motion_enter gm self x y = motion_event gm self x y ∧
    (synced self → ∃ s1, motion_event gm self x y = some s1) ∧
    ∀ s1, motion_event gm self x y = some s1 →
      s1.motion_x = x ∧ s1.motion_y = y ∧
      (self.scrolling = false →
        s1.widgets.map (fun c => c.raised)
          = self.widgets.map
              (fun c => graphene_rect_contains_point c.target (c_float x) (c_float y))) ∧
      (self.scrolling = false → ∀ t s2 : BzCarousel,
        t.widgets.map (fun (c : CarouselWidgetData) => { c with rect := graphene_rect_zero })
          = self.widgets.map
              (fun (c : CarouselWidgetData) => { c with rect := graphene_rect_zero }) →
        t.scrolling = false → motion_event gm t x y = some s2 →
        s2.widgets.map (fun c => c.raised) = s1.widgets.map (fun c => c.raised)) ∧
      (self.scrolling = false → self.dragging = true →
        s1 = { self with
          motion_x := x, motion_y := y
          widgets := (raise_loop (c_float x) (c_float y) self.widgets).1 }) ∧
      (self.scrolling = true → s1 = { self with motion_x := x, motion_y := y }) := by
  refine ⟨rfl, ?_, ?_⟩
  · intro hsy
    have hsy2 : synced { self with motion_x := x, motion_y := y } := hsy
    exact update_motion_total gm _ x y hsy2
  · intro s1 h
    have hflags : self.scrolling = false →
        s1.widgets.map (fun c => c.raised)
          = self.widgets.map
              (fun c => graphene_rect_contains_point c.target (c_float x) (c_float y)) := by
      intro hs
      exact (update_motion_flags gm { self with motion_x := x, motion_y := y } s1 x y hs h).1
    have hmotion : s1.motion_x = x ∧ s1.motion_y = y := by
      by_cases hs : self.scrolling = true
      · have h2 : update_motion gm { self with motion_x := x, motion_y := y } x y = some s1 := h
        rw [update_motion_scrolling gm { self with motion_x := x, motion_y := y } x y hs] at h2
        rw [← Option.some.inj h2]
        exact ⟨rfl, rfl⟩
      · have hs2 : self.scrolling = false := by simpa using hs
        have := update_motion_flags gm { self with motion_x := x, motion_y := y } s1 x y hs2 h
        exact ⟨this.2.1, this.2.2⟩
    refine ⟨hmotion.1, hmotion.2, hflags, ?_, ?_, ?_⟩
    · intro hs t s2 ht hts h2
      have h3 := (update_motion_flags gm { t with motion_x := x, motion_y := y } s2 x y hts h2).1
      rw [hflags hs]
      have e : t.widgets.map
            (fun c => graphene_rect_contains_point c.target (c_float x) (c_float y))
          = self.widgets.map
              (fun c => graphene_rect_contains_point c.target (c_float x) (c_float y)) := by
        have := congrArg (List.map (fun (c : CarouselWidgetData) =>
          graphene_rect_contains_point c.target (c_float x) (c_float y))) ht
        simpa only [List.map_map, Function.comp] using this
      rw [← e]
      exact h3
    · intro hs hd
      have h2 : update_motion gm { self with motion_x := x, motion_y := y } x y = some s1 := h
      rw [update_motion_dragging gm { self with motion_x := x, motion_y := y } x y hs hd] at h2
      exact (Option.some.inj h2).symm
    · intro hs
      have h2 : update_motion gm { self with motion_x := x, motion_y := y } x y = some s1 := h
      rw [update_motion_scrolling gm { self with motion_x := x, motion_y := y } x y hs] at h2
      exact (Option.some.inj h2).symm

/-- C25, counterexample. Two items at rest while a scroll is active; the pointer
moves to (150, 100), inside the target of item 0: the flags stay as they were, both
unset, although the target of item 0 contains the point. -/
theorem scroll_freezes_hover :
    (motion_event wide100 { two_items_at_rest with scrolling := true } 150 100).map
        (fun s => s.widgets.map (fun c => c.raised)) = some [false, false] ∧
      two_items_at_rest.widgets.map
        (fun c => graphene_rect_contains_point c.target (c_float 150) (c_float 100))
          = [true, false] := by
  constructor <;> decide!

/-- C25, amended, on two items at rest with the pointer moving over item 0. -/
theorem hover_tests_targets_witness :
    ∃ s1, motion_event wide100 two_items_at_rest 150 100 = some s1 ∧
      s1.widgets.map (fun c => c.raised)
        = two_items_at_rest.widgets.map
            (fun c => graphene_rect_contains_point c.target (c_float 150) (c_float 100)) :=
  let ⟨s1, h⟩ := (hover_tests_targets wide100 two_items_at_rest 150 100).2.1 (by decide)
  ⟨s1, h, ((hover_tests_targets wide100 two_items_at_rest 150 100).2.2 s1 h).2.2.1 rfl⟩

theorem outside_point_not_contained (t : graphene_rect_t) (x y : ℚ) (hy : 0 ≤ t.y)
    (hh : 0 ≤ t.height) (hneg : y < 0) : graphene_rect_contains_point t x y = false := by
  unfold graphene_rect_contains_point graphene_rect_normalize
  simp only [decide_eq_false_iff_not, not_and]
  intro _ _ h3
  rw [if_neg (not_lt.mpr hh)] at h3
  linarith

theorem child_target_below_origin (gm : WidgetMeasure) (width height offset : Int)
    (c : CarouselWidgetData) (hH : 0 ≤ height) :
    0 ≤ (child_target gm width height offset c).y ∧
      0 ≤ (child_target gm width height offset c).height := by
  have hHq : (0 : ℚ) ≤ (height : ℚ) := by exact_mod_cast hH
  unfold child_target
  simp only []
  split_ifs
  · simp only [GRAPHENE_RECT_INIT, Int.cast_zero, le_refl, true_and]
    exact hHq
  · simp only [GRAPHENE_RECT_INIT]
    constructor
    · have := c_round_nonneg ((height : ℚ) * (0.5 * RAISE_FACTOR))
        (mul_nonneg hHq (by norm_num [RAISE_FACTOR]))
      exact_mod_cast this
    · have := c_round_nonneg ((height : ℚ) * (1.0 - RAISE_FACTOR))
        (mul_nonneg hHq (by norm_num [RAISE_FACTOR]))
      exact_mod_cast this

/-- C26, amended. While a drag is active `motion_leave` changes nothing. With no
drag active it records the pointer position (-1, -1); then, while a scroll is
active, nothing else changes (the flags stay); and when no scroll is active and
every target has `y ≥ 0` and `height ≥ 0`, it returns on a registry that mirrors
its model and no item has its raised flag set afterwards. The targets of a layout
pass on a viewport of height `≥ 0`, and the all-zero target of a new record, have
`y ≥ 0` and `height ≥ 0`. -/
theorem pointer_leave_unraises (gm : WidgetMeasure) (self : BzCarousel) :
    (self.dragging = true → motion_leave gm self = some self) ∧
    (self.dragging = false → self.scrolling = true →
      motion_leave gm self = some { self with motion_x := -1, motion_y := -1 }) ∧
    (self.dragging = false → self.scrolling = false →
      (∀ c ∈ self.widgets, 0 ≤ c.target.y ∧ 0 ≤ c.target.height) →
      (synced self → ∃ s1, motion_leave gm self = some s1) ∧
      ∀ s1, motion_leave gm self = some s1 →
        s1.motion_x = -1 ∧ s1.motion_y = -1 ∧ ∀ c ∈ s1.widgets, c.raised = false) ∧
    (∀ (width height offset : Int) (c : CarouselWidgetData), 0 ≤ height →
      0 ≤ (child_target gm width height offset c).y ∧
        0 ≤ (child_target gm width height offset c).height) ∧
    (0 ≤ graphene_rect_zero.y ∧ 0 ≤ graphene_rect_zero.height) := by
  have hm1 : (-1.0 : ℚ) = -1 := by norm_num
  refine ⟨?_, ?_, ?_, fun width height offset c hH =>
    child_target_below_origin gm width height offset c hH, ⟨le_refl _, le_refl _⟩⟩
  · intro hd
    unfold motion_leave
    rw [if_pos hd]
  · intro hd hs
    unfold motion_leave
    rw [if_neg (by rw [hd]; exact Bool.false_ne_true),
      update_motion_scrolling gm { self with motion_x := -1.0, motion_y := -1.0 } _ _ hs, hm1]
  · intro hd hs htargets
    have hleave : motion_leave gm self
        = update_motion gm { self with motion_x := -1.0, motion_y := -1.0 } (-1.0) (-1.0) := by
      unfold motion_leave
      rw [if_neg (by rw [hd]; exact Bool.false_ne_true)]
    constructor
    · intro hsy
      rw [hleave]
      have hsy2 : synced { self with motion_x := -1.0, motion_y := -1.0 } := hsy
      exact update_motion_total gm _ _ _ hsy2
    · intro s1 h
      rw [hleave] at h
      obtain ⟨h1, h2, h3⟩ := update_motion_flags gm
        { self with motion_x := -1.0, motion_y := -1.0 } s1 (-1.0) (-1.0) hs h
      refine ⟨by rw [h2]; exact hm1, by rw [h3]; exact hm1, ?_⟩
      intro c hc
      have hmem : c.raised ∈ s1.widgets.map (fun c => c.raised) := List.mem_map_of_mem _ hc
      rw [h1] at hmem
      obtain ⟨c0, hc0, he⟩ := List.mem_map.mp hmem
      rw [← he]
      exact outside_point_not_contained c0.target _ _ (htargets c0 hc0).1 (htargets c0 hc0).2
        (by decide!)

/-- C26, counterexample. Two items, item 0 raised under the pointer, a scroll
active and no drag: after `motion_leave` the position is (-1, -1) and item 0 still
has its raised flag set. -/
theorem leave_while_scrolling_keeps_flags :
    ({ two_items_hovered with scrolling := true } : BzCarousel).dragging = false ∧
      (motion_leave wide100 { two_items_hovered with scrolling := true }).map
        (fun s => (s.motion_x, s.motion_y, s.widgets.map (fun c => c.raised)))
        = some (-1, -1, [true, false]) := by
  constructor <;> decide!

/-- C26, amended, on two items with item 0 raised under the pointer and no
gesture active. -/
theorem pointer_leave_unraises_witness :
    ∃ s1, motion_leave wide100 two_items_hovered = some s1 ∧
      s1.motion_x = -1 ∧ s1.motion_y = -1 ∧ ∀ c ∈ s1.widgets, c.raised = false :=
  let hall := (pointer_leave_unraises wide100 two_items_hovered).2.2.1 rfl rfl (by decide!)
  let ⟨s1, h⟩ := hall.1 (by decide)
  ⟨s1, h, hall.2 s1 h⟩

/-! ## Continuous-source scrolling -/

theorem scroll_continuous (gm : WidgetMeasure) (self : BzCarousel) (dx dy : ℚ)
    (source : GdkInputSource)
    (hsrc : source = .GDK_SOURCE_TOUCHPAD ∨ source = .GDK_SOURCE_TRACKPOINT)
    (hm : self.model ≠ none) (hn : g_list_model_get_n_items self.model ≠ 0) :
    scroll gm self dx dy source
      = if start_guard self dx = true then some (false, self)
        else (ensure_viewport gm
          { self with hscroll_current := c_trunc ((self.hscroll_current : ℚ) + dx) }
          false).map (fun s => (true, s)) := by
  unfold scroll
  rw [if_neg hm]
  simp only []
  rw [if_neg hn]
  rcases hsrc with h | h <;> rw [h] <;> rfl

theorem frame_hscroll {a b : BzCarousel} (h : frame a = frame b) :
    a.hscroll_current = b.hscroll_current ∧ a.hscroll_start = b.hscroll_start := by
  have h1 := congrArg BzCarousel.hscroll_current h
  have h2 := congrArg BzCarousel.hscroll_start h
  exact ⟨h1, h2⟩

theorem c_trunc_small (q : ℚ) (h0 : 0 ≤ q) (h1 : q < 1) : c_trunc q = 0 := by
  unfold c_trunc
  rw [if_pos h0, Int.floor_eq_iff]
  constructor
  · simpa using h0
  · simpa using h1

/-- What an accepted or refused continuous-source event leaves in
`hscroll_current`. -/
theorem scroll_continuous_current (gm : WidgetMeasure) (self s1 : BzCarousel) (dx dy : ℚ)
    (source : GdkInputSource) (handled : Bool)
    (hsrc : source = .GDK_SOURCE_TOUCHPAD ∨ source = .GDK_SOURCE_TRACKPOINT)
    (hm : self.model ≠ none) (hn : g_list_model_get_n_items self.model ≠ 0)
    (h : scroll gm self dx dy source = some (handled, s1)) :
    (start_guard self dx = true → handled = false ∧ s1 = self) ∧
      (start_guard self dx = false → handled = true ∧
        s1.hscroll_current = c_trunc ((self.hscroll_current : ℚ) + dx)) := by
  rw [scroll_continuous gm self dx dy source hsrc hm hn] at h
  constructor
  · intro hg
    rw [if_pos hg] at h
    simp only [Option.some.injEq, Prod.mk.injEq] at h
    exact ⟨h.1.symm, h.2.symm⟩
  · intro hg
    rw [if_neg (by rw [hg]; exact Bool.false_ne_true)] at h
    cases he : ensure_viewport gm
        { self with hscroll_current := c_trunc ((self.hscroll_current : ℚ) + dx) } false with
    | none => rw [he] at h; cases h
    | some s2 =>
      rw [he] at h
      simp only [Option.map_some', Option.some.injEq, Prod.mk.injEq] at h
      refine ⟨h.1.symm, ?_⟩
      rw [← h.2]
      exact (frame_hscroll (ensure_viewport_frame gm _ s2 false he).1).1

/-- C27, the code at the failing input: a scroll begins on two items at rest with
the accumulator at 0, and ten touchpad events follow, each with delta 0.4 (none is
refused, the deltas being positive). The accumulator `hscroll_current` is an `int`:
every event stores `trunc (0 + 0.4) = 0`, and after the ten events it is still 0,
where the accumulated sum is 4. In general a continuous-source event with
`0 ≤ dx < 1` on an accumulator `≥ 0` leaves the accumulator as it was. -/
theorem sub_pixel_deltas_are_dropped :
    (scroll_begin two_items_at_rest).hscroll_current = 0 ∧
      (scroll_all wide100 .GDK_SOURCE_TOUCHPAD (scroll_begin two_items_at_rest)
          (List.replicate 10 (2 / 5))).map (fun s => s.hscroll_current) = some 0 ∧
      (∀ (gm : WidgetMeasure) (self s1 : BzCarousel) (dx dy : ℚ) (handled : Bool),
        scroll gm self dx dy .GDK_SOURCE_TOUCHPAD = some (handled, s1) →
        0 ≤ dx → dx < 1 → 0 ≤ self.hscroll_current →
        s1.hscroll_current = self.hscroll_current) := by
  refine ⟨by decide!, by decide!, ?_⟩
  intro gm self s1 dx dy handled h h0 h1 hc
  by_cases hm : self.model = none
  · unfold scroll at h
    rw [if_pos hm] at h
    simp only [Option.some.injEq, Prod.mk.injEq] at h
    rw [← h.2]
  · by_cases hn : g_list_model_get_n_items self.model = 0
    · unfold scroll at h
      rw [if_neg hm] at h
      simp only [] at h
      rw [if_pos hn] at h
      simp only [Option.some.injEq, Prod.mk.injEq] at h
      rw [← h.2]
    · obtain ⟨g1, g2⟩ := scroll_continuous_current gm self s1 dx dy _ handled (Or.inl rfl)
        hm hn h
      by_cases hg : start_guard self dx = true
      · rw [(g1 hg).2]
      · rw [(g2 (by simpa using hg)).2, c_trunc_add_nonneg _ _ hc h0, c_trunc_small dx h0 h1]
        omega

theorem c_round_bounds (q : ℚ) (h : 0 ≤ q) :
    (c_round q : ℚ) ≤ q + 1 / 2 ∧ q + 1 / 2 < (c_round q : ℚ) + 1 := by
  unfold c_round
  rw [if_pos h]
  exact ⟨Int.floor_le _, Int.lt_floor_add_one _⟩

theorem unraised_inset_bounds (H : Int) (hH : 1 ≤ H) :
    0 ≤ c_round ((H : ℚ) * (0.5 * RAISE_FACTOR)) ∧
      c_round ((H : ℚ) * (0.5 * RAISE_FACTOR)) + c_round ((H : ℚ) * (1.0 - RAISE_FACTOR)) ≤ H ∧
      -1 ≤ c_round ((H : ℚ) * (0.5 * RAISE_FACTOR))
          - (H - (c_round ((H : ℚ) * (0.5 * RAISE_FACTOR))
              + c_round ((H : ℚ) * (1.0 - RAISE_FACTOR)))) ∧
      c_round ((H : ℚ) * (0.5 * RAISE_FACTOR))
          - (H - (c_round ((H : ℚ) * (0.5 * RAISE_FACTOR))
              + c_round ((H : ℚ) * (1.0 - RAISE_FACTOR)))) ≤ 1 := by
  have hHq : (0 : ℚ) ≤ (H : ℚ) := by exact_mod_cast (by omega : 0 ≤ H)
  have hy0 : (0 : ℚ) ≤ (H : ℚ) * (0.5 * RAISE_FACTOR) :=
    mul_nonneg hHq (by norm_num [RAISE_FACTOR])
  have hh0 : (0 : ℚ) ≤ (H : ℚ) * (1.0 - RAISE_FACTOR) :=
    mul_nonneg hHq (by norm_num [RAISE_FACTOR])
  obtain ⟨a1, a2⟩ := c_round_bounds _ hy0
  obtain ⟨b1, b2⟩ := c_round_bounds _ hh0
  have hn := c_round_nonneg _ hy0
  generalize c_round ((H : ℚ) * (0.5 * RAISE_FACTOR)) = a at a1 a2 hn ⊢
  generalize c_round ((H : ℚ) * (1.0 - RAISE_FACTOR)) = b at b1 b2 ⊢
  have e1 : (H : ℚ) * (0.5 * RAISE_FACTOR) = (H : ℚ) / 80 := by norm_num [RAISE_FACTOR]; ring
  have e2 : (H : ℚ) * (1.0 - RAISE_FACTOR) = 39 * (H : ℚ) / 40 := by
    norm_num [RAISE_FACTOR]; ring
  rw [e1] at a1 a2
  rw [e2] at b1 b2
  have A1 : 80 * a ≤ H + 40 := by
    have : (80 : ℚ) * (a : ℚ) ≤ (H : ℚ) + 40 := by linarith
    exact_mod_cast this
  have A2 : H + 40 < 80 * a + 80 := by
    have : (H : ℚ) + 40 < 80 * (a : ℚ) + 80 := by linarith
    exact_mod_cast this
  have B1 : 40 * b ≤ 39 * H + 20 := by
    have : (40 : ℚ) * (b : ℚ) ≤ 39 * (H : ℚ) + 20 := by linarith
    exact_mod_cast this
  have B2 : 39 * H + 20 < 40 * b + 40 := by
    have : 39 * (H : ℚ) + 20 < 40 * (b : ℚ) + 40 := by linarith
    exact_mod_cast this
  refine ⟨hn, ?_, ?_, ?_⟩ <;> omega

/-- C29. For every viewport height `h ≥ 1` (and any width and offset) the target
of an unraised item has `y = round (h * 0.0125) ≥ 0`, height `round (h * 0.975)`,
and `y + height ≤ h`; its top inset `y` and its bottom inset `h - (y + height)`
differ by at most one. -/
theorem unraised_fits_vertically (gm : WidgetMeasure) (width height offset : Int)
    (c : CarouselWidgetData) (hH : 1 ≤ height) (hr : c.raised = false) :
    (child_target gm width height offset c).y
        = (c_round ((height : ℚ) * 0.0125) : ℚ) ∧
      (child_target gm width height offset c).height
        = (c_round ((height : ℚ) * 0.975) : ℚ) ∧
      0 ≤ (child_target gm width height offset c).y ∧
      (child_target gm width height offset c).y
          + (child_target gm width height offset c).height ≤ (height : ℚ) ∧
      c_round ((height : ℚ) * 0.0125) + c_round ((height : ℚ) * 0.975) ≤ height ∧
      |(child_target gm width height offset c).y
          - ((height : ℚ) - ((child_target gm width height offset c).y
              + (child_target gm width height offset c).height))| ≤ 1 := by
  obtain ⟨h1, h2, h3, h4⟩ := unraised_inset_bounds height hH
  have e1 : (0.5 : ℚ) * RAISE_FACTOR = 0.0125 := by norm_num [RAISE_FACTOR]
  have e2 : (1.0 : ℚ) - RAISE_FACTOR = 0.975 := by norm_num [RAISE_FACTOR]
  simp only [e1, e2] at h1 h2 h3 h4
  have hy : (child_target gm width height offset c).y
      = (c_round ((height : ℚ) * 0.0125) : ℚ) := by
    simp only [child_target, hr, Bool.false_eq_true, if_false, GRAPHENE_RECT_INIT, e1]
  have hh : (child_target gm width height offset c).height
      = (c_round ((height : ℚ) * 0.975) : ℚ) := by
    simp only [child_target, hr, Bool.false_eq_true, if_false, GRAPHENE_RECT_INIT, e2]
  rw [hy, hh]
  refine ⟨rfl, rfl, ?_, ?_, h2, ?_⟩
  · exact_mod_cast h1
  · exact_mod_cast h2
  · rw [abs_le]
    constructor
    · exact_mod_cast h3
    · exact_mod_cast h4

/-- C29 on an unraised item in a viewport 200 high. -/
theorem unraised_fits_vertically_witness :
    (child_target wide100 300 200 100 ⟨1, 0, graphene_rect_zero, graphene_rect_zero, false⟩).y
        + (child_target wide100 300 200 100
            ⟨1, 0, graphene_rect_zero, graphene_rect_zero, false⟩).height ≤ ((200 : Int) : ℚ) :=
  (unraised_fits_vertically wide100 300 200 100
    ⟨1, 0, graphene_rect_zero, graphene_rect_zero, false⟩ (by decide) rfl).2.2.2.1

/-- C30, the code at the failing input: `is_longer` on a model of three items, and
on an empty model, with `value = -1`. The comparison converts -1 to the `guint`
4294967295 and the callback answers FALSE. It answers FALSE for every negative
`value` on a model of fewer than 2^31 items; for `0 ≤ value` it answers whether
the item count is greater than `value`; a NULL model gives FALSE. -/
theorem is_longer_refuses_negative :
    is_longer (some [1, 2, 3]) (-1) = false ∧ is_longer (some []) (-1) = false ∧
      (∀ (m : GListModel) (value : Int), value < 0 → -2 ^ 31 ≤ value → m.length < 2 ^ 31 →
        is_longer (some m) value = false) ∧
      (∀ (m : GListModel) (value : Int), 0 ≤ value → value < 2 ^ 31 → m.length < 2 ^ 32 →
        (is_longer (some m) value = true ↔ (m.length : Int) > value)) ∧
      ∀ value : Int, is_longer none value = false := by
  refine ⟨by decide, by decide, ?_, ?_, fun _ => rfl⟩
  · intro m value h0 h1 hm
    unfold is_longer
    simp only [decide_eq_false_iff_not, not_lt, gt_iff_lt]
    have e : value % 2 ^ 32 = value + 2 ^ 32 := by omega
    rw [e, Nat.mod_eq_of_lt (by omega)]
    omega
  · intro m value h0 h1 hm
    unfold is_longer
    simp only [decide_eq_true_eq, gt_iff_lt]
    rw [Int.emod_eq_of_lt h0 (by omega), Nat.mod_eq_of_lt hm]
    omega

end Bazaar
